import Mathlib

/-!
Verification of the ROT500K family (KanaShift / PhonoShift) against its
specification.

The development shallowly embeds the two Python source modules
`ports/python/phonoshift.py` and `src-python/kanashift.py`.  Text is a
`List Char` of Unicode scalar values (Python processes strings scalar by
scalar).  Python's arbitrary-precision integers become `Int`/`Nat`; note
that Lean's `Int.emod` agrees with Python's `%` for a positive modulus.
Byte strings are `List Nat` with every element below 256.

The helpers `is_separator`, `is_digit`, `effective_shift`,
`rotate_in_set_no_zero`, the PBKDF2 keystream derivation and
`hmac_sha256_bytes` are textually identical in the two Python modules;
they are defined once in the `ROT500K` namespace and shared.  The
keystream derivation (`hashlib.pbkdf2_hmac("sha256", ...)` /
`hmac.new(..., hashlib.sha256)` in Python) is implemented concretely:
SHA-256, HMAC and PBKDF2 over byte lists, together with the UTF-8
encoding of the password and salt.
-/

namespace ROT500K

/-! ### SHA-256 over byte lists -/

def add32 (a b : Nat) : Nat := (a + b) % 4294967296

def rotr32 (x n : Nat) : Nat := (x >>> n) ||| ((x <<< (32 - n)) % 4294967296)

def not32 (x : Nat) : Nat := x ^^^ 4294967295

def shaCh (x y z : Nat) : Nat := (x &&& y) ^^^ (not32 x &&& z)

def shaMaj (x y z : Nat) : Nat := (x &&& y) ^^^ (x &&& z) ^^^ (y &&& z)

def bsig0 (x : Nat) : Nat := rotr32 x 2 ^^^ rotr32 x 13 ^^^ rotr32 x 22

def bsig1 (x : Nat) : Nat := rotr32 x 6 ^^^ rotr32 x 11 ^^^ rotr32 x 25

def ssig0 (x : Nat) : Nat := rotr32 x 7 ^^^ rotr32 x 18 ^^^ (x >>> 3)

def ssig1 (x : Nat) : Nat := rotr32 x 17 ^^^ rotr32 x 19 ^^^ (x >>> 10)

def shaK : List Nat :=
  List.flatten [
    [1116352408, 1899447441, 3049323471, 3921009573, 961987163, 1508970993],
    [2453635748, 2870763221, 3624381080, 310598401, 607225278, 1426881987],
    [1925078388, 2162078206, 2614888103, 3248222580, 3835390401, 4022224774],
    [264347078, 604807628, 770255983, 1249150122, 1555081692, 1996064986],
    [2554220882, 2821834349, 2952996808, 3210313671, 3336571891, 3584528711],
    [113926993, 338241895, 666307205, 773529912, 1294757372, 1396182291],
    [1695183700, 1986661051, 2177026350, 2456956037, 2730485921, 2820302411],
    [3259730800, 3345764771, 3516065817, 3600352804, 4094571909, 275423344],
    [430227734, 506948616, 659060556, 883997877, 958139571, 1322822218],
    [1537002063, 1747873779, 1955562222, 2024104815, 2227730452, 2361852424],
    [2428436474, 2756734187, 3204031479, 3329325298]]

def shaH0 : List Nat :=
  [1779033703, 3144134277, 1013904242, 2773480762,
   1359893119, 2600822924, 528734635, 1541459225]

def bytesToWords : List Nat → List Nat
  | a :: b :: c :: d :: rest => (a * 16777216 + b * 65536 + c * 256 + d) :: bytesToWords rest
  | _ => []

def extendW : Nat → List Nat → List Nat
  | 0, w => w
  | k + 1, w =>
    extendW k (w ++ [add32 (add32 (ssig1 (w.getD (w.length - 2) 0)) (w.getD (w.length - 7) 0))
                        (add32 (ssig0 (w.getD (w.length - 15) 0)) (w.getD (w.length - 16) 0))])

def shaRound (st : List Nat) (kw : Nat) : List Nat :=
  match st with
  | [a, b, c, d, e, f, g, h] =>
    let t1 := add32 h (add32 (bsig1 e) (add32 (shaCh e f g) kw))
    let t2 := add32 (bsig0 a) (shaMaj a b c)
    [add32 t1 t2, a, b, c, add32 d t1, e, f, g]
  | st => st

def compressBlock (h : List Nat) (block : List Nat) : List Nat :=
  let w := extendW 48 (bytesToWords block)
  let kws := (shaK.zip w).map (fun p => add32 p.1 p.2)
  let st := kws.foldl shaRound h
  (h.zip st).map (fun p => add32 p.1 p.2)

def shaBlocks : Nat → List Nat → List Nat → List Nat
  | 0, st, _ => st
  | gas + 1, st, bs =>
    if bs.isEmpty then st
    else shaBlocks gas (compressBlock st (bs.take 64)) (bs.drop 64)

def be64 (n : Nat) : List Nat :=
  (List.range 8).map (fun i => (n >>> (56 - 8 * i)) % 256)

def be32 (n : Nat) : List Nat :=
  (List.range 4).map (fun i => (n >>> (24 - 8 * i)) % 256)

def wordToBytes (w : Nat) : List Nat :=
  [(w >>> 24) % 256, (w >>> 16) % 256, (w >>> 8) % 256, w % 256]

def sha256 (msg : List Nat) : List Nat :=
  let padded := msg ++ 0x80 :: List.replicate ((64 - (msg.length + 9) % 64) % 64) 0
                    ++ be64 (8 * msg.length)
  let hh := shaBlocks padded.length shaH0 padded
  (hh.map wordToBytes).flatten

/-! ### HMAC-SHA256 and PBKDF2-HMAC-SHA256 over byte lists -/

def hmacSha256 (key msg : List Nat) : List Nat :=
  let k0 := if 64 < key.length then sha256 key else key
  let k0p := k0 ++ List.replicate (64 - k0.length) 0
  sha256 ((k0p.map (fun b => b ^^^ 0x5c)) ++ sha256 ((k0p.map (fun b => b ^^^ 0x36)) ++ msg))

def xorBytes (a b : List Nat) : List Nat :=
  (a.zip b).map (fun p => p.1 ^^^ p.2)

def pbkdf2Chain (pw : List Nat) : Nat → List Nat → List Nat → List Nat
  | 0, _, acc => acc
  | k + 1, u, acc =>
    let u' := hmacSha256 pw u
    pbkdf2Chain pw k u' (xorBytes acc u')

def pbkdf2Block (pw salt : List Nat) (c i : Nat) : List Nat :=
  let u1 := hmacSha256 pw (salt ++ be32 i)
  pbkdf2Chain pw (c - 1) u1 u1

def pbkdf2HmacSha256 (pw salt : List Nat) (c dklen : Nat) : List Nat :=
  (((List.range ((dklen + 31) / 32)).map (fun i => pbkdf2Block pw salt c (i + 1))).flatten).take dklen

/-! ### UTF-8 encoding of scalar lists (Python `str.encode("utf-8")`) -/

def utf8Char (ch : Char) : List Nat :=
  let n := ch.toNat
  if n < 0x80 then [n]
  else if n < 0x800 then [0xC0 ||| (n >>> 6), 0x80 ||| (n % 64)]
  else if n < 0x10000 then
    [0xE0 ||| (n >>> 12), 0x80 ||| ((n >>> 6) % 64), 0x80 ||| (n % 64)]
  else
    [0xF0 ||| (n >>> 18), 0x80 ||| ((n >>> 12) % 64), 0x80 ||| ((n >>> 6) % 64), 0x80 ||| (n % 64)]

def utf8 (s : List Char) : List Nat := (s.map utf8Char).flatten

/-! ### Shared helpers (identical in `phonoshift.py` and `kanashift.py`) -/

def is_separator (ch : Char) : Bool := ch == ' ' || ch == '-' || ch == '\''

def is_digit (ch : Char) : Bool := '0' ≤ ch && ch ≤ '9'

def is_fullwidth_digit (ch : Char) : Bool := '０' ≤ ch && ch ≤ '９'

def is_ascii_upper (ch : Char) : Bool := 'A' ≤ ch && ch ≤ 'Z'

def is_ascii_lower (ch : Char) : Bool := 'a' ≤ ch && ch ≤ 'z'

def to_lower_ascii (ch : Char) : Char :=
  if is_ascii_upper ch then Char.ofNat (ch.toNat ||| 0x20) else ch

/- `chr(ord(ch) & ~0x20)`: for an ASCII lowercase letter this clears bit 5. -/
def to_upper_ascii (ch : Char) : Char :=
  if is_ascii_lower ch then Char.ofNat (ch.toNat ^^^ 0x20) else ch

def effective_shift (shift : Int) (set_size : Nat) : Int :=
  if set_size ≤ 1 then 0
  else
    let m := shift % (set_size : Int)
    if m = 0 then (if 0 ≤ shift then 1 else -1) else m

/- Python `str.find` returns `-1` when absent; `List.findIdx` returns the
length, so the guard `idx < 0` becomes `length ≤ idx`.  The rotated index
is `(idx + effective_shift(shift, n)) % n`. -/
def rotate_in_set_no_zero (set_chars : List Char) (ch : Char) (shift : Int) : Char :=
  if set_chars.length ≤ set_chars.findIdx (· == ch) then ch
  else
    set_chars.getD
      ((((set_chars.findIdx (· == ch) : Int) + effective_shift shift set_chars.length) %
        (set_chars.length : Int)).toNat) ch

/- As above but with the raw `shift % n` (the identity rotation is allowed). -/
def rotate_in_set_allow_zero (set_chars : List Char) (ch : Char) (shift : Int) : Char :=
  if set_chars.length ≤ set_chars.findIdx (· == ch) then ch
  else
    set_chars.getD
      ((((set_chars.findIdx (· == ch) : Int) + shift % (set_chars.length : Int)) %
        (set_chars.length : Int)).toNat) ch

/- `derive_keystream` / `pbkdf2_keystream`: PBKDF2-HMAC-SHA256 of the UTF-8
encoded password and salt, `max(1, iterations)` rounds, `max(need, 32)`
output bytes. -/
def derive_keystream (password salt : List Char) (iterations need_bytes : Nat) : List Nat :=
  pbkdf2HmacSha256 (utf8 password) (utf8 salt) (max 1 iterations) (max need_bytes 32)

def hmac_sha256_bytes (key_str msg_str : List Char) : List Nat :=
  hmacSha256 (utf8 key_str) (utf8 msg_str)

/- Keystream cursor step: `kpos += 1; if kpos >= len(ks): kpos = 0`. -/
def next_kpos (len kpos : Nat) : Nat := if len ≤ kpos + 1 then 0 else kpos + 1

structure VerifiedResult where
  ok : Bool
  value : List Char
  deriving Repr, DecidableEq

end ROT500K

namespace Phonoshift

open ROT500K

/-! ### `phonoshift.py`: core transform -/

def VOW_LO : List Char := "aeiou".toList

def CON_LO : List Char := "bcdfghjklmnpqrstvwxyz".toList

def VOW_LO_PT : List Char := "áàâãäéèêëíìîïóòôõöúùûü".toList

def VOW_UP_PT : List Char := "ÁÀÂÃÄÉÈÊËÍÌÎÏÓÒÔÕÖÚÙÛÜ".toList

def CON_LO_PT : List Char := "ç".toList

def CON_UP_PT : List Char := "Ç".toList

/- Body of the per-scalar branch of `transform_name_name_like_fpe`
(everything after the keystream byte has been read). -/
def phono_char (shift : Int) (c : Char) : Char :=
  if is_digit c then
    let d : Int := (c.toNat : Int) - 48
    let nd := (d + shift % 10 + 10) % 10
    Char.ofNat (48 + nd).toNat
  else
    let upper := is_ascii_upper c || VOW_UP_PT.contains c || CON_UP_PT.contains c
    let lc := to_lower_ascii c
    if VOW_LO.contains lc then
      let ch := rotate_in_set_no_zero VOW_LO lc shift
      if upper then to_upper_ascii ch else ch
    else if CON_LO.contains lc then
      let ch := rotate_in_set_no_zero CON_LO lc shift
      if upper then to_upper_ascii ch else ch
    else if VOW_LO_PT.contains c then rotate_in_set_no_zero VOW_LO_PT c shift
    else if VOW_UP_PT.contains c then rotate_in_set_no_zero VOW_UP_PT c shift
    else if CON_LO_PT.contains c then rotate_in_set_no_zero CON_LO_PT c shift
    else if CON_UP_PT.contains c then rotate_in_set_no_zero CON_UP_PT c shift
    else c

/- The scalar loop of `transform_name_name_like_fpe`: separators are
emitted unchanged without advancing the cursor; every other scalar reads
one keystream byte (`shift = (b + 1) * direction`) and advances it. -/
def transform_go (ks : List Nat) (dir : Int) : List Char → Nat → List Char
  | [], _ => []
  | c :: rest, kpos =>
    if is_separator c then c :: transform_go ks dir rest kpos
    else
      let shift : Int := ((ks.getD kpos 0 : Int) + 1) * dir
      phono_char shift c :: transform_go ks dir rest (next_kpos ks.length kpos)

def transform_name_name_like_fpe (s password : List Char) (iterations : Nat) (salt : List Char)
    (direction : Int) : List Char :=
  if s.isEmpty then s
  else
    let ks := derive_keystream password salt iterations (s.length + 64)
    transform_go ks direction s 0

/-! ### `phonoshift.py`: optional punctuation shifting -/

def P_OPEN : List Char := "¿¡".toList

def P_END : List Char := "!?".toList

def is_shift_punct (ch : Char) : Bool := P_OPEN.contains ch || P_END.contains ch

def punct_go (ks : List Nat) (dir : Int) : List Char → Nat → List Char
  | [], _ => []
  | c :: rest, kpos =>
    if is_shift_punct c then
      let shift : Int := ((ks.getD kpos 0 : Int) + 1) * dir
      let c' := if P_OPEN.contains c then rotate_in_set_no_zero P_OPEN c shift
                else rotate_in_set_no_zero P_END c shift
      c' :: punct_go ks dir rest (next_kpos ks.length kpos)
    else c :: punct_go ks dir rest kpos

def punct_shift_apply (s password : List Char) (iterations : Nat) (salt : List Char)
    (direction : Int) : List Char :=
  if s.isEmpty then s
  else
    let need := s.countP (fun c => is_shift_punct c)
    if need = 0 then s
    else
      let ks := derive_keystream password (salt ++ "|PunctShift:v1".toList) iterations (need + 64)
      punct_go ks direction s 0

/-! ### `phonoshift.py`: public base API -/

def rot500k_encrypt (name password : List Char) (iterations : Nat) (salt : List Char)
    (shift_punctuation : Bool) : List Char :=
  let r := transform_name_name_like_fpe name password iterations salt 1
  if shift_punctuation then punct_shift_apply r password iterations salt 1 else r

def rot500k_decrypt (obfuscated password : List Char) (iterations : Nat) (salt : List Char)
    (shift_punctuation : Bool) : List Char :=
  let s := if shift_punctuation then punct_shift_apply obfuscated password iterations salt (-1)
           else obfuscated
  transform_name_name_like_fpe s password iterations salt (-1)

/-! ### `phonoshift.py`: ROT500KT token verification -/

def is_token_sep (ch : Char) : Bool := " -'.,!?:;\t\n\r".toList.contains ch

def is_all_digits_str (s : List Char) : Bool := !s.isEmpty && s.all is_digit

def is_all_upper_go : List Char → Bool → Bool
  | [], has_letter => has_letter
  | c :: cs, has_letter =>
    if is_ascii_lower c then false
    else is_all_upper_go cs (has_letter || is_ascii_upper c)

def is_all_upper_ascii (s : List Char) : Bool := is_all_upper_go s false

def CONSET : List Char := "bcdfghjklmnpqrstvwxyz".toList

def token_digest (password salt : List Char) (iterations token_index : Nat)
    (token_plain : List Char) : List Nat :=
  hmac_sha256_bytes password
    ("PhonoShiftTok:v1|".toList ++ salt ++ "|".toList ++ (Nat.repr iterations).toList
      ++ "|".toList ++ (Nat.repr token_index).toList ++ "|".toList ++ token_plain)

def make_token_check (token_plain : List Char) (kind : String) (mac_bytes : List Nat)
    (check_chars_per_token : Nat) : List Char :=
  let n := max 1 check_chars_per_token
  let upper_mode := kind == "alpha" && is_all_upper_ascii token_plain
  (List.range n).map (fun i =>
    let b := mac_bytes.getD ((i * 7) &&& 31) 0
    if kind == "digits" then Char.ofNat (48 + b % 10)
    else
      let ch := CONSET.getD (b % CONSET.length) 'b'
      if upper_mode then to_upper_ascii ch else ch)

/- The `flush()` body of `build_plain_token_checks` for one finished token. -/
def token_check_for (password salt : List Char) (iterations N tok_idx : Nat)
    (t : List Char) : List Char :=
  let kind := if is_all_digits_str t then "digits" else "alpha"
  let mac := token_digest password salt iterations tok_idx t
  make_token_check t kind mac N

def build_checks_go (password salt : List Char) (iterations N : Nat) :
    List Char → List Char → Nat → List (List Char)
  | [], tok, tok_idx =>
    if tok.isEmpty then [] else [token_check_for password salt iterations N tok_idx tok]
  | c :: cs, tok, tok_idx =>
    if is_token_sep c then
      if tok.isEmpty then build_checks_go password salt iterations N cs [] tok_idx
      else token_check_for password salt iterations N tok_idx tok ::
             build_checks_go password salt iterations N cs [] (tok_idx + 1)
    else build_checks_go password salt iterations N cs (tok ++ [c]) tok_idx

def build_plain_token_checks (plain password salt : List Char) (iterations N : Nat) :
    List (List Char) :=
  build_checks_go password salt iterations N plain [] 0

/- `attach_checks_to_cipher` raises `ValueError` on a token/check count
mismatch; the two raise-statements become `none`. -/
def attach_go (checks : List (List Char)) : List Char → List Char → Nat → Option (List Char)
  | [], tok, tok_idx =>
    if tok.isEmpty then (if tok_idx = checks.length then some [] else none)
    else if checks.length ≤ tok_idx then none
    else if tok_idx + 1 = checks.length then some (tok ++ checks.getD tok_idx []) else none
  | c :: cs, tok, tok_idx =>
    if is_token_sep c then
      if tok.isEmpty then (attach_go checks cs [] tok_idx).map (fun r => c :: r)
      else if checks.length ≤ tok_idx then none
      else (attach_go checks cs [] (tok_idx + 1)).map
             (fun r => tok ++ checks.getD tok_idx [] ++ c :: r)
    else attach_go checks cs (tok ++ [c]) tok_idx

def attach_checks_to_cipher (cipher : List Char) (checks : List (List Char)) :
    Option (List Char) :=
  attach_go checks cipher [] 0

def strip_go (n : Nat) : List Char → List Char → Option (List Char × List (List Char))
  | [], tok =>
    if tok.isEmpty then some ([], [])
    else if tok.length ≤ n then none
    else some (tok.take (tok.length - n), [tok.drop (tok.length - n)])
  | c :: cs, tok =>
    if is_token_sep c then
      if tok.isEmpty then (strip_go n cs []).map (fun bg => (c :: bg.1, bg.2))
      else if tok.length ≤ n then none
      else (strip_go n cs []).map
             (fun bg => (tok.take (tok.length - n) ++ c :: bg.1, tok.drop (tok.length - n) :: bg.2))
    else strip_go n cs (tok ++ [c])

def strip_checks_from_tagged (tagged : List Char) (check_chars_per_token : Nat) :
    Option (List Char × List (List Char)) :=
  strip_go (max 1 check_chars_per_token) tagged []

def rot500k_token_tagged (name password : List Char) (iterations : Nat) (salt : List Char)
    (check_chars_per_token : Nat) (shift_punctuation : Bool) : Option (List Char) :=
  let cipher := transform_name_name_like_fpe name password iterations salt 1
  let checks := build_plain_token_checks name password salt iterations check_chars_per_token
  (attach_checks_to_cipher cipher checks).map
    (fun out => if shift_punctuation then punct_shift_apply out password iterations salt 1 else out)

def rot500k_token_tagged_decrypt (tagged password : List Char) (iterations : Nat)
    (salt : List Char) (check_chars_per_token : Nat) (shift_punctuation : Bool) :
    VerifiedResult :=
  let s := if shift_punctuation then punct_shift_apply tagged password iterations salt (-1)
           else tagged
  match strip_checks_from_tagged s check_chars_per_token with
  | none => ⟨false, []⟩
  | some (base_cipher, given_checks) =>
    let plain := transform_name_name_like_fpe base_cipher password iterations salt (-1)
    let expected := build_plain_token_checks plain password salt iterations check_chars_per_token
    if expected.length ≠ given_checks.length then ⟨false, []⟩
    else if (expected.zip given_checks).all (fun p => p.1 == p.2) then ⟨true, plain⟩
    else ⟨false, []⟩

/-! ### `phonoshift.py`: ROT500KP prefix verification -/

def ROT500K_TAG_DOMAIN : List Char := "PhonoShiftTag:v1".toList

def PT_LETTERS : List Char := "áàâãäéèêëíìîïóòôõöúùûüÁÀÂÃÄÉÈÊËÍÌÎÏÓÒÔÕÖÚÙÛÜçÇ".toList

def only_letters_ascii_or_pt (c : Char) : Bool :=
  is_ascii_upper c || is_ascii_lower c || PT_LETTERS.contains c

def detect_case_go : List Char → Bool → Bool → Bool → Bool × Bool × Bool
  | [], h, u, l => (h, u, l)
  | c :: cs, h, u, l =>
    if !only_letters_ascii_or_pt c then detect_case_go cs h u l
    else if is_ascii_upper c then detect_case_go cs true true l
    else if is_ascii_lower c then detect_case_go cs true u true
    else detect_case_go cs true true true

def detect_case_style (plain : List Char) : String :=
  let r := detect_case_go plain false false false
  if !r.1 then "title"
  else if r.2.1 && !r.2.2 then "upper"
  else if r.2.2 && !r.2.1 then "lower"
  else "title"

/- Python `str.upper` / `str.lower`; the strings they are applied to here
are the pronounceable phrases built from ASCII consonant/vowel pairs, on
which they coincide with the ASCII case maps. -/
def str_upper (w : List Char) : List Char := w.map to_upper_ascii

def str_lower (w : List Char) : List Char := w.map to_lower_ascii

def apply_case_style_to_word (w : List Char) (style : String) : List Char :=
  if w.isEmpty then w
  else if style == "upper" then str_upper w
  else if style == "lower" then str_lower w
  else
    let low := str_lower w
    str_upper (low.take 1) ++ low.drop 1

def split_space_go : List Char → List Char → List (List Char)
  | [], cur => [cur]
  | c :: cs, cur =>
    if c == ' ' then cur :: split_space_go cs [] else split_space_go cs (cur ++ [c])

def split_space (s : List Char) : List (List Char) := split_space_go s []

def join_space : List (List Char) → List Char
  | [] => []
  | [w] => w
  | w :: ws => w ++ ' ' :: join_space ws

def apply_case_style_to_phrase (phrase : List Char) (style : String) : List Char :=
  join_space ((split_space phrase).map (fun w => apply_case_style_to_word w style))

def make_pronounceable_word_from_bytes (mac : List Nat) (offset syllables : Nat) : List Char :=
  ((List.range syllables).map (fun i =>
    let x := mac.getD ((offset + i) &&& 31) 0
    [("bcdfghjklmnpqrstvwxyz".toList).getD (x % 21) 'b',
     ("aeiou".toList).getD ((x / 21) % 5) 'a'])).flatten

def pick_punct_from_bytes (mac : List Nat) : List Char :=
  [("? ".toList), ("! ".toList)].getD (mac.getD 0 0 % 2) []

def build_tag_prefix_for_plaintext (plain password : List Char) (iterations : Nat)
    (salt : List Char) : List Char :=
  let msg := ROT500K_TAG_DOMAIN ++ "|".toList ++ salt ++ "|".toList
              ++ (Nat.repr iterations).toList ++ "|".toList ++ plain
  let mac := hmac_sha256_bytes password msg
  let w1 := make_pronounceable_word_from_bytes mac 1 3
  let w2 := make_pronounceable_word_from_bytes mac 4 3
  let phrase := w1 ++ ' ' :: w2
  let punct := pick_punct_from_bytes mac
  let style := detect_case_style plain
  apply_case_style_to_phrase phrase style ++ punct

/- `split_tagged_prefix`: first `?`/`!` followed by a space splits the
text; an empty remainder yields `None` immediately. -/
def split_tagged_pfx : List Char → Option (List Char × List Char)
  | [] => none
  | [_] => none
  | a :: b :: rest =>
    if (a == '?' || a == '!') && b == ' ' then
      if rest.isEmpty then none else some ([a], rest)
    else (split_tagged_pfx (b :: rest)).map (fun pc => (a :: pc.1, pc.2))

def rot500k_prefix_tagged (name password : List Char) (iterations : Nat) (salt : List Char)
    (shift_punctuation : Bool) : List Char :=
  let cipher := transform_name_name_like_fpe name password iterations salt 1
  let out := build_tag_prefix_for_plaintext name password iterations salt ++ cipher
  if shift_punctuation then punct_shift_apply out password iterations salt 1 else out

def rot500k_prefix_tagged_decrypt (tagged password : List Char) (iterations : Nat)
    (salt : List Char) (shift_punctuation : Bool) : VerifiedResult :=
  let s := if shift_punctuation then punct_shift_apply tagged password iterations salt (-1)
           else tagged
  match split_tagged_pfx s with
  | none => ⟨false, []⟩
  | some (prefix_given, cipher) =>
    let plain := transform_name_name_like_fpe cipher password iterations salt (-1)
    let expected := build_tag_prefix_for_plaintext plain password iterations salt
    let expected_no_space := expected.take (expected.length - 1)
    if expected_no_space == prefix_given then ⟨true, plain⟩ else ⟨false, []⟩

def rot500kv_safe_decrypt (obfuscated password : List Char) (iterations : Nat)
    (salt : List Char) (check_chars_per_token : Nat) (shift_punctuation : Bool) :
    VerifiedResult :=
  let kt := rot500k_token_tagged_decrypt obfuscated password iterations salt
              check_chars_per_token shift_punctuation
  if kt.ok then kt
  else
    let kp := rot500k_prefix_tagged_decrypt obfuscated password iterations salt
                shift_punctuation
    if kp.ok then kp else ⟨false, []⟩

def rot500kv_decrypt (obfuscated password : List Char) (iterations : Nat) (salt : List Char)
    (check_chars_per_token : Nat) (shift_punctuation : Bool) : VerifiedResult :=
  rot500kv_safe_decrypt obfuscated password iterations salt check_chars_per_token
    shift_punctuation

end Phonoshift

namespace Kanashift

open ROT500K

/-! ### `kanashift.py`: punctuation translation (ASCII <-> JP fullwidth) -/

def punct_enc_char (c : Char) : Char :=
  if c == '?' then '？'
  else if c == '!' then '！'
  else if c == ',' then '、'
  else if c == '.' then '。'
  else if c == ':' then '：'
  else if c == ';' then '；'
  else if c == '(' then '（'
  else if c == ')' then '）'
  else if c == '[' then '［'
  else if c == ']' then '］'
  else if c == '\x7b' then '｛'
  else if c == '\x7d' then '｝'
  else if c == '"' then '＂'
  else c

def punct_dec_char (c : Char) : Char :=
  if c == '？' then '?'
  else if c == '！' then '!'
  else if c == '、' then ','
  else if c == '。' then '.'
  else if c == '：' then ':'
  else if c == '；' then ';'
  else if c == '（' then '('
  else if c == '）' then ')'
  else if c == '［' then '['
  else if c == '］' then ']'
  else if c == '｛' then '\x7b'
  else if c == '｝' then '\x7d'
  else if c == '＂' then '"'
  else c

def punct_translate (s : List Char) (direction : Int) : List Char :=
  if s.isEmpty then s
  else s.map (fun c => if 0 < direction then punct_enc_char c else punct_dec_char c)

/-! ### `kanashift.py`: keyed JP punctuation shifting -/

def P_END : List Char := "！？".toList

def P_MID : List Char := "、。・".toList

def is_shift_punct (ch : Char) : Bool := P_END.contains ch || P_MID.contains ch

/- The loop body of the JP `punct_shift_apply`:
`shift = (ks[kpos] & 0xFF) * direction` (a zero byte is allowed). -/
def punct_go (ks : List Nat) (dir : Int) : List Char → Nat → List Char
  | [], _ => []
  | c :: rest, kpos =>
    if is_shift_punct c then
      let shift : Int := ((ks.getD kpos 0 % 256 : Nat) : Int) * dir
      let c' := if P_END.contains c then rotate_in_set_no_zero P_END c shift
                else rotate_in_set_no_zero P_MID c shift
      c' :: punct_go ks dir rest (next_kpos ks.length kpos)
    else c :: punct_go ks dir rest kpos

def pbkdf2_keystream (password salt : List Char) (iterations need_bytes : Nat) : List Nat :=
  derive_keystream password salt iterations need_bytes

def punct_shift_apply (s password : List Char) (iterations : Nat) (salt : List Char)
    (direction : Int) : List Char :=
  if s.isEmpty then s
  else
    let need := s.countP (fun c => is_shift_punct c)
    if need = 0 then s
    else
      let ks := pbkdf2_keystream password (salt ++ "|PunctShiftJP:v2".toList) iterations (need + 64)
      punct_go ks direction s 0

/-! ### `kanashift.py`: FAMILY A, the Japanese-looking skin -/

def P_VOW_LO : List Char := "aeiou".toList

def P_VOW_UP : List Char := "AEIOU".toList

def P_CON_LO : List Char := "bcdfghjklmnpqrstvwxyz".toList

def P_CON_UP : List Char := "BCDFGHJKLMNPQRSTVWXYZ".toList

def P_VOW_LO_PT : List Char := "áàâãäéèêëíìîïóòôõöúùûü".toList

def P_VOW_UP_PT : List Char := "ÁÀÂÃÄÉÈÊËÍÌÎÏÓÒÔÕÖÚÙÛÜ".toList

def C_CED_LO : Char := 'ゞ'

def C_CED_UP : Char := 'ヾ'

def C_VOW_LO : List Char := "あいうえお".toList

def C_CON_LO : List Char := "さしすせそたちつてとなにぬねのはひふへほま".toList

def C_VOW_UP : List Char := "アイウエオ".toList

def C_CON_UP : List Char := "サシスセソタチツテトナニヌネノハヒフヘホマ".toList

def C_ACC_LO : List Char := "かきくけこみむめもやゆよらりるれろわをんゐゑゔゝ".toList

def C_ACC_UP : List Char := "カキクケコミムメモヤユヨラリルレロワヲンヰヱヴヽ".toList

/- `map_rotate` inside `_skin_transform`; Python's `None` becomes `none`.
`n` is always the length of the plain set, also on the decode side. -/
def map_rotate (plain_set cipher_set : List Char) (ch : Char) (shift dirn : Int) :
    Option Char :=
  if plain_set.length ≤ 1 then none
  else if 0 < dirn then
    if plain_set.length ≤ plain_set.findIdx (· == ch) then none
    else
      some (cipher_set.getD
        ((((plain_set.findIdx (· == ch) : Int) + shift % (plain_set.length : Int)) %
          (plain_set.length : Int)).toNat) ch)
  else
    if cipher_set.length ≤ cipher_set.findIdx (· == ch) then none
    else
      some (plain_set.getD
        ((((cipher_set.findIdx (· == ch) : Int) + shift % (plain_set.length : Int)) %
          (plain_set.length : Int)).toNat) ch)

/- Body of the per-scalar branch of `_skin_transform` (after the
keystream byte has been read). -/
def skin_char (dir shift : Int) (c : Char) : Char :=
  if 0 < dir then
    if is_digit c then
      let d : Int := (c.toNat : Int) - 48
      let nd := (d + shift % 10 + 10) % 10
      Char.ofNat (0xFF10 + nd).toNat
    else if P_VOW_LO.contains c then (map_rotate P_VOW_LO C_VOW_LO c shift 1).getD c
    else if P_CON_LO.contains c then (map_rotate P_CON_LO C_CON_LO c shift 1).getD c
    else if P_VOW_UP.contains c then (map_rotate P_VOW_UP C_VOW_UP c shift 1).getD c
    else if P_CON_UP.contains c then (map_rotate P_CON_UP C_CON_UP c shift 1).getD c
    else if P_VOW_LO_PT.contains c then (map_rotate P_VOW_LO_PT C_ACC_LO c shift 1).getD c
    else if P_VOW_UP_PT.contains c then (map_rotate P_VOW_UP_PT C_ACC_UP c shift 1).getD c
    else if c == 'ç' then C_CED_LO
    else if c == 'Ç' then C_CED_UP
    else c
  else
    if is_digit c || is_fullwidth_digit c then
      let d : Int := if is_digit c then (c.toNat : Int) - 48 else (c.toNat : Int) - 0xFF10
      let nd := (d + shift % 10 + 10) % 10
      Char.ofNat (48 + nd).toNat
    else if C_VOW_LO.contains c then (map_rotate P_VOW_LO C_VOW_LO c shift (-1)).getD c
    else if C_CON_LO.contains c then (map_rotate P_CON_LO C_CON_LO c shift (-1)).getD c
    else if C_VOW_UP.contains c then (map_rotate P_VOW_UP C_VOW_UP c shift (-1)).getD c
    else if C_CON_UP.contains c then (map_rotate P_CON_UP C_CON_UP c shift (-1)).getD c
    else if C_ACC_LO.contains c then (map_rotate P_VOW_LO_PT C_ACC_LO c shift (-1)).getD c
    else if C_ACC_UP.contains c then (map_rotate P_VOW_UP_PT C_ACC_UP c shift (-1)).getD c
    else if c == C_CED_LO then 'ç'
    else if c == C_CED_UP then 'Ç'
    else c

/- The scalar loop of `_skin_transform`:
`shift = ((ks[kpos] & 0xFF) + 1) * direction`. -/
def skin_go (ks : List Nat) (dir : Int) : List Char → Nat → List Char
  | [], _ => []
  | c :: rest, kpos =>
    if is_separator c then c :: skin_go ks dir rest kpos
    else
      let shift : Int := (((ks.getD kpos 0 % 256 : Nat) : Int) + 1) * dir
      skin_char dir shift c :: skin_go ks dir rest (next_kpos ks.length kpos)

def skin_transform (text password : List Char) (iterations : Nat) (salt : List Char)
    (direction : Int) : List Char :=
  if text.isEmpty then text
  else
    let ks := pbkdf2_keystream password salt iterations (text.length + 64)
    skin_go ks direction text 0

def kanashift_skin_encrypt (text password : List Char) (iterations : Nat) (salt : List Char)
    (shift_punctuation : Bool) : List Char :=
  let r := skin_transform text password iterations salt 1
  let r := punct_translate r 1
  if shift_punctuation then punct_shift_apply r password iterations salt 1 else r

def kanashift_skin_decrypt (obfuscated password : List Char) (iterations : Nat)
    (salt : List Char) (shift_punctuation : Bool) : List Char :=
  let s := if shift_punctuation then punct_shift_apply obfuscated password iterations salt (-1)
           else obfuscated
  let s := punct_translate s (-1)
  skin_transform s password iterations salt (-1)

/-! ### `kanashift.py`: FAMILY B, JP-native -/

def is_kanji (ch : Char) : Bool := 0x4E00 ≤ ch.toNat && ch.toNat ≤ 0x9FFF

def rotate_codepoint_range_no_zero (ch : Char) (shift : Int) (lo hi : Nat) : Char :=
  if ch.toNat < lo || hi < ch.toNat then ch
  else
    Char.ofNat (lo +
      ((((ch.toNat : Int) - (lo : Int)) + effective_shift shift (hi - lo + 1)) %
        ((hi - lo + 1 : Nat) : Int)).toNat)

def build_kana_set (from_cp to_cp : Nat) : List Char :=
  (List.range (to_cp + 1 - from_cp)).map (fun i => Char.ofNat (from_cp + i))

def JP_HIRA : List Char := build_kana_set 0x3041 0x3096

def JP_KATA : List Char := build_kana_set 0x30A1 0x30FA

def is_hiragana (ch : Char) : Bool := 0x3041 ≤ ch.toNat && ch.toNat ≤ 0x3096

def is_katakana (ch : Char) : Bool := 0x30A1 ≤ ch.toNat && ch.toNat ≤ 0x30FA

def is_stable_jp_mark (ch : Char) : Bool := "ー々ゝゞヽヾ".toList.contains ch

def rotate_ascii_alpha_phono (ch : Char) (shift : Int) : Char :=
  let V := "aeiou".toList
  let C := "bcdfghjklmnpqrstvwxyz".toList
  if is_ascii_upper ch then
    let low := to_lower_ascii ch
    if V.contains low then to_upper_ascii (rotate_in_set_allow_zero V low shift)
    else if C.contains low then to_upper_ascii (rotate_in_set_allow_zero C low shift)
    else ch
  else if is_ascii_lower ch then
    if V.contains ch then rotate_in_set_allow_zero V ch shift
    else if C.contains ch then rotate_in_set_allow_zero C ch shift
    else ch
  else ch

/- Body of the per-scalar branch of `_jp_native_transform` (after the
keystream byte has been read; `shift = (ks[kpos] & 0xFF) * direction`). -/
def jp_char (dir shift : Int) (c : Char) : Char :=
  if is_ascii_upper c || is_ascii_lower c then rotate_ascii_alpha_phono c shift
  else if 0 < dir && is_digit c then
    let d : Int := (c.toNat : Int) - 48
    let nd := (d + effective_shift shift 10 + 10) % 10
    Char.ofNat (0xFF10 + nd).toNat
  else if 0 < dir && is_fullwidth_digit c then
    let d : Int := (c.toNat : Int) - 0xFF10
    let nd := (d + effective_shift shift 10 + 10) % 10
    Char.ofNat (0xFF10 + nd).toNat
  else if !(0 < dir) && (is_digit c || is_fullwidth_digit c) then
    let d : Int := if is_digit c then (c.toNat : Int) - 48 else (c.toNat : Int) - 0xFF10
    let nd := (d + effective_shift shift 10 + 10) % 10
    Char.ofNat (48 + nd).toNat
  else if is_hiragana c then rotate_in_set_no_zero JP_HIRA c shift
  else if is_katakana c then rotate_in_set_no_zero JP_KATA c shift
  else if is_kanji c then rotate_codepoint_range_no_zero c shift 0x4E00 0x9FFF
  else c

def jp_go (ks : List Nat) (dir : Int) : List Char → Nat → List Char
  | [], _ => []
  | c :: rest, kpos =>
    if is_separator c then c :: jp_go ks dir rest kpos
    else if is_stable_jp_mark c then c :: jp_go ks dir rest kpos
    else
      let shift : Int := ((ks.getD kpos 0 % 256 : Nat) : Int) * dir
      jp_char dir shift c :: jp_go ks dir rest (next_kpos ks.length kpos)

def jp_native_transform (text password : List Char) (iterations : Nat) (salt : List Char)
    (direction : Int) : List Char :=
  if text.isEmpty then text
  else
    let ks := pbkdf2_keystream password (salt ++ "|JPNative:v2|AsciiShift".toList) iterations
                (text.length + 64)
    jp_go ks direction text 0

def kanashift_jp_encrypt (text password : List Char) (iterations : Nat) (salt : List Char)
    (shift_punctuation : Bool) : List Char :=
  let r := jp_native_transform text password iterations salt 1
  let r := punct_translate r 1
  if shift_punctuation then punct_shift_apply r password iterations salt 1 else r

def kanashift_jp_decrypt (obfuscated password : List Char) (iterations : Nat)
    (salt : List Char) (shift_punctuation : Bool) : List Char :=
  let s := if shift_punctuation then punct_shift_apply obfuscated password iterations salt (-1)
           else obfuscated
  let s := punct_translate s (-1)
  jp_native_transform s password iterations salt (-1)

/-! ### `kanashift.py`: KT token verification (shared by both families) -/

def is_token_sep (ch : Char) : Bool :=
  " 　-'.,!?:;。、！？：；・「」『』（）［］｛｝\t\n\r".toList.contains ch

def is_all_digits_str_anywidth (s : List Char) : Bool :=
  !s.isEmpty && s.all (fun c => is_digit c || is_fullwidth_digit c)

def KANA_CHK : List Char := "さしすせそたちつてとなにぬねのはひふへほま".toList

def make_token_check (kind : String) (mac : List Nat) (check_chars_per_token : Nat) :
    List Char :=
  let n := max 1 check_chars_per_token
  (List.range n).map (fun i =>
    let b := mac.getD ((i * 7) &&& 31) 0
    if kind == "digits" then Char.ofNat (0xFF10 + b % 10)
    else KANA_CHK.getD (b % KANA_CHK.length) 'さ')

def token_digest (password salt : List Char) (iterations token_index : Nat)
    (token_plain domain : List Char) : List Nat :=
  hmac_sha256_bytes password
    (domain ++ "|".toList ++ salt ++ "|".toList ++ (Nat.repr iterations).toList
      ++ "|".toList ++ (Nat.repr token_index).toList ++ "|".toList ++ token_plain)

/- The `flush()` body of the kana `build_plain_token_checks`. -/
def token_check_for (password salt : List Char) (iterations N tok_idx : Nat)
    (domain : List Char) (norm_fn : List Char → List Char) (t : List Char) : List Char :=
  let kind := if is_all_digits_str_anywidth t then "digits" else "alpha"
  let tnorm := norm_fn t
  let mac := token_digest password salt iterations tok_idx tnorm domain
  make_token_check kind mac N

def build_checks_go (password salt : List Char) (iterations N : Nat) (domain : List Char)
    (norm_fn : List Char → List Char) : List Char → List Char → Nat → List (List Char)
  | [], tok, tok_idx =>
    if tok.isEmpty then []
    else [token_check_for password salt iterations N tok_idx domain norm_fn tok]
  | c :: cs, tok, tok_idx =>
    if is_token_sep c then
      if tok.isEmpty then build_checks_go password salt iterations N domain norm_fn cs [] tok_idx
      else token_check_for password salt iterations N tok_idx domain norm_fn tok ::
             build_checks_go password salt iterations N domain norm_fn cs [] (tok_idx + 1)
    else build_checks_go password salt iterations N domain norm_fn cs (tok ++ [c]) tok_idx

def build_plain_token_checks (plain password salt : List Char) (iterations N : Nat)
    (domain : List Char) (norm_fn : List Char → List Char) : List (List Char) :=
  build_checks_go password salt iterations N domain norm_fn plain [] 0

def attach_go (checks : List (List Char)) : List Char → List Char → Nat → Option (List Char)
  | [], tok, tok_idx =>
    if tok.isEmpty then (if tok_idx = checks.length then some [] else none)
    else if checks.length ≤ tok_idx then none
    else if tok_idx + 1 = checks.length then some (tok ++ checks.getD tok_idx []) else none
  | c :: cs, tok, tok_idx =>
    if is_token_sep c then
      if tok.isEmpty then (attach_go checks cs [] tok_idx).map (fun r => c :: r)
      else if checks.length ≤ tok_idx then none
      else (attach_go checks cs [] (tok_idx + 1)).map
             (fun r => tok ++ checks.getD tok_idx [] ++ c :: r)
    else attach_go checks cs (tok ++ [c]) tok_idx

def attach_checks_to_cipher (cipher : List Char) (checks : List (List Char)) :
    Option (List Char) :=
  attach_go checks cipher [] 0

def strip_go (n : Nat) : List Char → List Char → Option (List Char × List (List Char))
  | [], tok =>
    if tok.isEmpty then some ([], [])
    else if tok.length ≤ n then none
    else some (tok.take (tok.length - n), [tok.drop (tok.length - n)])
  | c :: cs, tok =>
    if is_token_sep c then
      if tok.isEmpty then (strip_go n cs []).map (fun bg => (c :: bg.1, bg.2))
      else if tok.length ≤ n then none
      else (strip_go n cs []).map
             (fun bg => (tok.take (tok.length - n) ++ c :: bg.1, tok.drop (tok.length - n) :: bg.2))
    else strip_go n cs (tok ++ [c])

def strip_checks_from_tagged (tagged : List Char) (check_chars_per_token : Nat) :
    Option (List Char × List (List Char)) :=
  strip_go (max 1 check_chars_per_token) tagged []

def TOK_DOMAIN_SKIN : List Char := "KanaShiftTok:v2".toList

def TOK_DOMAIN_JP : List Char := "KanaShiftTokJP:v2".toList

def family_token_tagged_encrypt (plain password : List Char) (iterations : Nat)
    (salt : List Char) (check_chars_per_token : Nat) (shift_punctuation : Bool)
    (core_transform_fn : List Char → List Char → Nat → List Char → Int → List Char)
    (tok_domain : List Char) (norm_fn : List Char → List Char) : Option (List Char) :=
  let cipher := core_transform_fn plain password iterations salt 1
  let checks := build_plain_token_checks plain password salt iterations check_chars_per_token
                  tok_domain norm_fn
  (attach_checks_to_cipher cipher checks).map (fun out =>
    let out := punct_translate out 1
    if shift_punctuation then punct_shift_apply out password iterations salt 1 else out)

def family_token_tagged_decrypt (tagged password : List Char) (iterations : Nat)
    (salt : List Char) (check_chars_per_token : Nat) (shift_punctuation : Bool)
    (core_transform_fn : List Char → List Char → Nat → List Char → Int → List Char)
    (tok_domain : List Char) (norm_fn : List Char → List Char) : VerifiedResult :=
  let s := if shift_punctuation then punct_shift_apply tagged password iterations salt (-1)
           else tagged
  let s := punct_translate s (-1)
  match strip_checks_from_tagged s check_chars_per_token with
  | none => ⟨false, []⟩
  | some (base_cipher, given_checks) =>
    let plain := core_transform_fn base_cipher password iterations salt (-1)
    let expected := build_plain_token_checks plain password salt iterations
                      check_chars_per_token tok_domain norm_fn
    if expected.length ≠ given_checks.length then ⟨false, []⟩
    else if (expected.zip given_checks).all (fun p => p.1 == p.2) then ⟨true, plain⟩
    else ⟨false, []⟩

def norm_token_skin (tok : List Char) : List Char := tok

def norm_token_identity (tok : List Char) : List Char := tok

def kanashift_skin_token_encrypt (text password : List Char) (iterations : Nat)
    (salt : List Char) (check_chars_per_token : Nat) (shift_punctuation : Bool) :
    Option (List Char) :=
  family_token_tagged_encrypt text password iterations salt check_chars_per_token
    shift_punctuation skin_transform TOK_DOMAIN_SKIN norm_token_skin

def kanashift_skin_token_decrypt (tagged password : List Char) (iterations : Nat)
    (salt : List Char) (check_chars_per_token : Nat) (shift_punctuation : Bool) :
    VerifiedResult :=
  family_token_tagged_decrypt tagged password iterations salt check_chars_per_token
    shift_punctuation skin_transform TOK_DOMAIN_SKIN norm_token_skin

def kanashift_jp_token_encrypt (text password : List Char) (iterations : Nat)
    (salt : List Char) (check_chars_per_token : Nat) (shift_punctuation : Bool) :
    Option (List Char) :=
  family_token_tagged_encrypt text password iterations salt check_chars_per_token
    shift_punctuation jp_native_transform TOK_DOMAIN_JP norm_token_identity

def kanashift_jp_token_decrypt (tagged password : List Char) (iterations : Nat)
    (salt : List Char) (check_chars_per_token : Nat) (shift_punctuation : Bool) :
    VerifiedResult :=
  family_token_tagged_decrypt tagged password iterations salt check_chars_per_token
    shift_punctuation jp_native_transform TOK_DOMAIN_JP norm_token_identity

/-! ### Keystream-explicit wrappers

The base-mode wrappers with the two PBKDF2 streams (the core-transform
stream and the punctuation stream) passed explicitly; used to state the
amended roundtrip properties, which hold only under hypotheses on the
keystream bytes that a fixed password does not guarantee. -/

def kanashift_skin_encrypt_with (ks kps : List Nat) (text : List Char)
    (shift_punctuation : Bool) : List Char :=
  let r := skin_go ks 1 text 0
  let r := punct_translate r 1
  if shift_punctuation then punct_go kps 1 r 0 else r

def kanashift_skin_decrypt_with (ks kps : List Nat) (obfuscated : List Char)
    (shift_punctuation : Bool) : List Char :=
  let s := if shift_punctuation then punct_go kps (-1) obfuscated 0 else obfuscated
  let s := punct_translate s (-1)
  skin_go ks (-1) s 0

def kanashift_jp_encrypt_with (ks kps : List Nat) (text : List Char)
    (shift_punctuation : Bool) : List Char :=
  let r := jp_go ks 1 text 0
  let r := punct_translate r 1
  if shift_punctuation then punct_go kps 1 r 0 else r

def kanashift_jp_decrypt_with (ks kps : List Nat) (obfuscated : List Char)
    (shift_punctuation : Bool) : List Char :=
  let s := if shift_punctuation then punct_go kps (-1) obfuscated 0 else obfuscated
  let s := punct_translate s (-1)
  jp_go ks (-1) s 0

/-! ### Scalar domains for the amended roundtrip statements -/

def skin_cipher_scalar (c : Char) : Bool :=
  C_VOW_LO.contains c || C_CON_LO.contains c || C_VOW_UP.contains c || C_CON_UP.contains c ||
    C_ACC_LO.contains c || C_ACC_UP.contains c || c == C_CED_LO || c == C_CED_UP

def fw_punct_value (c : Char) : Bool := "？！、。：；（）［］｛｝＂".toList.contains c

def skin_safe (c : Char) : Bool :=
  !skin_cipher_scalar c && !is_fullwidth_digit c && !fw_punct_value c

def jp_safe (c : Char) : Bool := !is_fullwidth_digit c && !fw_punct_value c

end Kanashift

namespace ROT500K

/- Number of (nonempty, maximal) tokens a `flush`-style loop over `cs`
will emit, given whether a partial token is already buffered. -/
def tok_count (sep : Char → Bool) : List Char → Bool → Nat
  | [], in_tok => if in_tok then 1 else 0
  | c :: cs, in_tok =>
    if sep c then (if in_tok then 1 else 0) + tok_count sep cs false
    else tok_count sep cs true

end ROT500K

namespace Phonoshift

open ROT500K

/- Scalars of no recognized PhonoShift alphabet: the final `else` branch
of the per-scalar dispatch in `transform_name_name_like_fpe`. -/
def unsupported_scalar (c : Char) : Bool :=
  !is_separator c && !is_digit c &&
    !VOW_LO.contains (to_lower_ascii c) && !CON_LO.contains (to_lower_ascii c) &&
    !VOW_LO_PT.contains c && !VOW_UP_PT.contains c &&
    !CON_LO_PT.contains c && !CON_UP_PT.contains c

end Phonoshift

namespace Kanashift

open ROT500K

/- Scalars of no recognized skin-family alphabet, in either direction. -/
def skin_unsupported (c : Char) : Bool :=
  !is_separator c && !is_digit c && !is_fullwidth_digit c &&
    !P_VOW_LO.contains c && !P_CON_LO.contains c && !P_VOW_UP.contains c &&
    !P_CON_UP.contains c && !P_VOW_LO_PT.contains c && !P_VOW_UP_PT.contains c &&
    !(c == 'ç') && !(c == 'Ç') && !skin_cipher_scalar c

/- Scalars of no recognized JP-native alphabet. -/
def jp_unsupported (c : Char) : Bool :=
  !is_separator c && !is_stable_jp_mark c && !is_ascii_upper c && !is_ascii_lower c &&
    !is_digit c && !is_fullwidth_digit c && !is_hiragana c && !is_katakana c && !is_kanji c

end Kanashift

/-! ## Theorems -/

namespace ROT500K

/-! ### Generic facts about `findIdx`, `getD` and the rotation helpers -/

theorem char_toNat_ofNat {n : Nat} (h : n < 55296) : (Char.ofNat n).toNat = n := by
  have hv : n.isValidChar := Or.inl h
  simp [Char.ofNat, hv, Char.ofNatAux, Char.toNat, UInt32.toNat]

theorem findIdx_lt_of_mem {A : List Char} {c : Char} (h : c ∈ A) :
    A.findIdx (· == c) < A.length := by
  induction A with
  | nil => cases h
  | cons a as ih =>
    rw [List.findIdx_cons]
    by_cases hac : (a == c)
    · simp [hac]
    · have hc : c ∈ as := by
        rcases List.mem_cons.mp h with h1 | h1
        · exact absurd (beq_iff_eq.mpr h1.symm) hac
        · exact h1
      simpa [hac] using Nat.succ_lt_succ (ih hc)

theorem getD_findIdx {A : List Char} {c : Char} (h : c ∈ A) (d : Char) :
    A.getD (A.findIdx (· == c)) d = c := by
  induction A with
  | nil => cases h
  | cons a as ih =>
    rw [List.findIdx_cons]
    by_cases hac : (a == c)
    · simp [hac, eq_of_beq hac]
    · have hc : c ∈ as := by
        rcases List.mem_cons.mp h with h1 | h1
        · exact absurd (beq_iff_eq.mpr h1.symm) hac
        · exact h1
      simpa [hac] using ih hc

theorem getD_mem {α : Type} {A : List α} {j : Nat} (hj : j < A.length) (d : α) :
    A.getD j d ∈ A := by
  rw [List.getD_eq_getElem _ _ hj]
  exact List.getElem_mem hj

theorem getD_default_irrel {α : Type} {A : List α} {j : Nat} (hj : j < A.length) (d d' : α) :
    A.getD j d = A.getD j d' := by
  rw [List.getD_eq_getElem _ _ hj, List.getD_eq_getElem _ _ hj]

theorem findIdx_getD_of_nodup {A : List Char} (hnd : A.Nodup) {j : Nat} (hj : j < A.length)
    (d : Char) : A.findIdx (· == A.getD j d) = j := by
  induction A generalizing j with
  | nil => simp at hj
  | cons a as ih =>
    rcases List.nodup_cons.mp hnd with ⟨ha, hnd'⟩
    cases j with
    | zero => simp [List.findIdx_cons]
    | succ j =>
      have hj' : j < as.length := by simpa using hj
      rw [List.getD_cons_succ, List.findIdx_cons]
      have hne : (a == as.getD j d) = false :=
        beq_eq_false_iff_ne.mpr (fun he => ha (he ▸ getD_mem hj' d))
      simp only [hne, cond_false, ih hnd' hj']

theorem emod_add_left_emod (a b n : Int) : (a % n + b) % n = (a + b) % n := by
  conv_lhs => rw [Int.add_emod]
  rw [Int.emod_emod_of_dvd _ dvd_rfl, ← Int.add_emod]

/- The load-bearing inversion fact about `effective_shift`: for a nonzero
shift the effective shifts of `shift` and `-shift` cancel modulo the set
size.  (For `shift = 0` they do not: both equal `+1`.) -/
theorem effective_shift_total {s : Int} (hs : s ≠ 0) (n : Nat) (hn : 1 ≤ n) :
    (effective_shift s n + effective_shift (-s) n) % (n : Int) = 0 := by
  rcases Nat.lt_or_ge n 2 with h2 | h2
  · have hn1 : n = 1 := by omega
    subst hn1
    simp [effective_shift]
  · have hn1 : ¬ n ≤ 1 := by omega
    have hNpos : (0 : Int) < (n : Int) := by exact_mod_cast (by omega : 0 < n)
    rw [effective_shift, effective_shift, if_neg hn1, if_neg hn1]
    by_cases hm : s % (n : Int) = 0
    · have hdvd : (n : Int) ∣ s := Int.dvd_of_emod_eq_zero hm
      have hm' : (-s) % (n : Int) = 0 := Int.emod_eq_zero_of_dvd (dvd_neg.mpr hdvd)
      rw [if_pos hm, if_pos hm']
      rcases lt_or_gt_of_ne hs with hneg | hpos
      · have ha : ¬ (0 ≤ s) := by omega
        have hb : (0 ≤ -s) := by omega
        simp [ha, hb]
      · have ha : (0 ≤ s) := by omega
        have hb : ¬ (0 ≤ -s) := by omega
        simp [ha, hb]
    · have hm' : (-s) % (n : Int) ≠ 0 := fun h0 =>
        hm (Int.emod_eq_zero_of_dvd (dvd_neg.mp (Int.dvd_of_emod_eq_zero h0)))
      rw [if_neg hm, if_neg hm', ← Int.add_emod]
      simp

theorem rotate_in_set_no_zero_eq_getD {A : List Char} {c : Char} (hc : c ∈ A) (s : Int) :
    rotate_in_set_no_zero A c s =
      A.getD ((((A.findIdx (· == c) : Int) + effective_shift s A.length) %
        (A.length : Int)).toNat) c := by
  rw [rotate_in_set_no_zero, if_neg (Nat.not_le.mpr (findIdx_lt_of_mem hc))]

theorem rotate_in_set_no_zero_index_lt {A : List Char} {c : Char} (hc : c ∈ A) (e : Int) :
    (((A.findIdx (· == c) : Int) + e) % (A.length : Int)).toNat < A.length := by
  have hlen : 0 < A.length := List.length_pos.mpr (List.ne_nil_of_mem hc)
  have hNpos : (0 : Int) < (A.length : Int) := by exact_mod_cast hlen
  have h0 := Int.emod_nonneg ((A.findIdx (· == c) : Int) + e) (ne_of_gt hNpos)
  have h1 := Int.emod_lt_of_pos ((A.findIdx (· == c) : Int) + e) hNpos
  omega

theorem rotate_in_set_no_zero_mem {A : List Char} {c : Char} (hc : c ∈ A) (s : Int) :
    rotate_in_set_no_zero A c s ∈ A := by
  rw [rotate_in_set_no_zero_eq_getD hc]
  exact getD_mem (rotate_in_set_no_zero_index_lt hc _) c

theorem rotate_in_set_no_zero_inv {A : List Char} (hnd : A.Nodup) {c : Char} (hc : c ∈ A)
    {s : Int} (hs : s ≠ 0) :
    rotate_in_set_no_zero A (rotate_in_set_no_zero A c s) (-s) = c := by
  have hlen : 0 < A.length := List.length_pos.mpr (List.ne_nil_of_mem hc)
  have hNpos : (0 : Int) < (A.length : Int) := by exact_mod_cast hlen
  have hidxlt : A.findIdx (· == c) < A.length := findIdx_lt_of_mem hc
  have hjz0 : 0 ≤ ((A.findIdx (· == c) : Int) + effective_shift s A.length) % (A.length : Int) :=
    Int.emod_nonneg _ (ne_of_gt hNpos)
  have hjlt := rotate_in_set_no_zero_index_lt hc (effective_shift s A.length)
  rw [rotate_in_set_no_zero_eq_getD hc, rotate_in_set_no_zero, findIdx_getD_of_nodup hnd hjlt,
    if_neg (Nat.not_le.mpr hjlt), Int.toNat_of_nonneg hjz0, emod_add_left_emod]
  have hsum : (effective_shift s A.length + effective_shift (-s) A.length) % (A.length : Int) = 0 :=
    effective_shift_total hs A.length (by omega)
  obtain ⟨t, ht⟩ := Int.dvd_of_emod_eq_zero hsum
  rw [add_assoc, ht, Int.add_mul_emod_self_left,
    Int.emod_eq_of_lt (by exact_mod_cast Nat.zero_le _) (by exact_mod_cast hidxlt),
    Int.toNat_natCast]
  rw [getD_default_irrel hidxlt _ c]
  exact getD_findIdx hc c

theorem rotate_in_set_allow_zero_eq_getD {A : List Char} {c : Char} (hc : c ∈ A) (s : Int) :
    rotate_in_set_allow_zero A c s =
      A.getD ((((A.findIdx (· == c) : Int) + s % (A.length : Int)) %
        (A.length : Int)).toNat) c := by
  rw [rotate_in_set_allow_zero, if_neg (Nat.not_le.mpr (findIdx_lt_of_mem hc))]

theorem rotate_in_set_allow_zero_mem {A : List Char} {c : Char} (hc : c ∈ A) (s : Int) :
    rotate_in_set_allow_zero A c s ∈ A := by
  rw [rotate_in_set_allow_zero_eq_getD hc]
  exact getD_mem (rotate_in_set_no_zero_index_lt hc _) c

theorem rotate_in_set_allow_zero_inv {A : List Char} (hnd : A.Nodup) {c : Char} (hc : c ∈ A)
    (s : Int) :
    rotate_in_set_allow_zero A (rotate_in_set_allow_zero A c s) (-s) = c := by
  have hlen : 0 < A.length := List.length_pos.mpr (List.ne_nil_of_mem hc)
  have hNpos : (0 : Int) < (A.length : Int) := by exact_mod_cast hlen
  have hidxlt : A.findIdx (· == c) < A.length := findIdx_lt_of_mem hc
  have hjz0 : 0 ≤ ((A.findIdx (· == c) : Int) + s % (A.length : Int)) % (A.length : Int) :=
    Int.emod_nonneg _ (ne_of_gt hNpos)
  have hjlt := rotate_in_set_no_zero_index_lt hc (s % (A.length : Int))
  rw [rotate_in_set_allow_zero_eq_getD hc, rotate_in_set_allow_zero,
    findIdx_getD_of_nodup hnd hjlt, if_neg (Nat.not_le.mpr hjlt), Int.toNat_of_nonneg hjz0,
    emod_add_left_emod]
  have hsum : (s % (A.length : Int) + (-s) % (A.length : Int)) % (A.length : Int) = 0 := by
    rw [← Int.add_emod]
    simp
  obtain ⟨t, ht⟩ := Int.dvd_of_emod_eq_zero hsum
  rw [add_assoc, ht, Int.add_mul_emod_self_left,
    Int.emod_eq_of_lt (by exact_mod_cast Nat.zero_le _) (by exact_mod_cast hidxlt),
    Int.toNat_natCast]
  rw [getD_default_irrel hidxlt _ c]
  exact getD_findIdx hc c

end ROT500K

open ROT500K in
/-- Counterexample to C5.  At `shift = 0` the no-zero rotation is not
inverted by negating the shift: with alphabet `"abc"` (pairwise distinct,
length 3 ≥ 2) and `ch = 'a'`, rotating by `0` and then by `-0` yields
`'c'`, not `'a'`; likewise `(effective_shift 0 3 + effective_shift (-0) 3)
% 3 = 2 ≠ 0`, because both effective shifts are `+1`. -/
theorem claim5_counterexample :
    rotate_in_set_no_zero ("abc".toList) (rotate_in_set_no_zero ("abc".toList) 'a' 0)
      (-(0 : Int)) ≠ 'a' ∧
    (effective_shift 0 3 + effective_shift (-(0 : Int)) 3) % (3 : Int) ≠ 0 := by
  decide

open ROT500K in
/-- C5 (amended): for every alphabet of pairwise-distinct scalars with at
least two elements, every member `ch`, and every NONZERO integer shift,
`rotate_in_set_no_zero A (rotate_in_set_no_zero A ch s) (-s) = ch`, and
for every `n ≥ 2` the effective shifts of `s` and `-s` cancel mod `n`. -/
theorem claim5_rotation_inverse (A : List Char) (h1 : A.Nodup) (h2 : 2 ≤ A.length)
    (ch : Char) (h3 : ch ∈ A) (s : Int) (h4 : s ≠ 0) :
    rotate_in_set_no_zero A (rotate_in_set_no_zero A ch s) (-s) = ch ∧
    ∀ n : Nat, 2 ≤ n → (effective_shift s n + effective_shift (-s) n) % (n : Int) = 0 :=
  ⟨rotate_in_set_no_zero_inv h1 h3 h4, fun n hn => effective_shift_total h4 n (by omega)⟩

open ROT500K in
/-- Witness for the amended C5 at the concrete alphabet `"abc"`, member
`'a'` and shift `5`. -/
theorem claim5_rotation_inverse_witness :
    ("abc".toList).Nodup ∧ 2 ≤ ("abc".toList).length ∧ 'a' ∈ "abc".toList ∧ (5 : Int) ≠ 0 ∧
    (rotate_in_set_no_zero ("abc".toList) (rotate_in_set_no_zero ("abc".toList) 'a' 5) (-5) = 'a' ∧
     ∀ n : Nat, 2 ≤ n → (effective_shift 5 n + effective_shift (-(5 : Int)) n) % (n : Int) = 0) :=
  ⟨by decide, by decide, by decide, by decide,
   claim5_rotation_inverse ("abc".toList) (by decide) (by decide) 'a' (by decide) 5 (by decide)⟩

/-- Counterexample to C6: the Portuguese accented vowel alphabet `VPT_LO`
(`P_VOW_LO_PT` in the skin family) has 22 scalars, not 24. -/
theorem claim6_counterexample : Kanashift.P_VOW_LO_PT.length ≠ 24 := by decide

/-- C6 (amended): the vowel and consonant plain/cipher pairs of the skin
family have equal cardinality (5/5 and 21/21, lower and upper case), but
the accented pair does not: `VPT_LO` and `VPT_UP` have 22 scalars each
while the paired kana sets `C_ACC_LO` and `C_ACC_UP` have 24; the
index-preserving mapping uses the plain length 22 and never reaches the
last two kana. -/
theorem claim6_alphabet_sizes :
    Kanashift.P_VOW_LO.length = Kanashift.C_VOW_LO.length ∧
    Kanashift.P_CON_LO.length = Kanashift.C_CON_LO.length ∧
    Kanashift.P_VOW_UP.length = Kanashift.C_VOW_UP.length ∧
    Kanashift.P_CON_UP.length = Kanashift.C_CON_UP.length ∧
    Kanashift.P_VOW_LO_PT.length = 22 ∧ Kanashift.P_VOW_UP_PT.length = 22 ∧
    Kanashift.C_ACC_LO.length = 24 ∧ Kanashift.C_ACC_UP.length = 24 := by
  decide

namespace ROT500K

theorem contains_iff {A : List Char} {c : Char} : (A.contains c = true) ↔ c ∈ A :=
  List.elem_iff

theorem char_le_iff {a b : Char} : a ≤ b ↔ a.toNat ≤ b.toNat :=
  ⟨fun h => h, fun h => h⟩

theorem is_digit_iff {c : Char} : is_digit c = true ↔ 48 ≤ c.toNat ∧ c.toNat ≤ 57 := by
  simp only [is_digit, Bool.and_eq_true, decide_eq_true_eq]
  exact and_congr char_le_iff char_le_iff

theorem is_ascii_upper_iff {c : Char} : is_ascii_upper c = true ↔ 65 ≤ c.toNat ∧ c.toNat ≤ 90 := by
  simp only [is_ascii_upper, Bool.and_eq_true, decide_eq_true_eq]
  exact and_congr char_le_iff char_le_iff

theorem is_ascii_lower_iff {c : Char} : is_ascii_lower c = true ↔ 97 ≤ c.toNat ∧ c.toNat ≤ 122 := by
  simp only [is_ascii_lower, Bool.and_eq_true, decide_eq_true_eq]
  exact and_congr char_le_iff char_le_iff

theorem is_fullwidth_digit_iff {c : Char} :
    is_fullwidth_digit c = true ↔ 0xFF10 ≤ c.toNat ∧ c.toNat ≤ 0xFF19 := by
  simp only [is_fullwidth_digit, Bool.and_eq_true, decide_eq_true_eq]
  exact and_congr char_le_iff char_le_iff

theorem char_bounded_upper (c : Char) (h : is_ascii_upper c = true) :
    ∃ m, (65 ≤ m ∧ m ≤ 90) ∧ c = Char.ofNat m :=
  ⟨c.toNat, is_ascii_upper_iff.mp h, (Char.ofNat_toNat c).symm⟩

theorem to_upper_to_lower_ascii {c : Char} (h : is_ascii_upper c = true) :
    to_upper_ascii (to_lower_ascii c) = c := by
  obtain ⟨m, ⟨hm1, hm2⟩, rfl⟩ := char_bounded_upper c h
  interval_cases m <;> decide

theorem to_lower_ascii_of_not_upper {c : Char} (h : is_ascii_upper c = false) :
    to_lower_ascii c = c := by
  rw [to_lower_ascii, if_neg]
  simp [h]

theorem rotate_singleton (x : Char) (s : Int) : rotate_in_set_no_zero [x] x s = x := by
  rw [rotate_in_set_no_zero]
  simp [List.findIdx_cons, effective_shift]

end ROT500K

namespace Phonoshift

open ROT500K

/-! ### Alphabet facts (finite checks) -/

theorem vow_lo_nodup : VOW_LO.Nodup := by decide

theorem con_lo_nodup : CON_LO.Nodup := by decide

theorem vow_lo_pt_nodup : VOW_LO_PT.Nodup := by decide

theorem vow_up_pt_nodup : VOW_UP_PT.Nodup := by decide

theorem vow_lo_facts : ∀ x ∈ VOW_LO,
    is_separator x = false ∧ is_digit x = false ∧ is_ascii_upper x = false ∧
    to_lower_ascii x = x ∧ x ∉ VOW_UP_PT ∧ x ∉ CON_UP_PT ∧ is_token_sep x = false := by
  decide

theorem vow_lo_upper_facts : ∀ x ∈ VOW_LO,
    is_separator (to_upper_ascii x) = false ∧ is_digit (to_upper_ascii x) = false ∧
    is_ascii_upper (to_upper_ascii x) = true ∧ to_lower_ascii (to_upper_ascii x) = x ∧
    to_upper_ascii x ∉ VOW_UP_PT ∧ to_upper_ascii x ∉ CON_UP_PT ∧
    is_token_sep (to_upper_ascii x) = false := by decide

theorem con_lo_facts : ∀ x ∈ CON_LO,
    is_separator x = false ∧ is_digit x = false ∧ is_ascii_upper x = false ∧
    to_lower_ascii x = x ∧ x ∉ VOW_LO ∧ x ∉ VOW_UP_PT ∧ x ∉ CON_UP_PT ∧
    is_token_sep x = false := by decide

theorem con_lo_upper_facts : ∀ x ∈ CON_LO,
    is_separator (to_upper_ascii x) = false ∧ is_digit (to_upper_ascii x) = false ∧
    is_ascii_upper (to_upper_ascii x) = true ∧ to_lower_ascii (to_upper_ascii x) = x ∧
    to_upper_ascii x ∉ VOW_UP_PT ∧ to_upper_ascii x ∉ CON_UP_PT ∧
    is_token_sep (to_upper_ascii x) = false := by decide

theorem vow_lo_pt_facts : ∀ x ∈ VOW_LO_PT,
    is_separator x = false ∧ is_digit x = false ∧ is_ascii_upper x = false ∧
    x ∉ VOW_LO ∧ x ∉ CON_LO ∧ x ∉ VOW_UP_PT ∧ x ∉ CON_UP_PT ∧
    is_token_sep x = false := by decide

theorem vow_up_pt_facts : ∀ x ∈ VOW_UP_PT,
    is_separator x = false ∧ is_digit x = false ∧ is_ascii_upper x = false ∧
    x ∉ VOW_LO ∧ x ∉ CON_LO ∧ x ∉ VOW_LO_PT ∧
    is_token_sep x = false := by decide

theorem pt_sets_big :
    (∀ x ∈ VOW_LO_PT, 90 < x.toNat) ∧ (∀ x ∈ VOW_UP_PT, 90 < x.toNat) ∧
    (∀ x ∈ CON_LO_PT, 90 < x.toNat) ∧ (∀ x ∈ CON_UP_PT, 90 < x.toNat) := by decide

theorem contains_eq_false {A : List Char} {c : Char} (h : c ∉ A) : A.contains c = false := by
  cases hb : A.contains c
  · rfl
  · exact absurd (ROT500K.contains_iff.mp hb) h

theorem token_sep_chars_facts :
    ∀ x ∈ (" -'.,!?:;\t\n\r".toList), (x.toNat < 48 ∨ 57 < x.toNat) ∧ x.toNat < 65 := by
  decide

theorem is_token_sep_digit_false {c : Char} (h : is_digit c = true) : is_token_sep c = false := by
  have hb := is_digit_iff.mp h
  rw [is_token_sep]
  refine contains_eq_false (fun hm => ?_)
  have := (token_sep_chars_facts c hm).1
  omega

theorem is_separator_digit_false {c : Char} (h : is_digit c = true) : is_separator c = false := by
  have hb := is_digit_iff.mp h
  have hne1 : c ≠ ' ' := fun he => absurd (he ▸ hb) (by decide)
  have hne2 : c ≠ '-' := fun he => absurd (he ▸ hb) (by decide)
  have hne3 : c ≠ '\'' := fun he => absurd (he ▸ hb) (by decide)
  simp [is_separator, hne1, hne2, hne3]

/-! ### Per-scalar inversion of the PhonoShift core transform -/

theorem phono_char_unclassified {c : Char} (hdig : is_digit c = false)
    (hv : to_lower_ascii c ∉ VOW_LO) (hcon : to_lower_ascii c ∉ CON_LO)
    (hptl : c ∉ VOW_LO_PT) (hptu : c ∉ VOW_UP_PT)
    (hcl : c ∉ CON_LO_PT) (hcu : c ∉ CON_UP_PT) (s : Int) :
    phono_char s c = c := by
  simp [phono_char, hdig, hv, hcon, hptl, hptu, hcl, hcu]

theorem phono_char_digit_eq {c : Char} (h : is_digit c = true) (s : Int) :
    phono_char s c =
      Char.ofNat (48 + ((c.toNat : Int) - 48 + s % 10 + 10) % 10).toNat := by
  simp [phono_char, h]

theorem phono_char_inv_digit {c : Char} (h : is_digit c = true) (s : Int) :
    phono_char (-s) (phono_char s c) = c := by
  have hb := is_digit_iff.mp h
  rw [phono_char_digit_eq h]
  have h10 : (0 : Int) < 10 := by norm_num
  have hnd0 : 0 ≤ ((c.toNat : Int) - 48 + s % 10 + 10) % 10 :=
    Int.emod_nonneg _ (by norm_num)
  have hnd1 : ((c.toNat : Int) - 48 + s % 10 + 10) % 10 < 10 := Int.emod_lt_of_pos _ h10
  have htn : (48 + ((c.toNat : Int) - 48 + s % 10 + 10) % 10).toNat < 55296 := by omega
  have hdig' : is_digit (Char.ofNat (48 + ((c.toNat : Int) - 48 + s % 10 + 10) % 10).toNat)
      = true := by
    rw [is_digit_iff, char_toNat_ofNat htn]
    omega
  rw [phono_char_digit_eq hdig', char_toNat_ofNat htn]
  have hs0 : 0 ≤ s % 10 := Int.emod_nonneg _ (by norm_num)
  have hs1 : s % 10 < 10 := Int.emod_lt_of_pos _ h10
  have key : (48 + (((48 + ((c.toNat : Int) - 48 + s % 10 + 10) % 10).toNat : Int) - 48
      + (-s) % 10 + 10) % 10).toNat = c.toNat := by
    have hc1 : ((48 + ((c.toNat : Int) - 48 + s % 10 + 10) % 10).toNat : Int)
        = 48 + ((c.toNat : Int) - 48 + s % 10 + 10) % 10 := Int.toNat_of_nonneg (by omega)
    rw [hc1]
    omega
  rw [key, Char.ofNat_toNat]

theorem is_digit_false_of_upper {c : Char} (hau : is_ascii_upper c = true) :
    is_digit c = false := by
  cases hd : is_digit c
  · rfl
  · have h1 := is_digit_iff.mp hd
    have h2 := is_ascii_upper_iff.mp hau
    omega

theorem phono_char_eq_vow_lo {c : Char} (hc : c ∈ VOW_LO) (s : Int) :
    phono_char s c = rotate_in_set_no_zero VOW_LO c s := by
  obtain ⟨h1, h2, h3, h4, h5, h6, h7⟩ := vow_lo_facts c hc
  simp [phono_char, h2, h3, h4, h5, h6, hc]

theorem phono_char_inv_vow_lo {c : Char} (hc : c ∈ VOW_LO) {s : Int} (hs : s ≠ 0) :
    phono_char (-s) (phono_char s c) = c := by
  rw [phono_char_eq_vow_lo hc, phono_char_eq_vow_lo (rotate_in_set_no_zero_mem hc s)]
  exact rotate_in_set_no_zero_inv vow_lo_nodup hc hs

theorem phono_char_eq_con_lo {c : Char} (hc : c ∈ CON_LO) (s : Int) :
    phono_char s c = rotate_in_set_no_zero CON_LO c s := by
  obtain ⟨h1, h2, h3, h4, h5, h6, h7, h8⟩ := con_lo_facts c hc
  simp [phono_char, h2, h3, h4, h5, h6, h7, hc]

theorem phono_char_inv_con_lo {c : Char} (hc : c ∈ CON_LO) {s : Int} (hs : s ≠ 0) :
    phono_char (-s) (phono_char s c) = c := by
  rw [phono_char_eq_con_lo hc, phono_char_eq_con_lo (rotate_in_set_no_zero_mem hc s)]
  exact rotate_in_set_no_zero_inv con_lo_nodup hc hs

theorem phono_char_eq_vow_upper {c : Char} (hau : is_ascii_upper c = true)
    (hv : to_lower_ascii c ∈ VOW_LO) (s : Int) :
    phono_char s c = to_upper_ascii (rotate_in_set_no_zero VOW_LO (to_lower_ascii c) s) := by
  simp [phono_char, is_digit_false_of_upper hau, hau, hv]

theorem phono_char_inv_vow_upper {c : Char} (hau : is_ascii_upper c = true)
    (hv : to_lower_ascii c ∈ VOW_LO) {s : Int} (hs : s ≠ 0) :
    phono_char (-s) (phono_char s c) = c := by
  rw [phono_char_eq_vow_upper hau hv]
  have hchmem : rotate_in_set_no_zero VOW_LO (to_lower_ascii c) s ∈ VOW_LO :=
    rotate_in_set_no_zero_mem hv s
  obtain ⟨f1, f2, f3, f4, f5, f6, f7⟩ := vow_lo_upper_facts _ hchmem
  rw [phono_char_eq_vow_upper f3 (by rw [f4]; exact hchmem), f4,
    rotate_in_set_no_zero_inv vow_lo_nodup hv hs]
  exact to_upper_to_lower_ascii hau

theorem phono_char_eq_con_upper {c : Char} (hau : is_ascii_upper c = true)
    (hv : to_lower_ascii c ∉ VOW_LO) (hcon : to_lower_ascii c ∈ CON_LO) (s : Int) :
    phono_char s c = to_upper_ascii (rotate_in_set_no_zero CON_LO (to_lower_ascii c) s) := by
  simp [phono_char, is_digit_false_of_upper hau, hau, hv, hcon]

theorem phono_char_inv_con_upper {c : Char} (hau : is_ascii_upper c = true)
    (hv : to_lower_ascii c ∉ VOW_LO) (hcon : to_lower_ascii c ∈ CON_LO) {s : Int}
    (hs : s ≠ 0) : phono_char (-s) (phono_char s c) = c := by
  rw [phono_char_eq_con_upper hau hv hcon]
  have hchmem : rotate_in_set_no_zero CON_LO (to_lower_ascii c) s ∈ CON_LO :=
    rotate_in_set_no_zero_mem hcon s
  obtain ⟨f1, f2, f3, f4, f5', f6, f7⟩ := con_lo_upper_facts _ hchmem
  obtain ⟨g1, g2, g3, g4, g5, g6, g7, g8⟩ := con_lo_facts _ hchmem
  rw [phono_char_eq_con_upper f3 (by rw [f4]; exact g5) (by rw [f4]; exact hchmem), f4,
    rotate_in_set_no_zero_inv con_lo_nodup hcon hs]
  exact to_upper_to_lower_ascii hau

theorem phono_char_eq_vow_lo_pt {c : Char} (hc : c ∈ VOW_LO_PT) (s : Int) :
    phono_char s c = rotate_in_set_no_zero VOW_LO_PT c s := by
  obtain ⟨h1, h2, h3, h4, h5, h6, h7, h8⟩ := vow_lo_pt_facts c hc
  have hlc := to_lower_ascii_of_not_upper h3
  simp [phono_char, h2, h3, hlc, h4, h5, hc, h6, h7]

theorem phono_char_inv_vow_lo_pt {c : Char} (hc : c ∈ VOW_LO_PT) {s : Int} (hs : s ≠ 0) :
    phono_char (-s) (phono_char s c) = c := by
  rw [phono_char_eq_vow_lo_pt hc, phono_char_eq_vow_lo_pt (rotate_in_set_no_zero_mem hc s)]
  exact rotate_in_set_no_zero_inv vow_lo_pt_nodup hc hs

theorem phono_char_eq_vow_up_pt {c : Char} (hc : c ∈ VOW_UP_PT) (s : Int) :
    phono_char s c = rotate_in_set_no_zero VOW_UP_PT c s := by
  obtain ⟨h1, h2, h3, h4, h5, h6, h7⟩ := vow_up_pt_facts c hc
  have hlc := to_lower_ascii_of_not_upper h3
  simp [phono_char, h2, h3, hlc, h4, h5, h6, hc]

theorem phono_char_inv_vow_up_pt {c : Char} (hc : c ∈ VOW_UP_PT) {s : Int} (hs : s ≠ 0) :
    phono_char (-s) (phono_char s c) = c := by
  rw [phono_char_eq_vow_up_pt hc, phono_char_eq_vow_up_pt (rotate_in_set_no_zero_mem hc s)]
  exact rotate_in_set_no_zero_inv vow_up_pt_nodup hc hs

theorem phono_char_eq_ced_lo (s : Int) : phono_char s 'ç' = 'ç' := by
  have h : phono_char s 'ç' = rotate_in_set_no_zero CON_LO_PT 'ç' s := by
    simp [phono_char, (by decide : is_digit 'ç' = false),
      (by decide : is_ascii_upper 'ç' = false), (by decide : to_lower_ascii 'ç' = 'ç'),
      (by decide : 'ç' ∉ VOW_LO), (by decide : 'ç' ∉ CON_LO),
      (by decide : 'ç' ∉ VOW_LO_PT), (by decide : 'ç' ∉ VOW_UP_PT),
      (by decide : 'ç' ∈ CON_LO_PT)]
  rw [h, (by decide : CON_LO_PT = ['ç'])]
  exact rotate_singleton 'ç' s

theorem phono_char_eq_ced_up (s : Int) : phono_char s 'Ç' = 'Ç' := by
  have h : phono_char s 'Ç' = rotate_in_set_no_zero CON_UP_PT 'Ç' s := by
    simp [phono_char, (by decide : is_digit 'Ç' = false),
      (by decide : is_ascii_upper 'Ç' = false), (by decide : to_lower_ascii 'Ç' = 'Ç'),
      (by decide : 'Ç' ∉ VOW_LO), (by decide : 'Ç' ∉ CON_LO),
      (by decide : 'Ç' ∉ VOW_LO_PT), (by decide : 'Ç' ∉ VOW_UP_PT),
      (by decide : 'Ç' ∉ CON_LO_PT), (by decide : 'Ç' ∈ CON_UP_PT)]
  rw [h, (by decide : CON_UP_PT = ['Ç'])]
  exact rotate_singleton 'Ç' s

/- Inversion of the per-scalar transform: for every scalar and every
nonzero shift, applying the transform with `-shift` undoes the transform
with `shift`. -/
theorem phono_char_inv {s : Int} (hs : s ≠ 0) (c : Char) :
    phono_char (-s) (phono_char s c) = c := by
  by_cases hdig : is_digit c = true
  · exact phono_char_inv_digit hdig s
  · replace hdig : is_digit c = false := by
      cases h : is_digit c
      · rfl
      · exact absurd h hdig
    by_cases hau : is_ascii_upper c = true
    · by_cases hv : to_lower_ascii c ∈ VOW_LO
      · exact phono_char_inv_vow_upper hau hv hs
      · by_cases hcon : to_lower_ascii c ∈ CON_LO
        · exact phono_char_inv_con_upper hau hv hcon hs
        · have h90 := (is_ascii_upper_iff.mp hau).2
          have hptl : c ∉ VOW_LO_PT := fun hm => by have := pt_sets_big.1 c hm; omega
          have hptu : c ∉ VOW_UP_PT := fun hm => by have := pt_sets_big.2.1 c hm; omega
          have hcl : c ∉ CON_LO_PT := fun hm => by have := pt_sets_big.2.2.1 c hm; omega
          have hcu : c ∉ CON_UP_PT := fun hm => by have := pt_sets_big.2.2.2 c hm; omega
          rw [phono_char_unclassified hdig hv hcon hptl hptu hcl hcu,
            phono_char_unclassified hdig hv hcon hptl hptu hcl hcu]
    · replace hau : is_ascii_upper c = false := by
        cases h : is_ascii_upper c
        · rfl
        · exact absurd h hau
      have hlc : to_lower_ascii c = c := to_lower_ascii_of_not_upper hau
      by_cases hv : c ∈ VOW_LO
      · exact phono_char_inv_vow_lo hv hs
      · by_cases hcon : c ∈ CON_LO
        · exact phono_char_inv_con_lo hcon hs
        · by_cases hptl : c ∈ VOW_LO_PT
          · exact phono_char_inv_vow_lo_pt hptl hs
          · by_cases hptu : c ∈ VOW_UP_PT
            · exact phono_char_inv_vow_up_pt hptu hs
            · by_cases hced : c = 'ç'
              · subst hced; rw [phono_char_eq_ced_lo, phono_char_eq_ced_lo]
              · by_cases hced2 : c = 'Ç'
                · subst hced2; rw [phono_char_eq_ced_up, phono_char_eq_ced_up]
                · have hcl : c ∉ CON_LO_PT := fun hm => hced (by
                    have : c ∈ ['ç'] := (by decide : CON_LO_PT = ['ç']) ▸ hm
                    simpa using this)
                  have hcu : c ∉ CON_UP_PT := fun hm => hced2 (by
                    have : c ∈ ['Ç'] := (by decide : CON_UP_PT = ['Ç']) ▸ hm
                    simpa using this)
                  have hv' : to_lower_ascii c ∉ VOW_LO := fun hm => hv (hlc ▸ hm)
                  have hcon' : to_lower_ascii c ∉ CON_LO := fun hm => hcon (hlc ▸ hm)
                  rw [phono_char_unclassified hdig hv' hcon' hptl hptu hcl hcu,
                    phono_char_unclassified hdig hv' hcon' hptl hptu hcl hcu]

theorem bool_ne_true {b : Bool} (h : b = false) : ¬(b = true) := by
  rw [h]
  simp

theorem is_separator_upper_false {c : Char} (h : is_ascii_upper c = true) :
    is_separator c = false := by
  have hb := is_ascii_upper_iff.mp h
  have hne1 : c ≠ ' ' := fun he => absurd (he ▸ hb) (by decide)
  have hne2 : c ≠ '-' := fun he => absurd (he ▸ hb) (by decide)
  have hne3 : c ≠ '\'' := fun he => absurd (he ▸ hb) (by decide)
  simp [is_separator, hne1, hne2, hne3]

theorem is_token_sep_upper_false {c : Char} (h : is_ascii_upper c = true) :
    is_token_sep c = false := by
  have hb := is_ascii_upper_iff.mp h
  rw [is_token_sep]
  refine contains_eq_false (fun hm => ?_)
  have := (token_sep_chars_facts c hm).2
  omega

theorem phono_char_digit_out {c : Char} (h : is_digit c = true) (s : Int) :
    is_digit (phono_char s c) = true := by
  have hb := is_digit_iff.mp h
  rw [phono_char_digit_eq h]
  have hnd0 : 0 ≤ ((c.toNat : Int) - 48 + s % 10 + 10) % 10 :=
    Int.emod_nonneg _ (by norm_num)
  have hnd1 : ((c.toNat : Int) - 48 + s % 10 + 10) % 10 < 10 :=
    Int.emod_lt_of_pos _ (by norm_num)
  rw [is_digit_iff, char_toNat_ofNat (by omega)]
  omega

/- Per-scalar class preservation: the transform never moves a scalar into
or out of the separator class or the KT token-separator class. -/
theorem phono_char_class (s : Int) (c : Char) :
    is_separator (phono_char s c) = is_separator c ∧
    is_token_sep (phono_char s c) = is_token_sep c := by
  by_cases hdig : is_digit c = true
  · rw [is_separator_digit_false (phono_char_digit_out hdig s), is_separator_digit_false hdig,
      is_token_sep_digit_false (phono_char_digit_out hdig s), is_token_sep_digit_false hdig]
    exact ⟨rfl, rfl⟩
  · replace hdig : is_digit c = false := by
      cases h : is_digit c
      · rfl
      · exact absurd h hdig
    by_cases hau : is_ascii_upper c = true
    · by_cases hv : to_lower_ascii c ∈ VOW_LO
      · rw [phono_char_eq_vow_upper hau hv]
        obtain ⟨f1, f2, f3, f4, f5, f6, f7⟩ :=
          vow_lo_upper_facts _ (rotate_in_set_no_zero_mem hv s)
        rw [f1, f7, is_separator_upper_false hau, is_token_sep_upper_false hau]
        exact ⟨rfl, rfl⟩
      · by_cases hcon : to_lower_ascii c ∈ CON_LO
        · rw [phono_char_eq_con_upper hau hv hcon]
          obtain ⟨f1, f2, f3, f4, f5, f6, f7⟩ :=
            con_lo_upper_facts _ (rotate_in_set_no_zero_mem hcon s)
          rw [f1, f7, is_separator_upper_false hau, is_token_sep_upper_false hau]
          exact ⟨rfl, rfl⟩
        · have h90 := (is_ascii_upper_iff.mp hau).2
          have hptl : c ∉ VOW_LO_PT := fun hm => by have := pt_sets_big.1 c hm; omega
          have hptu : c ∉ VOW_UP_PT := fun hm => by have := pt_sets_big.2.1 c hm; omega
          have hcl : c ∉ CON_LO_PT := fun hm => by have := pt_sets_big.2.2.1 c hm; omega
          have hcu : c ∉ CON_UP_PT := fun hm => by have := pt_sets_big.2.2.2 c hm; omega
          rw [phono_char_unclassified hdig hv hcon hptl hptu hcl hcu]
          exact ⟨rfl, rfl⟩
    · replace hau : is_ascii_upper c = false := by
        cases h : is_ascii_upper c
        · rfl
        · exact absurd h hau
      have hlc : to_lower_ascii c = c := to_lower_ascii_of_not_upper hau
      by_cases hv : c ∈ VOW_LO
      · rw [phono_char_eq_vow_lo hv]
        obtain ⟨f1, f2, f3, f4, f5, f6, f7⟩ := vow_lo_facts _ (rotate_in_set_no_zero_mem hv s)
        obtain ⟨g1, g2, g3, g4, g5, g6, g7⟩ := vow_lo_facts c hv
        rw [f1, f7, g1, g7]
        exact ⟨rfl, rfl⟩
      · by_cases hcon : c ∈ CON_LO
        · rw [phono_char_eq_con_lo hcon]
          obtain ⟨f1, f2, f3, f4, f5, f6, f7, f8⟩ :=
            con_lo_facts _ (rotate_in_set_no_zero_mem hcon s)
          obtain ⟨g1, g2, g3, g4, g5, g6, g7, g8⟩ := con_lo_facts c hcon
          rw [f1, f8, g1, g8]
          exact ⟨rfl, rfl⟩
        · by_cases hptl : c ∈ VOW_LO_PT
          · rw [phono_char_eq_vow_lo_pt hptl]
            obtain ⟨f1, f2, f3, f4, f5, f6, f7, f8⟩ :=
              vow_lo_pt_facts _ (rotate_in_set_no_zero_mem hptl s)
            obtain ⟨g1, g2, g3, g4, g5, g6, g7, g8⟩ := vow_lo_pt_facts c hptl
            rw [f1, f8, g1, g8]
            exact ⟨rfl, rfl⟩
          · by_cases hptu : c ∈ VOW_UP_PT
            · rw [phono_char_eq_vow_up_pt hptu]
              obtain ⟨f1, f2, f3, f4, f5, f6, f7⟩ :=
                vow_up_pt_facts _ (rotate_in_set_no_zero_mem hptu s)
              obtain ⟨g1, g2, g3, g4, g5, g6, g7⟩ := vow_up_pt_facts c hptu
              rw [f1, f7, g1, g7]
              exact ⟨rfl, rfl⟩
            · by_cases hced : c = 'ç'
              · subst hced; rw [phono_char_eq_ced_lo]; exact ⟨rfl, rfl⟩
              · by_cases hced2 : c = 'Ç'
                · subst hced2; rw [phono_char_eq_ced_up]; exact ⟨rfl, rfl⟩
                · have hcl : c ∉ CON_LO_PT := fun hm => hced (by
                    have : c ∈ ['ç'] := (by decide : CON_LO_PT = ['ç']) ▸ hm
                    simpa using this)
                  have hcu : c ∉ CON_UP_PT := fun hm => hced2 (by
                    have : c ∈ ['Ç'] := (by decide : CON_UP_PT = ['Ç']) ▸ hm
                    simpa using this)
                  have hv' : to_lower_ascii c ∉ VOW_LO := fun hm => hv (hlc ▸ hm)
                  have hcon' : to_lower_ascii c ∉ CON_LO := fun hm => hcon (hlc ▸ hm)
                  rw [phono_char_unclassified hdig hv' hcon' hptl hptu hcl hcu]
                  exact ⟨rfl, rfl⟩

/-! ### The PhonoShift scalar loop: length, class and roundtrip -/

theorem transform_go_cons_sep (ks : List Nat) (dir : Int) (c : Char) (rest : List Char)
    (kpos : Nat) (h : is_separator c = true) :
    transform_go ks dir (c :: rest) kpos = c :: transform_go ks dir rest kpos := by
  rw [transform_go, if_pos h]

theorem transform_go_cons (ks : List Nat) (dir : Int) (c : Char) (rest : List Char)
    (kpos : Nat) (h : is_separator c = false) :
    transform_go ks dir (c :: rest) kpos =
      phono_char (((ks.getD kpos 0 : Int) + 1) * dir) c ::
        transform_go ks dir rest (next_kpos ks.length kpos) := by
  rw [transform_go, if_neg (bool_ne_true h)]

theorem transform_go_length (ks : List Nat) (dir : Int) (cs : List Char) :
    ∀ kpos, (transform_go ks dir cs kpos).length = cs.length := by
  induction cs with
  | nil => intro _; rfl
  | cons c rest ih =>
    intro kpos
    by_cases hsep : is_separator c = true
    · rw [transform_go_cons_sep _ _ _ _ _ hsep]
      simp [ih kpos]
    · have hsep' : is_separator c = false := by
        cases h : is_separator c
        · rfl
        · exact absurd h hsep
      rw [transform_go_cons _ _ _ _ _ hsep']
      simp [ih]

theorem transform_go_roundtrip (ks : List Nat) (cs : List Char) :
    ∀ kpos, transform_go ks (-1) (transform_go ks 1 cs kpos) kpos = cs := by
  induction cs with
  | nil => intro _; rfl
  | cons c rest ih =>
    intro kpos
    by_cases hsep : is_separator c = true
    · rw [transform_go_cons_sep _ _ _ _ _ hsep, transform_go_cons_sep _ _ _ _ _ hsep, ih kpos]
    · have hsep' : is_separator c = false := by
        cases h : is_separator c
        · rfl
        · exact absurd h hsep
      rw [transform_go_cons _ _ _ _ _ hsep']
      have hsout : is_separator (phono_char (((ks.getD kpos 0 : Int) + 1) * 1) c) = false := by
        rw [(phono_char_class _ _).1, hsep']
      rw [transform_go_cons _ _ _ _ _ hsout]
      have hmul : ((ks.getD kpos 0 : Int) + 1) * (-1) = -(((ks.getD kpos 0 : Int) + 1) * 1) := by
        ring
      have hnz : ((ks.getD kpos 0 : Int) + 1) * 1 ≠ 0 := by
        have hb : 0 ≤ (ks.getD kpos 0 : Int) := Int.natCast_nonneg _
        omega
      rw [hmul, phono_char_inv hnz c, ih]

theorem tok_count_cons (sep : Char → Bool) (c : Char) (cs : List Char) (b : Bool) :
    tok_count sep (c :: cs) b =
      if sep c then (if b then 1 else 0) + tok_count sep cs false
      else tok_count sep cs true := rfl

theorem transform_go_tok_count (ks : List Nat) (dir : Int) (cs : List Char) :
    ∀ kpos b, tok_count is_token_sep (transform_go ks dir cs kpos) b =
      tok_count is_token_sep cs b := by
  induction cs with
  | nil => intro _ _; rfl
  | cons c rest ih =>
    intro kpos b
    have step : ∀ kpos', tok_count is_token_sep (c :: transform_go ks dir rest kpos') b =
        tok_count is_token_sep (c :: rest) b := by
      intro kpos'
      rw [tok_count_cons, tok_count_cons]
      by_cases ht : is_token_sep c = true
      · rw [if_pos ht, if_pos ht, ih]
      · have ht' : is_token_sep c = false := by
          cases h : is_token_sep c
          · rfl
          · exact absurd h ht
        rw [if_neg (bool_ne_true ht'), if_neg (bool_ne_true ht'), ih]
    by_cases hsep : is_separator c = true
    · rw [transform_go_cons_sep _ _ _ _ _ hsep, step]
    · have hsep' : is_separator c = false := by
        cases h : is_separator c
        · rfl
        · exact absurd h hsep
      rw [transform_go_cons _ _ _ _ _ hsep', tok_count_cons, tok_count_cons,
        (phono_char_class _ _).2]
      by_cases ht : is_token_sep c = true
      · rw [if_pos ht, if_pos ht, ih]
      · have ht' : is_token_sep c = false := by
          cases h : is_token_sep c
          · rfl
          · exact absurd h ht
        rw [if_neg (bool_ne_true ht'), if_neg (bool_ne_true ht'), ih]

/-! ### The PhonoShift punctuation loop -/

theorem p_open_nodup : P_OPEN.Nodup := by decide

theorem p_end_nodup : P_END.Nodup := by decide

theorem p_open_facts : ∀ x ∈ P_OPEN, is_shift_punct x = true := by decide

theorem p_end_facts : ∀ x ∈ P_END, is_shift_punct x = true ∧ x ∉ P_OPEN := by decide

theorem punct_go_cons_punct (ks : List Nat) (dir : Int) (c : Char) (rest : List Char)
    (kpos : Nat) (h : is_shift_punct c = true) :
    punct_go ks dir (c :: rest) kpos =
      (if P_OPEN.contains c then
        rotate_in_set_no_zero P_OPEN c (((ks.getD kpos 0 : Int) + 1) * dir)
       else rotate_in_set_no_zero P_END c (((ks.getD kpos 0 : Int) + 1) * dir)) ::
        punct_go ks dir rest (next_kpos ks.length kpos) := by
  rw [punct_go, if_pos h]

theorem punct_go_cons_np (ks : List Nat) (dir : Int) (c : Char) (rest : List Char)
    (kpos : Nat) (h : is_shift_punct c = false) :
    punct_go ks dir (c :: rest) kpos = c :: punct_go ks dir rest kpos := by
  rw [punct_go, if_neg (bool_ne_true h)]

theorem punct_go_length (ks : List Nat) (dir : Int) (cs : List Char) :
    ∀ kpos, (punct_go ks dir cs kpos).length = cs.length := by
  induction cs with
  | nil => intro _; rfl
  | cons c rest ih =>
    intro kpos
    by_cases hp : is_shift_punct c = true
    · rw [punct_go_cons_punct _ _ _ _ _ hp]
      simp [ih]
    · have hp' : is_shift_punct c = false := by
        cases h : is_shift_punct c
        · rfl
        · exact absurd h hp
      rw [punct_go_cons_np _ _ _ _ _ hp']
      simp [ih]

theorem mem_p_end_of_punct {c : Char} (hp : is_shift_punct c = true) (hc : c ∉ P_OPEN) :
    c ∈ P_END := by
  rw [is_shift_punct] at hp
  rcases Bool.or_eq_true _ _ |>.mp hp with h | h
  · exact absurd (ROT500K.contains_iff.mp h) hc
  · exact ROT500K.contains_iff.mp h

theorem punct_go_roundtrip (ks : List Nat) (cs : List Char) :
    ∀ kpos, punct_go ks (-1) (punct_go ks 1 cs kpos) kpos = cs := by
  induction cs with
  | nil => intro _; rfl
  | cons c rest ih =>
    intro kpos
    by_cases hp : is_shift_punct c = true
    · rw [punct_go_cons_punct _ _ _ _ _ hp]
      have hmul : ((ks.getD kpos 0 : Int) + 1) * (-1) = -(((ks.getD kpos 0 : Int) + 1) * 1) := by
        ring
      have hnz : ((ks.getD kpos 0 : Int) + 1) * 1 ≠ 0 := by
        have hb : 0 ≤ (ks.getD kpos 0 : Int) := Int.natCast_nonneg _
        omega
      by_cases hc : c ∈ P_OPEN
      · rw [if_pos (ROT500K.contains_iff.mpr hc)]
        have hc1 : rotate_in_set_no_zero P_OPEN c (((ks.getD kpos 0 : Int) + 1) * 1) ∈ P_OPEN :=
          rotate_in_set_no_zero_mem hc _
        rw [punct_go_cons_punct _ _ _ _ _ (p_open_facts _ hc1),
          if_pos (ROT500K.contains_iff.mpr hc1), hmul,
          rotate_in_set_no_zero_inv p_open_nodup hc hnz, ih]
      · have hce : c ∈ P_END := mem_p_end_of_punct hp hc
        rw [if_neg (fun h => hc (ROT500K.contains_iff.mp h))]
        have hc1 : rotate_in_set_no_zero P_END c (((ks.getD kpos 0 : Int) + 1) * 1) ∈ P_END :=
          rotate_in_set_no_zero_mem hce _
        rw [punct_go_cons_punct _ _ _ _ _ (p_end_facts _ hc1).1,
          if_neg (fun h => (p_end_facts _ hc1).2 (ROT500K.contains_iff.mp h)), hmul,
          rotate_in_set_no_zero_inv p_end_nodup hce hnz, ih]
    · have hp' : is_shift_punct c = false := by
        cases h : is_shift_punct c
        · rfl
        · exact absurd h hp
      rw [punct_go_cons_np _ _ _ _ _ hp', punct_go_cons_np _ _ _ _ _ hp', ih]

theorem punct_go_countP (ks : List Nat) (dir : Int) (cs : List Char) :
    ∀ kpos, (punct_go ks dir cs kpos).countP (fun c => is_shift_punct c) =
      cs.countP (fun c => is_shift_punct c) := by
  induction cs with
  | nil => intro _; rfl
  | cons c rest ih =>
    intro kpos
    by_cases hp : is_shift_punct c = true
    · rw [punct_go_cons_punct _ _ _ _ _ hp, List.countP_cons, List.countP_cons, ih]
      have hp1 : is_shift_punct
          (if P_OPEN.contains c then
            rotate_in_set_no_zero P_OPEN c (((ks.getD kpos 0 : Int) + 1) * dir)
           else rotate_in_set_no_zero P_END c (((ks.getD kpos 0 : Int) + 1) * dir)) = true := by
        by_cases hc : c ∈ P_OPEN
        · rw [if_pos (ROT500K.contains_iff.mpr hc)]
          exact p_open_facts _ (rotate_in_set_no_zero_mem hc _)
        · rw [if_neg (fun h => hc (ROT500K.contains_iff.mp h))]
          exact (p_end_facts _ (rotate_in_set_no_zero_mem (mem_p_end_of_punct hp hc) _)).1
      rw [if_pos hp1, if_pos hp]
    · have hp' : is_shift_punct c = false := by
        cases h : is_shift_punct c
        · rfl
        · exact absurd h hp
      rw [punct_go_cons_np _ _ _ _ _ hp', List.countP_cons, List.countP_cons, ih]

/-! ### `punct_shift_apply` and `transform_name_name_like_fpe` as wrappers -/

theorem punct_shift_apply_of_no_punct {s : List Char} (password : List Char)
    (iterations : Nat) (salt : List Char) (d : Int)
    (h : s.countP (fun c => is_shift_punct c) = 0) :
    punct_shift_apply s password iterations salt d = s := by
  simp [punct_shift_apply, h]

theorem punct_shift_apply_eq_go {s : List Char} (password : List Char) (iterations : Nat)
    (salt : List Char) (d : Int) (h1 : s.isEmpty = false)
    (h2 : s.countP (fun c => is_shift_punct c) ≠ 0) :
    punct_shift_apply s password iterations salt d =
      punct_go (derive_keystream password (salt ++ "|PunctShift:v1".toList) iterations
        (s.countP (fun c => is_shift_punct c) + 64)) d s 0 := by
  simp [punct_shift_apply, h1, h2]

theorem punct_shift_apply_inv (y password : List Char) (iterations : Nat) (salt : List Char) :
    punct_shift_apply (punct_shift_apply y password iterations salt 1)
      password iterations salt (-1) = y := by
  by_cases hn : y.countP (fun c => is_shift_punct c) = 0
  · rw [punct_shift_apply_of_no_punct _ _ _ _ hn, punct_shift_apply_of_no_punct _ _ _ _ hn]
  · have hy' : y.isEmpty = false := by
      cases y
      · exact absurd rfl hn
      · rfl
    rw [punct_shift_apply_eq_go _ _ _ _ hy' hn]
    have hlen := punct_go_length (derive_keystream password (salt ++ "|PunctShift:v1".toList)
      iterations (y.countP (fun c => is_shift_punct c) + 64)) 1 y 0
    have hne : punct_go (derive_keystream password (salt ++ "|PunctShift:v1".toList)
        iterations (y.countP (fun c => is_shift_punct c) + 64)) 1 y 0 ≠ [] := by
      intro h
      rw [h] at hlen
      have : y = [] := List.length_eq_zero.mp hlen.symm
      rw [this] at hn
      exact hn rfl
    have hemp : (punct_go (derive_keystream password (salt ++ "|PunctShift:v1".toList)
        iterations (y.countP (fun c => is_shift_punct c) + 64)) 1 y 0).isEmpty = false := by
      cases h : punct_go (derive_keystream password (salt ++ "|PunctShift:v1".toList)
        iterations (y.countP (fun c => is_shift_punct c) + 64)) 1 y 0
      · exact absurd h hne
      · rfl
    have hcnt := punct_go_countP (derive_keystream password (salt ++ "|PunctShift:v1".toList)
      iterations (y.countP (fun c => is_shift_punct c) + 64)) 1 y 0
    rw [punct_shift_apply_eq_go _ _ _ _ hemp (by rw [hcnt]; exact hn), hcnt]
    exact punct_go_roundtrip _ y 0

theorem punct_shift_apply_length (s password : List Char) (iterations : Nat)
    (salt : List Char) (d : Int) :
    (punct_shift_apply s password iterations salt d).length = s.length := by
  by_cases hn : s.countP (fun c => is_shift_punct c) = 0
  · rw [punct_shift_apply_of_no_punct _ _ _ _ hn]
  · have hy' : s.isEmpty = false := by
      cases s
      · exact absurd rfl hn
      · rfl
    rw [punct_shift_apply_eq_go _ _ _ _ hy' hn]
    exact punct_go_length _ _ _ _

theorem transform_fpe_of_empty {s : List Char} (password : List Char) (iterations : Nat)
    (salt : List Char) (d : Int) (h : s.isEmpty = true) :
    transform_name_name_like_fpe s password iterations salt d = s := by
  rw [transform_name_name_like_fpe, if_pos h]

theorem transform_fpe_eq_go {s : List Char} (password : List Char) (iterations : Nat)
    (salt : List Char) (d : Int) (h : s.isEmpty = false) :
    transform_name_name_like_fpe s password iterations salt d =
      transform_go (derive_keystream password salt iterations (s.length + 64)) d s 0 := by
  simp [transform_name_name_like_fpe, h]

theorem transform_fpe_length (s password : List Char) (iterations : Nat) (salt : List Char)
    (d : Int) :
    (transform_name_name_like_fpe s password iterations salt d).length = s.length := by
  by_cases hs : s.isEmpty = true
  · rw [transform_fpe_of_empty _ _ _ _ hs]
  · have hs' : s.isEmpty = false := by
      cases h : s.isEmpty
      · rfl
      · exact absurd h hs
    rw [transform_fpe_eq_go _ _ _ _ hs']
    exact transform_go_length _ _ _ _

theorem transform_fpe_roundtrip (s password : List Char) (iterations : Nat)
    (salt : List Char) :
    transform_name_name_like_fpe (transform_name_name_like_fpe s password iterations salt 1)
      password iterations salt (-1) = s := by
  by_cases hs : s.isEmpty = true
  · rw [transform_fpe_of_empty _ _ _ _ hs, transform_fpe_of_empty _ _ _ _ hs]
  · have hs' : s.isEmpty = false := by
      cases h : s.isEmpty
      · rfl
      · exact absurd h hs
    rw [transform_fpe_eq_go _ _ _ _ hs']
    have hlen := transform_go_length (derive_keystream password salt iterations (s.length + 64))
      1 s 0
    have hne : transform_go (derive_keystream password salt iterations (s.length + 64)) 1 s 0
        ≠ [] := by
      intro h
      rw [h] at hlen
      have h0 : s = [] := List.length_eq_zero.mp hlen.symm
      rw [h0] at hs'
      exact absurd rfl (bool_ne_true hs')
    have hemp : (transform_go (derive_keystream password salt iterations (s.length + 64))
        1 s 0).isEmpty = false := by
      cases h : transform_go (derive_keystream password salt iterations (s.length + 64)) 1 s 0
      · exact absurd h hne
      · rfl
    rw [transform_fpe_eq_go _ _ _ _ hemp, hlen]
    exact transform_go_roundtrip _ s 0

end Phonoshift

open ROT500K Phonoshift in
/-- C1 (confirmed): PhonoShift base-mode roundtrip.  For every text,
password, salt, iteration count at least 1 and `shift_punct` flag,
`rot500k_decrypt (rot500k_encrypt text …) … = text`. -/
theorem claim1_rot500k_roundtrip (text password : List Char) (iterations : Nat)
    (salt : List Char) (shift_punct : Bool) (hiter : 1 ≤ iterations) :
    rot500k_decrypt (rot500k_encrypt text password iterations salt shift_punct)
      password iterations salt shift_punct = text := by
  cases shift_punct
  · simp only [rot500k_encrypt, rot500k_decrypt, Bool.false_eq_true, if_false]
    exact transform_fpe_roundtrip text password iterations salt
  · simp only [rot500k_encrypt, rot500k_decrypt, if_true]
    rw [punct_shift_apply_inv]
    exact transform_fpe_roundtrip text password iterations salt

open ROT500K Phonoshift in
/-- Witness for C1 at the spec's end-to-end vector: text `"Vamos lá!"`,
password `"pw"`, 1000 iterations, salt `"NameFPE:v1"`, punctuation
shifting on. -/
theorem claim1_rot500k_roundtrip_witness :
    1 ≤ 1000 ∧
    rot500k_decrypt (rot500k_encrypt ("Vamos lá!".toList) ("pw".toList) 1000
        ("NameFPE:v1".toList) true) ("pw".toList) 1000 ("NameFPE:v1".toList) true
      = ("Vamos lá!".toList) :=
  ⟨by decide, claim1_rot500k_roundtrip ("Vamos lá!".toList) ("pw".toList) 1000
    ("NameFPE:v1".toList) true (by decide)⟩

namespace Kanashift

open ROT500K

/-! ### Step and length lemmas for the kana loops -/

theorem skin_go_cons_sep (ks : List Nat) (dir : Int) (c : Char) (rest : List Char)
    (kpos : Nat) (h : is_separator c = true) :
    skin_go ks dir (c :: rest) kpos = c :: skin_go ks dir rest kpos := by
  rw [skin_go, if_pos h]

theorem skin_go_cons (ks : List Nat) (dir : Int) (c : Char) (rest : List Char)
    (kpos : Nat) (h : is_separator c = false) :
    skin_go ks dir (c :: rest) kpos =
      skin_char dir ((((ks.getD kpos 0 % 256 : Nat) : Int) + 1) * dir) c ::
        skin_go ks dir rest (next_kpos ks.length kpos) := by
  rw [skin_go, if_neg (Phonoshift.bool_ne_true h)]

theorem jp_go_cons_sep (ks : List Nat) (dir : Int) (c : Char) (rest : List Char)
    (kpos : Nat) (h : is_separator c = true) :
    jp_go ks dir (c :: rest) kpos = c :: jp_go ks dir rest kpos := by
  rw [jp_go, if_pos h]

theorem jp_go_cons_stable (ks : List Nat) (dir : Int) (c : Char) (rest : List Char)
    (kpos : Nat) (h1 : is_separator c = false) (h2 : is_stable_jp_mark c = true) :
    jp_go ks dir (c :: rest) kpos = c :: jp_go ks dir rest kpos := by
  rw [jp_go, if_neg (Phonoshift.bool_ne_true h1), if_pos h2]

theorem jp_go_cons (ks : List Nat) (dir : Int) (c : Char) (rest : List Char)
    (kpos : Nat) (h1 : is_separator c = false) (h2 : is_stable_jp_mark c = false) :
    jp_go ks dir (c :: rest) kpos =
      jp_char dir (((ks.getD kpos 0 % 256 : Nat) : Int) * dir) c ::
        jp_go ks dir rest (next_kpos ks.length kpos) := by
  rw [jp_go, if_neg (Phonoshift.bool_ne_true h1), if_neg (Phonoshift.bool_ne_true h2)]

theorem kana_punct_go_cons_punct (ks : List Nat) (dir : Int) (c : Char) (rest : List Char)
    (kpos : Nat) (h : is_shift_punct c = true) :
    punct_go ks dir (c :: rest) kpos =
      (if P_END.contains c then
        rotate_in_set_no_zero P_END c (((ks.getD kpos 0 % 256 : Nat) : Int) * dir)
       else rotate_in_set_no_zero P_MID c (((ks.getD kpos 0 % 256 : Nat) : Int) * dir)) ::
        punct_go ks dir rest (next_kpos ks.length kpos) := by
  rw [punct_go, if_pos h]

theorem kana_punct_go_cons_np (ks : List Nat) (dir : Int) (c : Char) (rest : List Char)
    (kpos : Nat) (h : is_shift_punct c = false) :
    punct_go ks dir (c :: rest) kpos = c :: punct_go ks dir rest kpos := by
  rw [punct_go, if_neg (Phonoshift.bool_ne_true h)]

theorem skin_go_length (ks : List Nat) (dir : Int) (cs : List Char) :
    ∀ kpos, (skin_go ks dir cs kpos).length = cs.length := by
  induction cs with
  | nil => intro _; rfl
  | cons c rest ih =>
    intro kpos
    by_cases hsep : is_separator c = true
    · rw [skin_go_cons_sep _ _ _ _ _ hsep]
      simp [ih]
    · have hsep' : is_separator c = false := by
        cases h : is_separator c
        · rfl
        · exact absurd h hsep
      rw [skin_go_cons _ _ _ _ _ hsep']
      simp [ih]

theorem jp_go_length (ks : List Nat) (dir : Int) (cs : List Char) :
    ∀ kpos, (jp_go ks dir cs kpos).length = cs.length := by
  induction cs with
  | nil => intro _; rfl
  | cons c rest ih =>
    intro kpos
    by_cases hsep : is_separator c = true
    · rw [jp_go_cons_sep _ _ _ _ _ hsep]
      simp [ih]
    · have hsep' : is_separator c = false := by
        cases h : is_separator c
        · rfl
        · exact absurd h hsep
      by_cases hst : is_stable_jp_mark c = true
      · rw [jp_go_cons_stable _ _ _ _ _ hsep' hst]
        simp [ih]
      · have hst' : is_stable_jp_mark c = false := by
          cases h : is_stable_jp_mark c
          · rfl
          · exact absurd h hst
        rw [jp_go_cons _ _ _ _ _ hsep' hst']
        simp [ih]

theorem kana_punct_go_length (ks : List Nat) (dir : Int) (cs : List Char) :
    ∀ kpos, (punct_go ks dir cs kpos).length = cs.length := by
  induction cs with
  | nil => intro _; rfl
  | cons c rest ih =>
    intro kpos
    by_cases hp : is_shift_punct c = true
    · rw [kana_punct_go_cons_punct _ _ _ _ _ hp]
      simp [ih]
    · have hp' : is_shift_punct c = false := by
        cases h : is_shift_punct c
        · rfl
        · exact absurd h hp
      rw [kana_punct_go_cons_np _ _ _ _ _ hp']
      simp [ih]

theorem punct_translate_length (s : List Char) (d : Int) :
    (punct_translate s d).length = s.length := by
  by_cases hs : s.isEmpty = true
  · rw [punct_translate, if_pos hs]
  · have hs' : s.isEmpty = false := by
      cases h : s.isEmpty
      · rfl
      · exact absurd h hs
    rw [punct_translate, if_neg (Phonoshift.bool_ne_true hs')]
    exact List.length_map _ _

theorem kana_punct_shift_apply_of_no_punct {s : List Char} (password : List Char)
    (iterations : Nat) (salt : List Char) (d : Int)
    (h : s.countP (fun c => is_shift_punct c) = 0) :
    punct_shift_apply s password iterations salt d = s := by
  simp [punct_shift_apply, h]

theorem kana_punct_shift_apply_eq_go {s : List Char} (password : List Char)
    (iterations : Nat) (salt : List Char) (d : Int) (h1 : s.isEmpty = false)
    (h2 : s.countP (fun c => is_shift_punct c) ≠ 0) :
    punct_shift_apply s password iterations salt d =
      punct_go (pbkdf2_keystream password (salt ++ "|PunctShiftJP:v2".toList) iterations
        (s.countP (fun c => is_shift_punct c) + 64)) d s 0 := by
  simp [punct_shift_apply, h1, h2]

theorem kana_punct_shift_apply_length (s password : List Char) (iterations : Nat)
    (salt : List Char) (d : Int) :
    (punct_shift_apply s password iterations salt d).length = s.length := by
  by_cases hn : s.countP (fun c => is_shift_punct c) = 0
  · rw [kana_punct_shift_apply_of_no_punct _ _ _ _ hn]
  · have hy' : s.isEmpty = false := by
      cases s
      · exact absurd rfl hn
      · rfl
    rw [kana_punct_shift_apply_eq_go _ _ _ _ hy' hn]
    exact kana_punct_go_length _ _ _ _

theorem skin_transform_of_empty {s : List Char} (password : List Char) (iterations : Nat)
    (salt : List Char) (d : Int) (h : s.isEmpty = true) :
    skin_transform s password iterations salt d = s := by
  rw [skin_transform, if_pos h]

theorem skin_transform_eq_go {s : List Char} (password : List Char) (iterations : Nat)
    (salt : List Char) (d : Int) (h : s.isEmpty = false) :
    skin_transform s password iterations salt d =
      skin_go (pbkdf2_keystream password salt iterations (s.length + 64)) d s 0 := by
  simp [skin_transform, h]

theorem skin_transform_length (s password : List Char) (iterations : Nat) (salt : List Char)
    (d : Int) : (skin_transform s password iterations salt d).length = s.length := by
  by_cases hs : s.isEmpty = true
  · rw [skin_transform_of_empty _ _ _ _ hs]
  · have hs' : s.isEmpty = false := by
      cases h : s.isEmpty
      · rfl
      · exact absurd h hs
    rw [skin_transform_eq_go _ _ _ _ hs']
    exact skin_go_length _ _ _ _

theorem jp_native_transform_of_empty {s : List Char} (password : List Char) (iterations : Nat)
    (salt : List Char) (d : Int) (h : s.isEmpty = true) :
    jp_native_transform s password iterations salt d = s := by
  rw [jp_native_transform, if_pos h]

theorem jp_native_transform_eq_go {s : List Char} (password : List Char) (iterations : Nat)
    (salt : List Char) (d : Int) (h : s.isEmpty = false) :
    jp_native_transform s password iterations salt d =
      jp_go (pbkdf2_keystream password (salt ++ "|JPNative:v2|AsciiShift".toList) iterations
        (s.length + 64)) d s 0 := by
  simp [jp_native_transform, h]

theorem jp_native_transform_length (s password : List Char) (iterations : Nat)
    (salt : List Char) (d : Int) :
    (jp_native_transform s password iterations salt d).length = s.length := by
  by_cases hs : s.isEmpty = true
  · rw [jp_native_transform_of_empty _ _ _ _ hs]
  · have hs' : s.isEmpty = false := by
      cases h : s.isEmpty
      · rfl
      · exact absurd h hs
    rw [jp_native_transform_eq_go _ _ _ _ hs']
    exact jp_go_length _ _ _ _

theorem kanashift_skin_encrypt_length (text password : List Char) (iterations : Nat)
    (salt : List Char) (sp : Bool) :
    (kanashift_skin_encrypt text password iterations salt sp).length = text.length := by
  cases sp
  · simp only [kanashift_skin_encrypt, Bool.false_eq_true, if_false]
    rw [punct_translate_length, skin_transform_length]
  · simp only [kanashift_skin_encrypt, if_true]
    rw [kana_punct_shift_apply_length, punct_translate_length, skin_transform_length]

theorem kanashift_jp_encrypt_length (text password : List Char) (iterations : Nat)
    (salt : List Char) (sp : Bool) :
    (kanashift_jp_encrypt text password iterations salt sp).length = text.length := by
  cases sp
  · simp only [kanashift_jp_encrypt, Bool.false_eq_true, if_false]
    rw [punct_translate_length, jp_native_transform_length]
  · simp only [kanashift_jp_encrypt, if_true]
    rw [kana_punct_shift_apply_length, punct_translate_length, jp_native_transform_length]

end Kanashift

open ROT500K in
/-- C8 (confirmed): length invariance of the base modes.  For every text
and parameters with `iterations ≥ 1`, the PhonoShift, Kana-skin and
JP-native base encryptions each produce exactly as many Unicode scalars
as the input. -/
theorem claim8_length_invariance (text password : List Char) (iterations : Nat)
    (salt : List Char) (shift_punct : Bool) (hiter : 1 ≤ iterations) :
    (Phonoshift.rot500k_encrypt text password iterations salt shift_punct).length
        = text.length ∧
    (Kanashift.kanashift_skin_encrypt text password iterations salt shift_punct).length
        = text.length ∧
    (Kanashift.kanashift_jp_encrypt text password iterations salt shift_punct).length
        = text.length := by
  refine ⟨?_, Kanashift.kanashift_skin_encrypt_length _ _ _ _ _,
    Kanashift.kanashift_jp_encrypt_length _ _ _ _ _⟩
  cases shift_punct
  · simp only [Phonoshift.rot500k_encrypt, Bool.false_eq_true, if_false]
    rw [Phonoshift.transform_fpe_length]
  · simp only [Phonoshift.rot500k_encrypt, if_true]
    rw [Phonoshift.punct_shift_apply_length, Phonoshift.transform_fpe_length]

/-- Witness for C8 at a concrete vector: text `"Vamos lá! 123 完了。"`,
password `"pw"`, 1000 iterations, default salt, punctuation shifting on. -/
theorem claim8_length_invariance_witness :
    1 ≤ 1000 ∧
    ((Phonoshift.rot500k_encrypt ("Vamos lá! 123 完了。".toList) ("pw".toList) 1000
        ("NameFPE:v1".toList) true).length = ("Vamos lá! 123 完了。".toList).length ∧
     (Kanashift.kanashift_skin_encrypt ("Vamos lá! 123 完了。".toList) ("pw".toList) 1000
        ("NameFPE:v1".toList) true).length = ("Vamos lá! 123 完了。".toList).length ∧
     (Kanashift.kanashift_jp_encrypt ("Vamos lá! 123 完了。".toList) ("pw".toList) 1000
        ("NameFPE:v1".toList) true).length = ("Vamos lá! 123 完了。".toList).length) :=
  ⟨by decide, claim8_length_invariance ("Vamos lá! 123 完了。".toList) ("pw".toList) 1000
    ("NameFPE:v1".toList) true (by decide)⟩

namespace ROT500K

theorem not_mem_of_contains_eq_false {A : List Char} {c : Char}
    (h : A.contains c = false) : c ∉ A := fun hm => by
  rw [contains_iff.mpr hm] at h
  cases h

end ROT500K

namespace Kanashift

open ROT500K

theorem skin_char_unclassified {c : Char} (dir s : Int) (h : skin_unsupported c = true) :
    skin_char dir s c = c := by
  simp only [skin_unsupported, skin_cipher_scalar, Bool.and_eq_true, Bool.not_eq_true',
    Bool.or_eq_false_iff] at h
  obtain ⟨⟨⟨⟨⟨⟨⟨⟨⟨⟨⟨hsep, hdig⟩, hfw⟩, hpv⟩, hpc⟩, hpvu⟩, hpcu⟩, hpvpt⟩, hpvupt⟩, hced⟩,
    hced2⟩, hcip⟩ := h
  obtain ⟨⟨⟨⟨⟨⟨⟨hcv, hcc⟩, hcvu⟩, hccu⟩, hca⟩, hcau⟩, hmlo⟩, hmup⟩ := hcip
  by_cases hd : 0 < dir
  · simp [skin_char, hd, hdig, not_mem_of_contains_eq_false hpv,
      not_mem_of_contains_eq_false hpc, not_mem_of_contains_eq_false hpvu,
      not_mem_of_contains_eq_false hpcu, not_mem_of_contains_eq_false hpvpt,
      not_mem_of_contains_eq_false hpvupt, hced, hced2]
  · simp [skin_char, hd, hdig, hfw, not_mem_of_contains_eq_false hcv,
      not_mem_of_contains_eq_false hcc, not_mem_of_contains_eq_false hcvu,
      not_mem_of_contains_eq_false hccu, not_mem_of_contains_eq_false hca,
      not_mem_of_contains_eq_false hcau, hmlo, hmup]

theorem jp_char_unclassified {c : Char} (dir s : Int) (h : jp_unsupported c = true) :
    jp_char dir s c = c := by
  simp only [jp_unsupported, Bool.and_eq_true, Bool.not_eq_true'] at h
  obtain ⟨⟨⟨⟨⟨⟨⟨⟨hsep, hst⟩, hau⟩, hal⟩, hdig⟩, hfw⟩, hhira⟩, hkata⟩, hkanji⟩ := h
  simp [jp_char, hau, hal, hdig, hfw, hhira, hkata, hkanji]

end Kanashift

open ROT500K in
/-- Counterexample to C7.  An unsupported scalar (here `'@'`, recognized
by no alphabet of any family) is emitted unchanged but DOES advance the
keystream cursor in all three core transforms: prepending it changes the
keystream byte applied to the following scalar. -/
theorem claim7_counterexample :
    (Phonoshift.transform_go [0, 1] 1 ('@' :: 'a' :: []) 0 ≠
      '@' :: Phonoshift.transform_go [0, 1] 1 ('a' :: []) 0) ∧
    (Kanashift.skin_go [0, 1] 1 ('@' :: 'a' :: []) 0 ≠
      '@' :: Kanashift.skin_go [0, 1] 1 ('a' :: []) 0) ∧
    (Kanashift.jp_go [0, 1] 1 ('@' :: 'a' :: []) 0 ≠
      '@' :: Kanashift.jp_go [0, 1] 1 ('a' :: []) 0) ∧
    Phonoshift.unsupported_scalar '@' = true ∧ Kanashift.skin_unsupported '@' = true ∧
    Kanashift.jp_unsupported '@' = true := by
  decide

open ROT500K in
/-- C7 (amended): in each family core transform an unsupported scalar is
emitted unchanged but consumes exactly one keystream byte (the cursor
advances by one); only separators, and stable JP marks in the JP-native
transform, leave the cursor untouched. -/
theorem claim7_unsupported_scalars (ks : List Nat) (dir : Int) (kpos : Nat) (c : Char)
    (cs : List Char) :
    (Phonoshift.unsupported_scalar c = true →
      Phonoshift.transform_go ks dir (c :: cs) kpos =
        c :: Phonoshift.transform_go ks dir cs (next_kpos ks.length kpos)) ∧
    (Kanashift.skin_unsupported c = true →
      Kanashift.skin_go ks dir (c :: cs) kpos =
        c :: Kanashift.skin_go ks dir cs (next_kpos ks.length kpos)) ∧
    (Kanashift.jp_unsupported c = true →
      Kanashift.jp_go ks dir (c :: cs) kpos =
        c :: Kanashift.jp_go ks dir cs (next_kpos ks.length kpos)) := by
  refine ⟨fun h1 => ?_, fun h2 => ?_, fun h3 => ?_⟩
  · have h := h1
    simp only [Phonoshift.unsupported_scalar, Bool.and_eq_true, Bool.not_eq_true'] at h
    obtain ⟨⟨⟨⟨⟨⟨⟨hsep, hdig⟩, hv⟩, hcon⟩, hptl⟩, hptu⟩, hcl⟩, hcu⟩ := h
    rw [Phonoshift.transform_go_cons _ _ _ _ _ hsep,
      Phonoshift.phono_char_unclassified hdig (not_mem_of_contains_eq_false hv)
        (not_mem_of_contains_eq_false hcon) (not_mem_of_contains_eq_false hptl)
        (not_mem_of_contains_eq_false hptu) (not_mem_of_contains_eq_false hcl)
        (not_mem_of_contains_eq_false hcu)]
  · have hsep : is_separator c = false := by
      have h := h2
      simp only [Kanashift.skin_unsupported, Bool.and_eq_true, Bool.not_eq_true'] at h
      exact h.1.1.1.1.1.1.1.1.1.1.1
    rw [Kanashift.skin_go_cons _ _ _ _ _ hsep, Kanashift.skin_char_unclassified _ _ h2]
  · have h := h3
    simp only [Kanashift.jp_unsupported, Bool.and_eq_true, Bool.not_eq_true'] at h
    rw [Kanashift.jp_go_cons _ _ _ _ _ h.1.1.1.1.1.1.1.1 h.1.1.1.1.1.1.1.2,
      Kanashift.jp_char_unclassified _ _ h3]

open ROT500K in
/-- Witness for the amended C7: the unsupported scalar `'@'` before `'a'`
with keystream `[0, 1]` is passed through unchanged and the cursor moves
to position 1 in all three transforms. -/
theorem claim7_unsupported_scalars_witness :
    (Phonoshift.unsupported_scalar '@' = true ∧ Kanashift.skin_unsupported '@' = true ∧
      Kanashift.jp_unsupported '@' = true) ∧
    Phonoshift.transform_go [0, 1] 1 ('@' :: 'a' :: []) 0 =
      '@' :: Phonoshift.transform_go [0, 1] 1 ('a' :: []) (next_kpos 2 0) ∧
    Kanashift.skin_go [0, 1] 1 ('@' :: 'a' :: []) 0 =
      '@' :: Kanashift.skin_go [0, 1] 1 ('a' :: []) (next_kpos 2 0) ∧
    Kanashift.jp_go [0, 1] 1 ('@' :: 'a' :: []) 0 =
      '@' :: Kanashift.jp_go [0, 1] 1 ('a' :: []) (next_kpos 2 0) :=
  ⟨⟨by decide, by decide, by decide⟩,
    (claim7_unsupported_scalars [0, 1] 1 0 '@' ('a' :: [])).1 (by decide),
    (claim7_unsupported_scalars [0, 1] 1 0 '@' ('a' :: [])).2.1 (by decide),
    (claim7_unsupported_scalars [0, 1] 1 0 '@' ('a' :: [])).2.2 (by decide)⟩

namespace Phonoshift

open ROT500K

theorem rot500k_token_tagged_decrypt_shape (tagged password : List Char) (iterations : Nat)
    (salt : List Char) (check_chars_per_token : Nat) (shift_punctuation : Bool) :
    (rot500k_token_tagged_decrypt tagged password iterations salt check_chars_per_token
      shift_punctuation).ok = true ∨
    rot500k_token_tagged_decrypt tagged password iterations salt check_chars_per_token
      shift_punctuation = ⟨false, []⟩ := by
  simp only [rot500k_token_tagged_decrypt]
  cases hstrip : strip_checks_from_tagged
      (if shift_punctuation = true then
        punct_shift_apply tagged password iterations salt (-1) else tagged)
      check_chars_per_token with
  | none => exact Or.inr rfl
  | some bg =>
    obtain ⟨base, given⟩ := bg
    dsimp only
    split_ifs
    · exact Or.inr rfl
    · exact Or.inl rfl
    · exact Or.inr rfl

theorem rot500k_prefix_tagged_decrypt_shape (tagged password : List Char) (iterations : Nat)
    (salt : List Char) (shift_punctuation : Bool) :
    (rot500k_prefix_tagged_decrypt tagged password iterations salt shift_punctuation).ok
      = true ∨
    rot500k_prefix_tagged_decrypt tagged password iterations salt shift_punctuation
      = ⟨false, []⟩ := by
  simp only [rot500k_prefix_tagged_decrypt]
  cases hsplit : split_tagged_pfx
      (if shift_punctuation = true then
        punct_shift_apply tagged password iterations salt (-1) else tagged) with
  | none => exact Or.inr rfl
  | some pc =>
    obtain ⟨pfxgiven, cipher⟩ := pc
    dsimp only
    split_ifs
    · exact Or.inl rfl
    · exact Or.inr rfl

theorem rot500kv_decrypt_shape (tagged password : List Char) (iterations : Nat)
    (salt : List Char) (check_chars_per_token : Nat) (shift_punctuation : Bool) :
    (rot500kv_decrypt tagged password iterations salt check_chars_per_token
      shift_punctuation).ok = true ∨
    rot500kv_decrypt tagged password iterations salt check_chars_per_token
      shift_punctuation = ⟨false, []⟩ := by
  simp only [rot500kv_decrypt, rot500kv_safe_decrypt]
  by_cases hkt : (rot500k_token_tagged_decrypt tagged password iterations salt
      check_chars_per_token shift_punctuation).ok = true
  · rw [if_pos hkt]
    exact Or.inl hkt
  · rw [if_neg hkt]
    by_cases hkp : (rot500k_prefix_tagged_decrypt tagged password iterations salt
        shift_punctuation).ok = true
    · rw [if_pos hkp]
      exact Or.inl hkp
    · rw [if_neg hkp]
      exact Or.inr rfl

end Phonoshift

namespace Kanashift

open ROT500K

theorem family_token_tagged_decrypt_shape (tagged password : List Char) (iterations : Nat)
    (salt : List Char) (check_chars_per_token : Nat) (shift_punctuation : Bool)
    (core_transform_fn : List Char → List Char → Nat → List Char → Int → List Char)
    (tok_domain : List Char) (norm_fn : List Char → List Char) :
    (family_token_tagged_decrypt tagged password iterations salt check_chars_per_token
      shift_punctuation core_transform_fn tok_domain norm_fn).ok = true ∨
    family_token_tagged_decrypt tagged password iterations salt check_chars_per_token
      shift_punctuation core_transform_fn tok_domain norm_fn = ⟨false, []⟩ := by
  simp only [family_token_tagged_decrypt]
  cases hstrip : strip_checks_from_tagged
      (punct_translate
        (if shift_punctuation = true then
          punct_shift_apply tagged password iterations salt (-1) else tagged) (-1))
      check_chars_per_token with
  | none => exact Or.inr rfl
  | some bg =>
    obtain ⟨base, given⟩ := bg
    dsimp only
    split_ifs
    · exact Or.inr rfl
    · exact Or.inl rfl
    · exact Or.inr rfl

end Kanashift

open ROT500K in
/-- C9 (confirmed): verified decoders are empty on failure.  Each verified
decoder either reports success, or returns exactly `(ok = false,
value = "")`; in particular whenever `ok` is false the value is the empty
string. -/
theorem claim9_verified_decoders_fail_empty (tagged password : List Char) (iterations : Nat)
    (salt : List Char) (check_chars : Nat) (shift_punct : Bool) :
    ((Phonoshift.rot500k_token_tagged_decrypt tagged password iterations salt check_chars
        shift_punct).ok = true ∨
      Phonoshift.rot500k_token_tagged_decrypt tagged password iterations salt check_chars
        shift_punct = ⟨false, []⟩) ∧
    ((Phonoshift.rot500k_prefix_tagged_decrypt tagged password iterations salt
        shift_punct).ok = true ∨
      Phonoshift.rot500k_prefix_tagged_decrypt tagged password iterations salt shift_punct
        = ⟨false, []⟩) ∧
    ((Phonoshift.rot500kv_decrypt tagged password iterations salt check_chars
        shift_punct).ok = true ∨
      Phonoshift.rot500kv_decrypt tagged password iterations salt check_chars shift_punct
        = ⟨false, []⟩) ∧
    ((Kanashift.kanashift_skin_token_decrypt tagged password iterations salt check_chars
        shift_punct).ok = true ∨
      Kanashift.kanashift_skin_token_decrypt tagged password iterations salt check_chars
        shift_punct = ⟨false, []⟩) ∧
    ((Kanashift.kanashift_jp_token_decrypt tagged password iterations salt check_chars
        shift_punct).ok = true ∨
      Kanashift.kanashift_jp_token_decrypt tagged password iterations salt check_chars
        shift_punct = ⟨false, []⟩) :=
  ⟨Phonoshift.rot500k_token_tagged_decrypt_shape _ _ _ _ _ _,
   Phonoshift.rot500k_prefix_tagged_decrypt_shape _ _ _ _ _,
   Phonoshift.rot500kv_decrypt_shape _ _ _ _ _ _,
   Kanashift.family_token_tagged_decrypt_shape _ _ _ _ _ _ _ _ _,
   Kanashift.family_token_tagged_decrypt_shape _ _ _ _ _ _ _ _ _⟩

namespace ROT500K

theorem next_kpos_lt {len kpos : Nat} (h : 0 < len) : next_kpos len kpos < len := by
  rw [next_kpos]
  split_ifs <;> omega

end ROT500K

namespace Kanashift

open ROT500K

theorem kana_p_end_nodup : P_END.Nodup := by decide

theorem kana_p_mid_nodup : P_MID.Nodup := by decide

theorem kana_p_end_mem_facts : ∀ x ∈ P_END, is_shift_punct x = true := by decide

theorem kana_p_mid_mem_facts : ∀ x ∈ P_MID, is_shift_punct x = true ∧ x ∉ P_END := by decide

theorem kana_mem_p_mid_of_punct {c : Char} (hp : is_shift_punct c = true) (hc : c ∉ P_END) :
    c ∈ P_MID := by
  rw [is_shift_punct] at hp
  rcases Bool.or_eq_true _ _ |>.mp hp with h | h
  · exact absurd (contains_iff.mp h) hc
  · exact contains_iff.mp h

/- Inversion of the keyed JP punctuation shift, valid when every keystream
byte is nonzero modulo 256 (a zero byte bumps by `+1` in both directions
and is NOT inverted on the three-element set `P_MID`). -/
theorem kana_punct_go_roundtrip (ks : List Nat) (hne : ks ≠ [])
    (hnz : ∀ b ∈ ks, b % 256 ≠ 0) (cs : List Char) :
    ∀ kpos, kpos < ks.length →
      punct_go ks (-1) (punct_go ks 1 cs kpos) kpos = cs := by
  induction cs with
  | nil => intro _ _; rfl
  | cons c rest ih =>
    intro kpos hk
    have hlen : 0 < ks.length := by
      cases ks
      · exact absurd rfl hne
      · simp
    have hklt : next_kpos ks.length kpos < ks.length := next_kpos_lt hlen
    by_cases hp : is_shift_punct c = true
    · rw [kana_punct_go_cons_punct _ _ _ _ _ hp]
      have hbnz : (ks.getD kpos 0) % 256 ≠ 0 := hnz _ (getD_mem hk 0)
      have hnz1 : ((ks.getD kpos 0 % 256 : Nat) : Int) * 1 ≠ 0 := by omega
      have hmul : ((ks.getD kpos 0 % 256 : Nat) : Int) * (-1) =
          -(((ks.getD kpos 0 % 256 : Nat) : Int) * 1) := by ring
      by_cases hc : c ∈ P_END
      · rw [if_pos (contains_iff.mpr hc)]
        have hc1 : rotate_in_set_no_zero P_END c (((ks.getD kpos 0 % 256 : Nat) : Int) * 1)
            ∈ P_END := rotate_in_set_no_zero_mem hc _
        rw [kana_punct_go_cons_punct _ _ _ _ _ (kana_p_end_mem_facts _ hc1),
          if_pos (contains_iff.mpr hc1), hmul,
          rotate_in_set_no_zero_inv kana_p_end_nodup hc hnz1, ih _ hklt]
      · have hcm : c ∈ P_MID := kana_mem_p_mid_of_punct hp hc
        rw [if_neg (fun h => hc (contains_iff.mp h))]
        have hc1 : rotate_in_set_no_zero P_MID c (((ks.getD kpos 0 % 256 : Nat) : Int) * 1)
            ∈ P_MID := rotate_in_set_no_zero_mem hcm _
        rw [kana_punct_go_cons_punct _ _ _ _ _ (kana_p_mid_mem_facts _ hc1).1,
          if_neg (fun h => (kana_p_mid_mem_facts _ hc1).2 (contains_iff.mp h)), hmul,
          rotate_in_set_no_zero_inv kana_p_mid_nodup hcm hnz1, ih _ hklt]
    · have hp' : is_shift_punct c = false := by
        cases h : is_shift_punct c
        · rfl
        · exact absurd h hp
      rw [kana_punct_go_cons_np _ _ _ _ _ hp', kana_punct_go_cons_np _ _ _ _ _ hp', ih _ hk]

/-! ### The unkeyed fullwidth punctuation translation -/

theorem punct_translate_pos (s : List Char) : punct_translate s 1 = s.map punct_enc_char := by
  cases s <;> simp [punct_translate]

theorem punct_translate_neg (s : List Char) :
    punct_translate s (-1) = s.map punct_dec_char := by
  cases s <;> simp [punct_translate]

theorem punct_enc_char_eq_self {c : Char} (h : c ∉ ("?!,.:;()[]\x7b\x7d\"".toList)) :
    punct_enc_char c = c := by
  simp only [punct_enc_char]
  rw [if_neg (fun hb => h (by rw [eq_of_beq hb]; decide)),
    if_neg (fun hb => h (by rw [eq_of_beq hb]; decide)),
    if_neg (fun hb => h (by rw [eq_of_beq hb]; decide)),
    if_neg (fun hb => h (by rw [eq_of_beq hb]; decide)),
    if_neg (fun hb => h (by rw [eq_of_beq hb]; decide)),
    if_neg (fun hb => h (by rw [eq_of_beq hb]; decide)),
    if_neg (fun hb => h (by rw [eq_of_beq hb]; decide)),
    if_neg (fun hb => h (by rw [eq_of_beq hb]; decide)),
    if_neg (fun hb => h (by rw [eq_of_beq hb]; decide)),
    if_neg (fun hb => h (by rw [eq_of_beq hb]; decide)),
    if_neg (fun hb => h (by rw [eq_of_beq hb]; decide)),
    if_neg (fun hb => h (by rw [eq_of_beq hb]; decide)),
    if_neg (fun hb => h (by rw [eq_of_beq hb]; decide))]

theorem punct_dec_char_eq_self {c : Char} (h : c ∉ ("？！、。：；（）［］｛｝＂".toList)) :
    punct_dec_char c = c := by
  simp only [punct_dec_char]
  rw [if_neg (fun hb => h (by rw [eq_of_beq hb]; decide)),
    if_neg (fun hb => h (by rw [eq_of_beq hb]; decide)),
    if_neg (fun hb => h (by rw [eq_of_beq hb]; decide)),
    if_neg (fun hb => h (by rw [eq_of_beq hb]; decide)),
    if_neg (fun hb => h (by rw [eq_of_beq hb]; decide)),
    if_neg (fun hb => h (by rw [eq_of_beq hb]; decide)),
    if_neg (fun hb => h (by rw [eq_of_beq hb]; decide)),
    if_neg (fun hb => h (by rw [eq_of_beq hb]; decide)),
    if_neg (fun hb => h (by rw [eq_of_beq hb]; decide)),
    if_neg (fun hb => h (by rw [eq_of_beq hb]; decide)),
    if_neg (fun hb => h (by rw [eq_of_beq hb]; decide)),
    if_neg (fun hb => h (by rw [eq_of_beq hb]; decide)),
    if_neg (fun hb => h (by rw [eq_of_beq hb]; decide))]

theorem punct_dec_enc_char {c : Char} (h : fw_punct_value c = false) :
    punct_dec_char (punct_enc_char c) = c := by
  by_cases hk : c ∈ ("?!,.:;()[]\x7b\x7d\"".toList)
  · fin_cases hk <;> decide
  · rw [punct_enc_char_eq_self hk]
    refine punct_dec_char_eq_self ?_
    rw [fw_punct_value] at h
    exact not_mem_of_contains_eq_false h

theorem punct_translate_inv {s : List Char} (h : ∀ c ∈ s, fw_punct_value c = false) :
    punct_translate (punct_translate s 1) (-1) = s := by
  rw [punct_translate_pos, punct_translate_neg, List.map_map]
  have hcg : ∀ c ∈ s, (punct_dec_char ∘ punct_enc_char) c = id c := fun c hc =>
    punct_dec_enc_char (h c hc)
  rw [List.map_congr_left hcg, List.map_id]

/-! ### Skin family: the paired index-preserving rotation -/

theorem map_rotate_pair {P C : List Char} (h2 : 2 ≤ P.length) (hle : P.length ≤ C.length)
    (hndC : C.Nodup) {c : Char} (hc : c ∈ P) (s : Int) :
    ∃ c', map_rotate P C c s 1 = some c' ∧ c' ∈ C ∧ map_rotate P C c' (-s) (-1) = some c := by
  have hn1 : ¬ (P.length ≤ 1) := by omega
  have hNpos : (0 : Int) < (P.length : Int) := by exact_mod_cast (by omega : 0 < P.length)
  have hidx : P.findIdx (· == c) < P.length := findIdx_lt_of_mem hc
  have hjz0 : 0 ≤ ((P.findIdx (· == c) : Int) + s % (P.length : Int)) % (P.length : Int) :=
    Int.emod_nonneg _ (ne_of_gt hNpos)
  have hjzlt : ((P.findIdx (· == c) : Int) + s % (P.length : Int)) % (P.length : Int)
      < (P.length : Int) := Int.emod_lt_of_pos _ hNpos
  have hjlt : (((P.findIdx (· == c) : Int) + s % (P.length : Int)) %
      (P.length : Int)).toNat < P.length := by omega
  have hjltC : (((P.findIdx (· == c) : Int) + s % (P.length : Int)) %
      (P.length : Int)).toNat < C.length := lt_of_lt_of_le hjlt hle
  refine ⟨C.getD ((((P.findIdx (· == c) : Int) + s % (P.length : Int)) %
    (P.length : Int)).toNat) c, ?_, getD_mem hjltC c, ?_⟩
  · rw [map_rotate, if_neg hn1, if_pos (by norm_num : (0 : Int) < 1),
      if_neg (Nat.not_le.mpr hidx)]
  · rw [map_rotate, if_neg hn1, if_neg (by norm_num : ¬ (0 : Int) < -1),
      findIdx_getD_of_nodup hndC hjltC, if_neg (Nat.not_le.mpr hjltC)]
    congr 1
    have harith : ((((((P.findIdx (· == c) : Int) + s % (P.length : Int)) %
        (P.length : Int)).toNat : Int) + (-s) % (P.length : Int)) % (P.length : Int))
        = (P.findIdx (· == c) : Int) := by
      rw [Int.toNat_of_nonneg hjz0, emod_add_left_emod, add_assoc]
      obtain ⟨t, ht⟩ : ((P.length : Int)) ∣ (s % (P.length : Int) + (-s) % (P.length : Int)) := by
        apply Int.dvd_of_emod_eq_zero
        rw [← Int.add_emod]
        simp
      rw [ht, Int.add_mul_emod_self_left,
        Int.emod_eq_of_lt (by exact_mod_cast Nat.zero_le _) (by exact_mod_cast hidx)]
    rw [harith, Int.toNat_natCast, getD_default_irrel hidx _ c, getD_findIdx hc]

/-! ### Skin family: alphabet facts (finite checks) -/

theorem c_vow_lo_nodup : C_VOW_LO.Nodup := by decide

theorem c_con_lo_nodup : C_CON_LO.Nodup := by decide

theorem c_vow_up_nodup : C_VOW_UP.Nodup := by decide

theorem c_con_up_nodup : C_CON_UP.Nodup := by decide

theorem c_acc_lo_nodup : C_ACC_LO.Nodup := by decide

theorem c_acc_up_nodup : C_ACC_UP.Nodup := by decide

theorem skin_p1_facts : ∀ x ∈ P_VOW_LO,
    is_separator x = false ∧ is_digit x = false ∧ is_token_sep x = false := by decide

theorem skin_p2_facts : ∀ x ∈ P_CON_LO,
    is_separator x = false ∧ is_digit x = false ∧ is_token_sep x = false ∧
    x ∉ P_VOW_LO := by decide

theorem skin_p3_facts : ∀ x ∈ P_VOW_UP,
    is_separator x = false ∧ is_digit x = false ∧ is_token_sep x = false ∧
    x ∉ P_VOW_LO ∧ x ∉ P_CON_LO := by decide

theorem skin_p4_facts : ∀ x ∈ P_CON_UP,
    is_separator x = false ∧ is_digit x = false ∧ is_token_sep x = false ∧
    x ∉ P_VOW_LO ∧ x ∉ P_CON_LO ∧ x ∉ P_VOW_UP := by decide

theorem skin_p5_facts : ∀ x ∈ P_VOW_LO_PT,
    is_separator x = false ∧ is_digit x = false ∧ is_token_sep x = false ∧
    x ∉ P_VOW_LO ∧ x ∉ P_CON_LO ∧ x ∉ P_VOW_UP ∧ x ∉ P_CON_UP := by decide

theorem skin_p6_facts : ∀ x ∈ P_VOW_UP_PT,
    is_separator x = false ∧ is_digit x = false ∧ is_token_sep x = false ∧
    x ∉ P_VOW_LO ∧ x ∉ P_CON_LO ∧ x ∉ P_VOW_UP ∧ x ∉ P_CON_UP ∧
    x ∉ P_VOW_LO_PT := by decide

theorem skin_c1_facts : ∀ x ∈ C_VOW_LO,
    is_separator x = false ∧ is_digit x = false ∧ is_fullwidth_digit x = false ∧
    is_token_sep x = false ∧ fw_punct_value x = false ∧ is_shift_punct x = false := by decide

theorem skin_c2_facts : ∀ x ∈ C_CON_LO,
    is_separator x = false ∧ is_digit x = false ∧ is_fullwidth_digit x = false ∧
    is_token_sep x = false ∧ fw_punct_value x = false ∧ is_shift_punct x = false ∧
    x ∉ C_VOW_LO := by decide

theorem skin_c3_facts : ∀ x ∈ C_VOW_UP,
    is_separator x = false ∧ is_digit x = false ∧ is_fullwidth_digit x = false ∧
    is_token_sep x = false ∧ fw_punct_value x = false ∧ is_shift_punct x = false ∧
    x ∉ C_VOW_LO ∧ x ∉ C_CON_LO := by decide

theorem skin_c4_facts : ∀ x ∈ C_CON_UP,
    is_separator x = false ∧ is_digit x = false ∧ is_fullwidth_digit x = false ∧
    is_token_sep x = false ∧ fw_punct_value x = false ∧ is_shift_punct x = false ∧
    x ∉ C_VOW_LO ∧ x ∉ C_CON_LO ∧ x ∉ C_VOW_UP := by decide

theorem skin_c5_facts : ∀ x ∈ C_ACC_LO,
    is_separator x = false ∧ is_digit x = false ∧ is_fullwidth_digit x = false ∧
    is_token_sep x = false ∧ fw_punct_value x = false ∧ is_shift_punct x = false ∧
    x ∉ C_VOW_LO ∧ x ∉ C_CON_LO ∧ x ∉ C_VOW_UP ∧ x ∉ C_CON_UP := by decide

theorem skin_c6_facts : ∀ x ∈ C_ACC_UP,
    is_separator x = false ∧ is_digit x = false ∧ is_fullwidth_digit x = false ∧
    is_token_sep x = false ∧ fw_punct_value x = false ∧ is_shift_punct x = false ∧
    x ∉ C_VOW_LO ∧ x ∉ C_CON_LO ∧ x ∉ C_VOW_UP ∧ x ∉ C_CON_UP ∧
    x ∉ C_ACC_LO := by decide

theorem skin_ced_lo_facts :
    is_separator C_CED_LO = false ∧ is_digit C_CED_LO = false ∧
    is_fullwidth_digit C_CED_LO = false ∧ is_token_sep C_CED_LO = false ∧
    fw_punct_value C_CED_LO = false ∧ is_shift_punct C_CED_LO = false ∧
    C_CED_LO ∉ C_VOW_LO ∧ C_CED_LO ∉ C_CON_LO ∧ C_CED_LO ∉ C_VOW_UP ∧
    C_CED_LO ∉ C_CON_UP ∧ C_CED_LO ∉ C_ACC_LO ∧ C_CED_LO ∉ C_ACC_UP := by decide

theorem skin_ced_up_facts :
    is_separator C_CED_UP = false ∧ is_digit C_CED_UP = false ∧
    is_fullwidth_digit C_CED_UP = false ∧ is_token_sep C_CED_UP = false ∧
    fw_punct_value C_CED_UP = false ∧ is_shift_punct C_CED_UP = false ∧
    C_CED_UP ∉ C_VOW_LO ∧ C_CED_UP ∉ C_CON_LO ∧ C_CED_UP ∉ C_VOW_UP ∧
    C_CED_UP ∉ C_CON_UP ∧ C_CED_UP ∉ C_ACC_LO ∧ C_CED_UP ∉ C_ACC_UP ∧
    ¬ (C_CED_UP = C_CED_LO) := by decide

theorem kana_sep_list_facts :
    ∀ x ∈ (" 　-'.,!?:;。、！？：；・「」『』（）［］｛｝\t\n\r".toList),
      (x.toNat < 48 ∨ 57 < x.toNat) ∧ (x.toNat < 0xFF10 ∨ 0xFF19 < x.toNat) ∧
      (x.toNat < 65 ∨ 122 < x.toNat) := by decide

theorem fw_value_list_facts :
    ∀ x ∈ ("？！、。：；（）［］｛｝＂".toList),
      (x.toNat < 0xFF10 ∨ 0xFF19 < x.toNat) := by decide

theorem kana_is_token_sep_digit_false {c : Char} (h : is_digit c = true) :
    is_token_sep c = false := by
  have hb := is_digit_iff.mp h
  rw [is_token_sep]
  refine Phonoshift.contains_eq_false (fun hm => ?_)
  have := (kana_sep_list_facts c hm).1
  omega

theorem kana_is_token_sep_fw_false {c : Char} (h1 : 0xFF10 ≤ c.toNat) (h2 : c.toNat ≤ 0xFF19) :
    is_token_sep c = false := by
  rw [is_token_sep]
  refine Phonoshift.contains_eq_false (fun hm => ?_)
  have := (kana_sep_list_facts c hm).2.1
  omega

theorem fw_punct_value_fw_false {c : Char} (h1 : 0xFF10 ≤ c.toNat) (h2 : c.toNat ≤ 0xFF19) :
    fw_punct_value c = false := by
  rw [fw_punct_value]
  refine Phonoshift.contains_eq_false (fun hm => ?_)
  have := fw_value_list_facts c hm
  omega

theorem is_separator_fw_false {c : Char} (h1 : 0xFF10 ≤ c.toNat) : is_separator c = false := by
  have hne1 : c ≠ ' ' := fun he => by rw [he] at h1; exact absurd h1 (by decide)
  have hne2 : c ≠ '-' := fun he => by rw [he] at h1; exact absurd h1 (by decide)
  have hne3 : c ≠ '\'' := fun he => by rw [he] at h1; exact absurd h1 (by decide)
  simp [is_separator, hne1, hne2, hne3]

theorem char_toNat_ofNat_high {n : Nat} (h : n < 55296 ∨ (57344 ≤ n ∧ n < 1114112)) :
    (Char.ofNat n).toNat = n := by
  have hv : n.isValidChar := h
  simp [Char.ofNat, hv, Char.ofNatAux, Char.toNat, UInt32.toNat]

theorem skin_char_enc_digit {c : Char} (h : is_digit c = true) (s : Int) :
    skin_char 1 s c =
      Char.ofNat ((0xFF10 : Int) + ((c.toNat : Int) - 48 + s % 10 + 10) % 10).toNat := by
  simp [skin_char, h]

theorem skin_char_inv_digit {c : Char} (h : is_digit c = true) (s : Int) :
    skin_char (-1) (-s) (skin_char 1 s c) = c := by
  have hb := is_digit_iff.mp h
  rw [skin_char_enc_digit h]
  have hnd0 : 0 ≤ ((c.toNat : Int) - 48 + s % 10 + 10) % 10 := Int.emod_nonneg _ (by norm_num)
  have hnd1 : ((c.toNat : Int) - 48 + s % 10 + 10) % 10 < 10 :=
    Int.emod_lt_of_pos _ (by norm_num)
  have htn : ((Char.ofNat ((0xFF10 : Int) + ((c.toNat : Int) - 48 + s % 10 + 10) % 10).toNat).toNat)
      = ((0xFF10 : Int) + ((c.toNat : Int) - 48 + s % 10 + 10) % 10).toNat :=
    char_toNat_ofNat_high (by omega)
  have hfw : is_fullwidth_digit
      (Char.ofNat ((0xFF10 : Int) + ((c.toNat : Int) - 48 + s % 10 + 10) % 10).toNat) = true := by
    rw [is_fullwidth_digit_iff, htn]
    omega
  have hdig' : is_digit
      (Char.ofNat ((0xFF10 : Int) + ((c.toNat : Int) - 48 + s % 10 + 10) % 10).toNat) = false := by
    cases hd : is_digit (Char.ofNat ((0xFF10 : Int) + ((c.toNat : Int) - 48 + s % 10 + 10) % 10).toNat)
    · rfl
    · have := is_digit_iff.mp hd
      rw [htn] at this
      omega
  simp only [skin_char, hdig', hfw, Bool.false_or, Bool.false_eq_true,
    show ((0 : Int) < -1) = False by norm_num, if_false, if_true]
  rw [htn]
  have hcast : ((((0xFF10 : Int) + ((c.toNat : Int) - 48 + s % 10 + 10) % 10).toNat : Nat) : Int)
      = (0xFF10 : Int) + ((c.toNat : Int) - 48 + s % 10 + 10) % 10 :=
    Int.toNat_of_nonneg (by omega)
  rw [hcast]
  have key : ((48 : Int) + ((0xFF10 + ((c.toNat : Int) - 48 + s % 10 + 10) % 10 - 0xFF10) +
      (-s) % 10 + 10) % 10) = (c.toNat : Int) := by omega
  rw [key, Int.toNat_natCast, Char.ofNat_toNat]

theorem skin_char_enc_digit_toNat {c : Char} (h : is_digit c = true) (s : Int) :
    0xFF10 ≤ (skin_char 1 s c).toNat ∧ (skin_char 1 s c).toNat ≤ 0xFF19 := by
  rw [skin_char_enc_digit h]
  have hnd0 : 0 ≤ ((c.toNat : Int) - 48 + s % 10 + 10) % 10 := Int.emod_nonneg _ (by norm_num)
  have hnd1 : ((c.toNat : Int) - 48 + s % 10 + 10) % 10 < 10 :=
    Int.emod_lt_of_pos _ (by norm_num)
  rw [char_toNat_ofNat_high (by omega)]
  omega

/- One keyed scalar of the skin family: decoding with the negated shift is a
left inverse, separators are never produced, token-separator status is
preserved, and no fullwidth punctuation value is produced. -/
theorem skin_char_spec (s : Int) {c : Char} (hsafe : skin_safe c = true)
    (hsep : is_separator c = false) :
    skin_char (-1) (-s) (skin_char 1 s c) = c ∧
    is_separator (skin_char 1 s c) = false ∧
    is_token_sep (skin_char 1 s c) = is_token_sep c ∧
    fw_punct_value (skin_char 1 s c) = false := by
  by_cases hdig : is_digit c = true
  · obtain ⟨hb1, hb2⟩ := skin_char_enc_digit_toNat hdig s
    exact ⟨skin_char_inv_digit hdig s, is_separator_fw_false hb1,
      by rw [kana_is_token_sep_fw_false hb1 hb2, kana_is_token_sep_digit_false hdig],
      fw_punct_value_fw_false hb1 hb2⟩
  have hdig' : is_digit c = false := Bool.eq_false_iff.mpr hdig
  by_cases hc1 : c ∈ P_VOW_LO
  · obtain ⟨f1, f2, f3⟩ := skin_p1_facts c hc1
    obtain ⟨c', he, hcm, hd⟩ := map_rotate_pair (by decide) (by decide) c_vow_lo_nodup hc1 s
    obtain ⟨g1, g2, g3, g4, g5, g6⟩ := skin_c1_facts c' hcm
    have henc : skin_char 1 s c = c' := by
      rw [skin_char, if_pos (by norm_num : (0 : Int) < 1), if_neg (Phonoshift.bool_ne_true f2),
        if_pos (contains_iff.mpr hc1), he, Option.getD_some]
    have hdec : skin_char (-1) (-s) c' = c := by
      rw [skin_char, if_neg (by norm_num : ¬ ((0 : Int) < -1)),
        if_neg (by simp [g2, g3] : ¬ ((is_digit c' || is_fullwidth_digit c') = true)),
        if_pos (contains_iff.mpr hcm), hd, Option.getD_some]
    exact ⟨by rw [henc, hdec], by rw [henc]; exact g1, by rw [henc, g4, f3],
      by rw [henc]; exact g5⟩
  by_cases hc2 : c ∈ P_CON_LO
  · obtain ⟨f1, f2, f3, f4⟩ := skin_p2_facts c hc2
    obtain ⟨c', he, hcm, hd⟩ := map_rotate_pair (by decide) (by decide) c_con_lo_nodup hc2 s
    obtain ⟨g1, g2, g3, g4, g5, g6, g7⟩ := skin_c2_facts c' hcm
    have henc : skin_char 1 s c = c' := by
      rw [skin_char, if_pos (by norm_num : (0 : Int) < 1), if_neg (Phonoshift.bool_ne_true f2),
        if_neg (fun hb => hc1 (contains_iff.mp hb)),
        if_pos (contains_iff.mpr hc2), he, Option.getD_some]
    have hdec : skin_char (-1) (-s) c' = c := by
      rw [skin_char, if_neg (by norm_num : ¬ ((0 : Int) < -1)),
        if_neg (by simp [g2, g3] : ¬ ((is_digit c' || is_fullwidth_digit c') = true)),
        if_neg (fun hb => g7 (contains_iff.mp hb)),
        if_pos (contains_iff.mpr hcm), hd, Option.getD_some]
    exact ⟨by rw [henc, hdec], by rw [henc]; exact g1, by rw [henc, g4, f3],
      by rw [henc]; exact g5⟩
  by_cases hc3 : c ∈ P_VOW_UP
  · obtain ⟨f1, f2, f3, f4, f5⟩ := skin_p3_facts c hc3
    obtain ⟨c', he, hcm, hd⟩ := map_rotate_pair (by decide) (by decide) c_vow_up_nodup hc3 s
    obtain ⟨g1, g2, g3, g4, g5, g6, g7, g8⟩ := skin_c3_facts c' hcm
    have henc : skin_char 1 s c = c' := by
      rw [skin_char, if_pos (by norm_num : (0 : Int) < 1), if_neg (Phonoshift.bool_ne_true f2),
        if_neg (fun hb => hc1 (contains_iff.mp hb)),
        if_neg (fun hb => hc2 (contains_iff.mp hb)),
        if_pos (contains_iff.mpr hc3), he, Option.getD_some]
    have hdec : skin_char (-1) (-s) c' = c := by
      rw [skin_char, if_neg (by norm_num : ¬ ((0 : Int) < -1)),
        if_neg (by simp [g2, g3] : ¬ ((is_digit c' || is_fullwidth_digit c') = true)),
        if_neg (fun hb => g7 (contains_iff.mp hb)),
        if_neg (fun hb => g8 (contains_iff.mp hb)),
        if_pos (contains_iff.mpr hcm), hd, Option.getD_some]
    exact ⟨by rw [henc, hdec], by rw [henc]; exact g1, by rw [henc, g4, f3],
      by rw [henc]; exact g5⟩
  by_cases hc4 : c ∈ P_CON_UP
  · obtain ⟨f1, f2, f3, f4, f5, f6⟩ := skin_p4_facts c hc4
    obtain ⟨c', he, hcm, hd⟩ := map_rotate_pair (by decide) (by decide) c_con_up_nodup hc4 s
    obtain ⟨g1, g2, g3, g4, g5, g6, g7, g8, g9⟩ := skin_c4_facts c' hcm
    have henc : skin_char 1 s c = c' := by
      rw [skin_char, if_pos (by norm_num : (0 : Int) < 1), if_neg (Phonoshift.bool_ne_true f2),
        if_neg (fun hb => hc1 (contains_iff.mp hb)),
        if_neg (fun hb => hc2 (contains_iff.mp hb)),
        if_neg (fun hb => hc3 (contains_iff.mp hb)),
        if_pos (contains_iff.mpr hc4), he, Option.getD_some]
    have hdec : skin_char (-1) (-s) c' = c := by
      rw [skin_char, if_neg (by norm_num : ¬ ((0 : Int) < -1)),
        if_neg (by simp [g2, g3] : ¬ ((is_digit c' || is_fullwidth_digit c') = true)),
        if_neg (fun hb => g7 (contains_iff.mp hb)),
        if_neg (fun hb => g8 (contains_iff.mp hb)),
        if_neg (fun hb => g9 (contains_iff.mp hb)),
        if_pos (contains_iff.mpr hcm), hd, Option.getD_some]
    exact ⟨by rw [henc, hdec], by rw [henc]; exact g1, by rw [henc, g4, f3],
      by rw [henc]; exact g5⟩
  by_cases hc5 : c ∈ P_VOW_LO_PT
  · obtain ⟨f1, f2, f3, f4, f5, f6, f7⟩ := skin_p5_facts c hc5
    obtain ⟨c', he, hcm, hd⟩ := map_rotate_pair (by decide) (by decide) c_acc_lo_nodup hc5 s
    obtain ⟨g1, g2, g3, g4, g5, g6, g7, g8, g9, g10⟩ := skin_c5_facts c' hcm
    have henc : skin_char 1 s c = c' := by
      rw [skin_char, if_pos (by norm_num : (0 : Int) < 1), if_neg (Phonoshift.bool_ne_true f2),
        if_neg (fun hb => hc1 (contains_iff.mp hb)),
        if_neg (fun hb => hc2 (contains_iff.mp hb)),
        if_neg (fun hb => hc3 (contains_iff.mp hb)),
        if_neg (fun hb => hc4 (contains_iff.mp hb)),
        if_pos (contains_iff.mpr hc5), he, Option.getD_some]
    have hdec : skin_char (-1) (-s) c' = c := by
      rw [skin_char, if_neg (by norm_num : ¬ ((0 : Int) < -1)),
        if_neg (by simp [g2, g3] : ¬ ((is_digit c' || is_fullwidth_digit c') = true)),
        if_neg (fun hb => g7 (contains_iff.mp hb)),
        if_neg (fun hb => g8 (contains_iff.mp hb)),
        if_neg (fun hb => g9 (contains_iff.mp hb)),
        if_neg (fun hb => g10 (contains_iff.mp hb)),
        if_pos (contains_iff.mpr hcm), hd, Option.getD_some]
    exact ⟨by rw [henc, hdec], by rw [henc]; exact g1, by rw [henc, g4, f3],
      by rw [henc]; exact g5⟩
  by_cases hc6 : c ∈ P_VOW_UP_PT
  · obtain ⟨f1, f2, f3, f4, f5, f6, f7, f8⟩ := skin_p6_facts c hc6
    obtain ⟨c', he, hcm, hd⟩ := map_rotate_pair (by decide) (by decide) c_acc_up_nodup hc6 s
    obtain ⟨g1, g2, g3, g4, g5, g6, g7, g8, g9, g10, g11⟩ := skin_c6_facts c' hcm
    have henc : skin_char 1 s c = c' := by
      rw [skin_char, if_pos (by norm_num : (0 : Int) < 1), if_neg (Phonoshift.bool_ne_true f2),
        if_neg (fun hb => hc1 (contains_iff.mp hb)),
        if_neg (fun hb => hc2 (contains_iff.mp hb)),
        if_neg (fun hb => hc3 (contains_iff.mp hb)),
        if_neg (fun hb => hc4 (contains_iff.mp hb)),
        if_neg (fun hb => hc5 (contains_iff.mp hb)),
        if_pos (contains_iff.mpr hc6), he, Option.getD_some]
    have hdec : skin_char (-1) (-s) c' = c := by
      rw [skin_char, if_neg (by norm_num : ¬ ((0 : Int) < -1)),
        if_neg (by simp [g2, g3] : ¬ ((is_digit c' || is_fullwidth_digit c') = true)),
        if_neg (fun hb => g7 (contains_iff.mp hb)),
        if_neg (fun hb => g8 (contains_iff.mp hb)),
        if_neg (fun hb => g9 (contains_iff.mp hb)),
        if_neg (fun hb => g10 (contains_iff.mp hb)),
        if_neg (fun hb => g11 (contains_iff.mp hb)),
        if_pos (contains_iff.mpr hcm), hd, Option.getD_some]
    exact ⟨by rw [henc, hdec], by rw [henc]; exact g1, by rw [henc, g4, f3],
      by rw [henc]; exact g5⟩
  by_cases hced1 : c = 'ç'
  · subst hced1
    have henc : skin_char 1 s 'ç' = C_CED_LO := by
      rw [skin_char, if_pos (by norm_num : (0 : Int) < 1),
        if_neg (by decide : ¬ (is_digit 'ç' = true)),
        if_neg (by decide : ¬ (P_VOW_LO.contains 'ç' = true)),
        if_neg (by decide : ¬ (P_CON_LO.contains 'ç' = true)),
        if_neg (by decide : ¬ (P_VOW_UP.contains 'ç' = true)),
        if_neg (by decide : ¬ (P_CON_UP.contains 'ç' = true)),
        if_neg (by decide : ¬ (P_VOW_LO_PT.contains 'ç' = true)),
        if_neg (by decide : ¬ (P_VOW_UP_PT.contains 'ç' = true)),
        if_pos (by decide : (('ç' == 'ç') = true))]
    have hdec : skin_char (-1) (-s) C_CED_LO = 'ç' := by
      rw [skin_char, if_neg (by norm_num : ¬ ((0 : Int) < -1)),
        if_neg (by decide : ¬ ((is_digit C_CED_LO || is_fullwidth_digit C_CED_LO) = true)),
        if_neg (by decide : ¬ (C_VOW_LO.contains C_CED_LO = true)),
        if_neg (by decide : ¬ (C_CON_LO.contains C_CED_LO = true)),
        if_neg (by decide : ¬ (C_VOW_UP.contains C_CED_LO = true)),
        if_neg (by decide : ¬ (C_CON_UP.contains C_CED_LO = true)),
        if_neg (by decide : ¬ (C_ACC_LO.contains C_CED_LO = true)),
        if_neg (by decide : ¬ (C_ACC_UP.contains C_CED_LO = true)),
        if_pos (by decide : ((C_CED_LO == C_CED_LO) = true))]
    exact ⟨by rw [henc, hdec], by rw [henc]; decide, by rw [henc]; decide,
      by rw [henc]; decide⟩
  by_cases hced2 : c = 'Ç'
  · subst hced2
    have henc : skin_char 1 s 'Ç' = C_CED_UP := by
      rw [skin_char, if_pos (by norm_num : (0 : Int) < 1),
        if_neg (by decide : ¬ (is_digit 'Ç' = true)),
        if_neg (by decide : ¬ (P_VOW_LO.contains 'Ç' = true)),
        if_neg (by decide : ¬ (P_CON_LO.contains 'Ç' = true)),
        if_neg (by decide : ¬ (P_VOW_UP.contains 'Ç' = true)),
        if_neg (by decide : ¬ (P_CON_UP.contains 'Ç' = true)),
        if_neg (by decide : ¬ (P_VOW_LO_PT.contains 'Ç' = true)),
        if_neg (by decide : ¬ (P_VOW_UP_PT.contains 'Ç' = true)),
        if_neg (by decide : ¬ (('Ç' == 'ç') = true)),
        if_pos (by decide : (('Ç' == 'Ç') = true))]
    have hdec : skin_char (-1) (-s) C_CED_UP = 'Ç' := by
      rw [skin_char, if_neg (by norm_num : ¬ ((0 : Int) < -1)),
        if_neg (by decide : ¬ ((is_digit C_CED_UP || is_fullwidth_digit C_CED_UP) = true)),
        if_neg (by decide : ¬ (C_VOW_LO.contains C_CED_UP = true)),
        if_neg (by decide : ¬ (C_CON_LO.contains C_CED_UP = true)),
        if_neg (by decide : ¬ (C_VOW_UP.contains C_CED_UP = true)),
        if_neg (by decide : ¬ (C_CON_UP.contains C_CED_UP = true)),
        if_neg (by decide : ¬ (C_ACC_LO.contains C_CED_UP = true)),
        if_neg (by decide : ¬ (C_ACC_UP.contains C_CED_UP = true)),
        if_neg (by decide : ¬ ((C_CED_UP == C_CED_LO) = true)),
        if_pos (by decide : ((C_CED_UP == C_CED_UP) = true))]
    exact ⟨by rw [henc, hdec], by rw [henc]; decide, by rw [henc]; decide,
      by rw [henc]; decide⟩
  · have hs' : skin_cipher_scalar c = false ∧ is_fullwidth_digit c = false ∧
        fw_punct_value c = false := by
      rw [skin_safe] at hsafe
      simp only [Bool.and_eq_true, Bool.not_eq_true'] at hsafe
      exact ⟨hsafe.1.1, hsafe.1.2, hsafe.2⟩
    obtain ⟨hsc, hfwd, hfwv⟩ := hs'
    have hu : c ∉ C_VOW_LO ∧ c ∉ C_CON_LO ∧ c ∉ C_VOW_UP ∧ c ∉ C_CON_UP ∧
        c ∉ C_ACC_LO ∧ c ∉ C_ACC_UP ∧ ¬ (c = C_CED_LO) ∧ ¬ (c = C_CED_UP) := by
      rw [skin_cipher_scalar] at hsc
      simp only [Bool.or_eq_false_iff, beq_eq_false_iff_ne, ne_eq] at hsc
      exact ⟨not_mem_of_contains_eq_false hsc.1.1.1.1.1.1.1,
        not_mem_of_contains_eq_false hsc.1.1.1.1.1.1.2,
        not_mem_of_contains_eq_false hsc.1.1.1.1.1.2,
        not_mem_of_contains_eq_false hsc.1.1.1.1.2,
        not_mem_of_contains_eq_false hsc.1.1.1.2,
        not_mem_of_contains_eq_false hsc.1.1.2, hsc.1.2, hsc.2⟩
    obtain ⟨u1, u2, u3, u4, u5, u6, u7, u8⟩ := hu
    have henc : skin_char 1 s c = c := by
      rw [skin_char, if_pos (by norm_num : (0 : Int) < 1), if_neg hdig,
        if_neg (fun hb => hc1 (contains_iff.mp hb)),
        if_neg (fun hb => hc2 (contains_iff.mp hb)),
        if_neg (fun hb => hc3 (contains_iff.mp hb)),
        if_neg (fun hb => hc4 (contains_iff.mp hb)),
        if_neg (fun hb => hc5 (contains_iff.mp hb)),
        if_neg (fun hb => hc6 (contains_iff.mp hb)),
        if_neg (fun hb => hced1 (eq_of_beq hb)),
        if_neg (fun hb => hced2 (eq_of_beq hb))]
    have hdec : skin_char (-1) (-s) c = c := by
      rw [skin_char, if_neg (by norm_num : ¬ ((0 : Int) < -1)),
        if_neg (by simp [hdig', hfwd] : ¬ ((is_digit c || is_fullwidth_digit c) = true)),
        if_neg (fun hb => u1 (contains_iff.mp hb)),
        if_neg (fun hb => u2 (contains_iff.mp hb)),
        if_neg (fun hb => u3 (contains_iff.mp hb)),
        if_neg (fun hb => u4 (contains_iff.mp hb)),
        if_neg (fun hb => u5 (contains_iff.mp hb)),
        if_neg (fun hb => u6 (contains_iff.mp hb)),
        if_neg (fun hb => u7 (eq_of_beq hb)),
        if_neg (fun hb => u8 (eq_of_beq hb))]
    exact ⟨by rw [henc, hdec], by rw [henc]; exact hsep, by rw [henc],
      by rw [henc]; exact hfwv⟩

theorem kana_sep_char_fw {c : Char} (h : is_separator c = true) :
    fw_punct_value c = false := by
  rw [is_separator] at h
  simp only [Bool.or_eq_true, beq_iff_eq] at h
  rcases h with (h | h) | h <;> subst h <;> decide

/- The skin scalar loop: decoding with the same keystream inverts it on
skin-safe text, its output carries no fullwidth punctuation value, and the
token count of the output equals that of the input. -/
theorem skin_go_spec (ks : List Nat) :
    ∀ (text : List Char), (∀ c ∈ text, skin_safe c = true) → ∀ kpos,
      skin_go ks (-1) (skin_go ks 1 text kpos) kpos = text ∧
      (∀ c' ∈ skin_go ks 1 text kpos, fw_punct_value c' = false) ∧
      (∀ b, tok_count is_token_sep (skin_go ks 1 text kpos) b =
        tok_count is_token_sep text b) := by
  intro text
  induction text with
  | nil => exact fun _ _ => ⟨rfl, by simp [skin_go], fun _ => rfl⟩
  | cons c rest ih =>
    intro h kpos
    have hc := h c (List.mem_cons_self c rest)
    have hrest : ∀ x ∈ rest, skin_safe x = true := fun x hx => h x (List.mem_cons_of_mem c hx)
    by_cases hsep : is_separator c = true
    · rw [skin_go_cons_sep _ _ _ _ _ hsep]
      obtain ⟨ih1, ih2, ih3⟩ := ih hrest kpos
      refine ⟨?_, ?_, ?_⟩
      · rw [skin_go_cons_sep _ _ _ _ _ hsep, ih1]
      · intro c' hc'
        rcases List.mem_cons.mp hc' with h' | hm
        · rw [h']; exact kana_sep_char_fw hsep
        · exact ih2 c' hm
      · intro b
        rw [Phonoshift.tok_count_cons, Phonoshift.tok_count_cons]
        by_cases hts : is_token_sep c = true
        · rw [if_pos hts, if_pos hts, ih3 false]
        · rw [if_neg hts, if_neg hts, ih3 true]
    · have hsep' : is_separator c = false := Bool.eq_false_iff.mpr hsep
      rw [skin_go_cons _ _ _ _ _ hsep']
      obtain ⟨hinv, hosep, htok, hofw⟩ :=
        skin_char_spec ((((ks.getD kpos 0 % 256 : Nat) : Int) + 1) * 1) hc hsep'
      obtain ⟨ih1, ih2, ih3⟩ := ih hrest (next_kpos ks.length kpos)
      refine ⟨?_, ?_, ?_⟩
      · rw [skin_go_cons _ _ _ _ _ hosep]
        have hmul : (((ks.getD kpos 0 % 256 : Nat) : Int) + 1) * (-1)
            = -((((ks.getD kpos 0 % 256 : Nat) : Int) + 1) * 1) := by ring
        rw [hmul, hinv, ih1]
      · intro c' hc'
        rcases List.mem_cons.mp hc' with h' | hm
        · rw [h']; exact hofw
        · exact ih2 c' hm
      · intro b
        rw [Phonoshift.tok_count_cons, Phonoshift.tok_count_cons]
        by_cases hts : is_token_sep c = true
        · rw [if_pos (htok.trans hts), if_pos hts, ih3 false]
        · have hts' : is_token_sep c = false := Bool.eq_false_iff.mpr hts
          rw [if_neg (Phonoshift.bool_ne_true (htok.trans hts')), if_neg hts, ih3 true]

theorem skin_char_enc_fwzero (s : Int) : skin_char 1 s '０' = '０' := by
  rw [skin_char, if_pos (by norm_num : (0 : Int) < 1),
    if_neg (by decide : ¬ (is_digit '０' = true)),
    if_neg (by decide : ¬ (P_VOW_LO.contains '０' = true)),
    if_neg (by decide : ¬ (P_CON_LO.contains '０' = true)),
    if_neg (by decide : ¬ (P_VOW_UP.contains '０' = true)),
    if_neg (by decide : ¬ (P_CON_UP.contains '０' = true)),
    if_neg (by decide : ¬ (P_VOW_LO_PT.contains '０' = true)),
    if_neg (by decide : ¬ (P_VOW_UP_PT.contains '０' = true)),
    if_neg (by decide : ¬ (('０' == 'ç') = true)),
    if_neg (by decide : ¬ (('０' == 'Ç') = true))]

theorem skin_char_dec_fw_ascii (s : Int) :
    ∃ m : Nat, 48 ≤ m ∧ m ≤ 57 ∧ skin_char (-1) s '０' = Char.ofNat m := by
  have h0 : 0 ≤ ((('０'.toNat : Int) - 0xFF10) + s % 10 + 10) % 10 :=
    Int.emod_nonneg _ (by norm_num)
  have h1 : ((('０'.toNat : Int) - 0xFF10) + s % 10 + 10) % 10 < 10 :=
    Int.emod_lt_of_pos _ (by norm_num)
  have hv : ('０'.toNat : Int) = 65296 := by decide
  refine ⟨((48 : Int) + ((('０'.toNat : Int) - 0xFF10) + s % 10 + 10) % 10).toNat,
    by omega, by omega, ?_⟩
  simp only [skin_char, (by decide : is_digit '０' = false),
    (by decide : is_fullwidth_digit '０' = true), Bool.false_or, Bool.false_eq_true,
    show ((0 : Int) < -1) = False by norm_num, if_false, if_true]

theorem skin_go_fwzero (ks : List Nat) (kpos : Nat) :
    skin_go ks 1 ['０'] kpos = ['０'] := by
  rw [skin_go_cons _ _ _ _ _ (by decide : is_separator '０' = false), skin_char_enc_fwzero]
  rfl

theorem skin_transform_fwzero_dec (password : List Char) (iterations : Nat)
    (salt : List Char) :
    ∃ m : Nat, 48 ≤ m ∧ m ≤ 57 ∧
      skin_transform ("０".toList) password iterations salt (-1) = [Char.ofNat m] := by
  obtain ⟨m, hm1, hm2, hm3⟩ := skin_char_dec_fw_ascii
    (((((pbkdf2_keystream password salt iterations (("０".toList).length + 64)).getD 0 0 %
      256 : Nat) : Int) + 1) * (-1))
  refine ⟨m, hm1, hm2, ?_⟩
  rw [skin_transform, if_neg (by decide : ¬ ((("０".toList)).isEmpty = true))]
  show skin_go (pbkdf2_keystream password salt iterations (("０".toList).length + 64)) (-1)
    ['０'] 0 = [Char.ofNat m]
  rw [skin_go_cons _ _ _ _ _ (by decide : is_separator '０' = false), hm3]
  rfl

end Kanashift

/-- C3 (amended).  Kana-skin roundtrip with the keyed streams made explicit:
for every core keystream `ks`, every nonempty punctuation keystream `kps` all
of whose bytes are nonzero mod 256, and every text of skin-safe scalars (no
kana cipher scalars, no fullwidth digits, no fullwidth punctuation values),
decryption inverts encryption for both values of the punctuation flag. -/
theorem claim3_kana_skin_roundtrip (ks kps : List Nat) (hkp : kps ≠ [])
    (hnz : ∀ b ∈ kps, b % 256 ≠ 0) (text : List Char)
    (hsafe : ∀ c ∈ text, Kanashift.skin_safe c = true) (sp : Bool) :
    Kanashift.kanashift_skin_decrypt_with ks kps
      (Kanashift.kanashift_skin_encrypt_with ks kps text sp) sp = text := by
  obtain ⟨h1, h2, h3⟩ := Kanashift.skin_go_spec ks text hsafe 0
  have hT := Kanashift.punct_translate_inv h2
  cases sp
  · simp only [Kanashift.kanashift_skin_encrypt_with, Kanashift.kanashift_skin_decrypt_with,
      Bool.false_eq_true, if_false]
    rw [hT, h1]
  · have hkpos : 0 < kps.length := List.length_pos.mpr hkp
    simp only [Kanashift.kanashift_skin_encrypt_with, Kanashift.kanashift_skin_decrypt_with,
      if_true]
    rw [Kanashift.kana_punct_go_roundtrip kps hkp hnz _ 0 hkpos, hT, h1]

/- Witness for the amended C3 at a concrete input. -/
theorem claim3_kana_skin_roundtrip_witness :
    (([1] : List Nat) ≠ [] ∧ (∀ b ∈ ([1] : List Nat), b % 256 ≠ 0) ∧
      (∀ c ∈ ("a!".toList), Kanashift.skin_safe c = true)) ∧
    Kanashift.kanashift_skin_decrypt_with [1] [1]
      (Kanashift.kanashift_skin_encrypt_with [1] [1] ("a!".toList) true) true
      = "a!".toList :=
  ⟨⟨by decide, by decide, by decide⟩,
    claim3_kana_skin_roundtrip [1] [1] (by decide) (by decide) ("a!".toList) (by decide) true⟩

/-- Counterexample to C3 as stated.  A plaintext consisting of the native
fullwidth digit `'０'` passes through Kana-skin encryption unchanged, but
decryption maps it into an ASCII digit, for every derived keystream: the
roundtrip fails on the real `kanashift_skin_encrypt`/`kanashift_skin_decrypt`
pair. -/
theorem claim3_counterexample :
    Kanashift.kanashift_skin_decrypt
      (Kanashift.kanashift_skin_encrypt ("０".toList) ("pw".toList) 1000
        ("NameFPE:v1".toList) true) ("pw".toList) 1000 ("NameFPE:v1".toList) true
      ≠ "０".toList := by
  have hlist : ("０".toList) = ['０'] := rfl
  have hks : Kanashift.skin_transform ("０".toList) ("pw".toList) 1000
      ("NameFPE:v1".toList) 1 = "０".toList := by
    rw [Kanashift.skin_transform, if_neg (by decide : ¬ ((("０".toList)).isEmpty = true))]
    exact Kanashift.skin_go_fwzero _ 0
  have hTr : Kanashift.punct_translate ("０".toList) 1 = "０".toList := by
    rw [Kanashift.punct_translate_pos, hlist, List.map_cons, List.map_nil,
      Kanashift.punct_enc_char_eq_self (by decide)]
  have hTrm : Kanashift.punct_translate ("０".toList) (-1) = "０".toList := by
    rw [Kanashift.punct_translate_neg, hlist, List.map_cons, List.map_nil,
      Kanashift.punct_dec_char_eq_self (by decide)]
  have hPS1 : Kanashift.punct_shift_apply ("０".toList) ("pw".toList) 1000
      ("NameFPE:v1".toList) 1 = "０".toList :=
    Kanashift.kana_punct_shift_apply_of_no_punct _ _ _ _ (by decide)
  have hPSm : Kanashift.punct_shift_apply ("０".toList) ("pw".toList) 1000
      ("NameFPE:v1".toList) (-1) = "０".toList :=
    Kanashift.kana_punct_shift_apply_of_no_punct _ _ _ _ (by decide)
  have hE : Kanashift.kanashift_skin_encrypt ("０".toList) ("pw".toList) 1000
      ("NameFPE:v1".toList) true = "０".toList := by
    simp only [Kanashift.kanashift_skin_encrypt, if_true]
    rw [hks, hTr]
    exact hPS1
  obtain ⟨m, hm1, hm2, hm3⟩ :=
    Kanashift.skin_transform_fwzero_dec ("pw".toList) 1000 ("NameFPE:v1".toList)
  have hD : Kanashift.kanashift_skin_decrypt ("０".toList) ("pw".toList) 1000
      ("NameFPE:v1".toList) true = [Char.ofNat m] := by
    simp only [Kanashift.kanashift_skin_decrypt, if_true]
    rw [hPSm, hTrm]
    exact hm3
  intro heq
  rw [hE, hD, hlist] at heq
  have hhead : Char.ofNat m = '０' := (List.cons.injEq _ _ _ _).mp heq |>.1
  have htn := congrArg Char.toNat hhead
  rw [ROT500K.char_toNat_ofNat (by omega)] at htn
  have hv : ('０'.toNat) = 65296 := by decide
  omega

namespace ROT500K

theorem is_ascii_upper_false_of {c : Char} (h : c.toNat < 65 ∨ 90 < c.toNat) :
    is_ascii_upper c = false := by
  cases hb : is_ascii_upper c
  · rfl
  · have := is_ascii_upper_iff.mp hb
    omega

theorem is_ascii_lower_false_of {c : Char} (h : c.toNat < 97 ∨ 122 < c.toNat) :
    is_ascii_lower c = false := by
  cases hb : is_ascii_lower c
  · rfl
  · have := is_ascii_lower_iff.mp hb
    omega

theorem is_digit_false_of {c : Char} (h : c.toNat < 48 ∨ 57 < c.toNat) :
    is_digit c = false := by
  cases hb : is_digit c
  · rfl
  · have := is_digit_iff.mp hb
    omega

theorem is_fullwidth_digit_false_of {c : Char} (h : c.toNat < 65296 ∨ 65305 < c.toNat) :
    is_fullwidth_digit c = false := by
  cases hb : is_fullwidth_digit c
  · rfl
  · have := is_fullwidth_digit_iff.mp hb
    omega

theorem is_separator_ge48_false {c : Char} (h1 : 48 ≤ c.toNat) : is_separator c = false := by
  have hne1 : c ≠ ' ' := fun he => by rw [he] at h1; exact absurd h1 (by decide)
  have hne2 : c ≠ '-' := fun he => by rw [he] at h1; exact absurd h1 (by decide)
  have hne3 : c ≠ '\'' := fun he => by rw [he] at h1; exact absurd h1 (by decide)
  simp [is_separator, hne1, hne2, hne3]

theorem char_bounded_lower (c : Char) (h : is_ascii_lower c = true) :
    ∃ m, (97 ≤ m ∧ m ≤ 122) ∧ c = Char.ofNat m :=
  ⟨c.toNat, is_ascii_lower_iff.mp h, (Char.ofNat_toNat c).symm⟩

theorem to_lower_ascii_lower {c : Char} (h : is_ascii_upper c = true) :
    is_ascii_lower (to_lower_ascii c) = true := by
  obtain ⟨m, ⟨hm1, hm2⟩, rfl⟩ := char_bounded_upper c h
  interval_cases m <;> decide

theorem effective_shift_bounds (s : Int) (n : Nat) (h : 2 ≤ n) :
    -1 ≤ effective_shift s n ∧ effective_shift s n < (n : Int) := by
  rw [effective_shift, if_neg (by omega : ¬ (n ≤ 1))]
  have hNpos : (0 : Int) < (n : Int) := by exact_mod_cast (by omega : 0 < n)
  have h0 : 0 ≤ s % (n : Int) := Int.emod_nonneg _ (ne_of_gt hNpos)
  have h1 : s % (n : Int) < (n : Int) := Int.emod_lt_of_pos _ hNpos
  by_cases hm : s % (n : Int) = 0
  · rw [if_pos hm]
    by_cases hsg : 0 ≤ s
    · rw [if_pos hsg]
      omega
    · rw [if_neg hsg]
      omega
  · rw [if_neg hm]
    omega

end ROT500K

namespace Kanashift

open ROT500K

theorem stable_list_vals : ∀ x ∈ ("ー々ゝゞヽヾ".toList),
    x.toNat = 0x30FC ∨ x.toNat = 0x3005 ∨ x.toNat = 0x309D ∨ x.toNat = 0x309E ∨
    x.toNat = 0x30FD ∨ x.toNat = 0x30FE := by decide

theorem is_stable_jp_mark_false_of {c : Char}
    (h : c.toNat ≠ 0x30FC ∧ c.toNat ≠ 0x3005 ∧ c.toNat ≠ 0x309D ∧ c.toNat ≠ 0x309E ∧
      c.toNat ≠ 0x30FD ∧ c.toNat ≠ 0x30FE) : is_stable_jp_mark c = false := by
  rw [is_stable_jp_mark]
  refine Phonoshift.contains_eq_false (fun hm => ?_)
  have := stable_list_vals c hm
  omega

theorem kana_sep_list_facts2 :
    ∀ x ∈ (" 　-'.,!?:;。、！？：；・「」『』（）［］｛｝\t\n\r".toList),
      (x.toNat < 0x3041 ∨ 0x3096 < x.toNat) ∧ (x.toNat < 0x30A1 ∨ 0x30FA < x.toNat) ∧
      (x.toNat < 0x4E00 ∨ 0x9FFF < x.toNat) := by decide

theorem fw_value_list_facts2 : ∀ x ∈ ("？！、。：；（）［］｛｝＂".toList),
    (x.toNat < 0x3041 ∨ 0x3096 < x.toNat) ∧ (x.toNat < 0x30A1 ∨ 0x30FA < x.toNat) ∧
    (x.toNat < 0x4E00 ∨ 0x9FFF < x.toNat) ∧ 255 < x.toNat := by decide

theorem kana_is_token_sep_alpha_false {c : Char} (h1 : 65 ≤ c.toNat) (h2 : c.toNat ≤ 122) :
    is_token_sep c = false := by
  rw [is_token_sep]
  refine Phonoshift.contains_eq_false (fun hm => ?_)
  have := (kana_sep_list_facts c hm).2.2
  omega

theorem kana_is_token_sep_hira_false {c : Char} (h1 : 0x3041 ≤ c.toNat)
    (h2 : c.toNat ≤ 0x3096) : is_token_sep c = false := by
  rw [is_token_sep]
  refine Phonoshift.contains_eq_false (fun hm => ?_)
  have := (kana_sep_list_facts2 c hm).1
  omega

theorem kana_is_token_sep_kata_false {c : Char} (h1 : 0x30A1 ≤ c.toNat)
    (h2 : c.toNat ≤ 0x30FA) : is_token_sep c = false := by
  rw [is_token_sep]
  refine Phonoshift.contains_eq_false (fun hm => ?_)
  have := (kana_sep_list_facts2 c hm).2.1
  omega

theorem kana_is_token_sep_kanji_false {c : Char} (h1 : 0x4E00 ≤ c.toNat)
    (h2 : c.toNat ≤ 0x9FFF) : is_token_sep c = false := by
  rw [is_token_sep]
  refine Phonoshift.contains_eq_false (fun hm => ?_)
  have := (kana_sep_list_facts2 c hm).2.2
  omega

theorem fw_punct_value_hira_false {c : Char} (h1 : 0x3041 ≤ c.toNat) (h2 : c.toNat ≤ 0x3096) :
    fw_punct_value c = false := by
  rw [fw_punct_value]
  refine Phonoshift.contains_eq_false (fun hm => ?_)
  have := (fw_value_list_facts2 c hm).1
  omega

theorem fw_punct_value_kata_false {c : Char} (h1 : 0x30A1 ≤ c.toNat) (h2 : c.toNat ≤ 0x30FA) :
    fw_punct_value c = false := by
  rw [fw_punct_value]
  refine Phonoshift.contains_eq_false (fun hm => ?_)
  have := (fw_value_list_facts2 c hm).2.1
  omega

theorem fw_punct_value_kanji_false {c : Char} (h1 : 0x4E00 ≤ c.toNat) (h2 : c.toNat ≤ 0x9FFF) :
    fw_punct_value c = false := by
  rw [fw_punct_value]
  refine Phonoshift.contains_eq_false (fun hm => ?_)
  have := (fw_value_list_facts2 c hm).2.2.1
  omega

theorem fw_punct_value_small_false {c : Char} (h : c.toNat ≤ 255) :
    fw_punct_value c = false := by
  rw [fw_punct_value]
  refine Phonoshift.contains_eq_false (fun hm => ?_)
  have := (fw_value_list_facts2 c hm).2.2.2
  omega

theorem build_kana_set_toNat {a b : Nat} (hb : b < 55296) {x : Char}
    (hx : x ∈ build_kana_set a b) : a ≤ x.toNat ∧ x.toNat ≤ b := by
  rw [build_kana_set] at hx
  obtain ⟨i, hi, rfl⟩ := List.mem_map.mp hx
  have hir := List.mem_range.mp hi
  rw [char_toNat_ofNat (by omega)]
  omega

theorem mem_build_kana_set_of {a b : Nat} (hb : b < 55296) {x : Char}
    (h1 : a ≤ x.toNat) (h2 : x.toNat ≤ b) : x ∈ build_kana_set a b := by
  rw [build_kana_set]
  refine List.mem_map.mpr ⟨x.toNat - a, List.mem_range.mpr (by omega), ?_⟩
  rw [show a + (x.toNat - a) = x.toNat by omega]
  exact Char.ofNat_toNat x

theorem jp_hira_nodup : JP_HIRA.Nodup := by decide

theorem jp_kata_nodup : JP_KATA.Nodup := by decide

theorem rotate_kanji_spec {c : Char} (h1 : 0x4E00 ≤ c.toNat) (h2 : c.toNat ≤ 0x9FFF)
    {s : Int} (hs : s ≠ 0) :
    0x4E00 ≤ (rotate_codepoint_range_no_zero c s 0x4E00 0x9FFF).toNat ∧
    (rotate_codepoint_range_no_zero c s 0x4E00 0x9FFF).toNat ≤ 0x9FFF ∧
    rotate_codepoint_range_no_zero (rotate_codepoint_range_no_zero c s 0x4E00 0x9FFF)
      (-s) 0x4E00 0x9FFF = c := by
  have hM : ((0x9FFF - 0x4E00 + 1 : Nat) : Int) = 20992 := by norm_num
  have he1 := effective_shift_bounds s (0x9FFF - 0x4E00 + 1) (by norm_num)
  have he2 := effective_shift_bounds (-s) (0x9FFF - 0x4E00 + 1) (by norm_num)
  have hsum := effective_shift_total hs (0x9FFF - 0x4E00 + 1) (by norm_num)
  rw [hM] at he1 he2 hsum
  have hr0 : 0 ≤ ((c.toNat : Int) - 19968 + effective_shift s (0x9FFF - 0x4E00 + 1)) % 20992 :=
    Int.emod_nonneg _ (by norm_num)
  have hr1 : ((c.toNat : Int) - 19968 + effective_shift s (0x9FFF - 0x4E00 + 1)) % 20992
      < 20992 := Int.emod_lt_of_pos _ (by norm_num)
  have henc : rotate_codepoint_range_no_zero c s 0x4E00 0x9FFF =
      Char.ofNat (0x4E00 +
        (((c.toNat : Int) - 19968 + effective_shift s (0x9FFF - 0x4E00 + 1)) % 20992).toNat) := by
    rw [rotate_codepoint_range_no_zero,
      if_neg (by simp only [Bool.or_eq_true, decide_eq_true_eq]; omega), hM]
    norm_num
  have htn : (rotate_codepoint_range_no_zero c s 0x4E00 0x9FFF).toNat =
      0x4E00 + (((c.toNat : Int) - 19968 +
        effective_shift s (0x9FFF - 0x4E00 + 1)) % 20992).toNat := by
    rw [henc, char_toNat_ofNat (by omega)]
  refine ⟨by omega, by omega, ?_⟩
  rw [rotate_codepoint_range_no_zero,
    if_neg (by simp only [Bool.or_eq_true, decide_eq_true_eq]; omega), hM, htn]
  have hcast : ((0x4E00 + (((c.toNat : Int) - 19968 +
      effective_shift s (0x9FFF - 0x4E00 + 1)) % 20992).toNat : Nat) : Int)
      - ((19968 : Nat) : Int)
      = ((c.toNat : Int) - 19968 + effective_shift s (0x9FFF - 0x4E00 + 1)) % 20992 := by
    push_cast
    omega
  rw [hcast, emod_add_left_emod]
  have key : ((c.toNat : Int) - 19968 + effective_shift s (0x9FFF - 0x4E00 + 1) +
      effective_shift (-s) (0x9FFF - 0x4E00 + 1)) % 20992 = (c.toNat : Int) - 19968 := by
    omega
  rw [key]
  have hfin : (0x4E00 + ((c.toNat : Int) - 19968).toNat) = c.toNat := by omega
  rw [hfin, Char.ofNat_toNat]

theorem is_hiragana_iff {c : Char} :
    is_hiragana c = true ↔ 0x3041 ≤ c.toNat ∧ c.toNat ≤ 0x3096 := by
  simp only [is_hiragana, Bool.and_eq_true, decide_eq_true_eq]

theorem is_katakana_iff {c : Char} :
    is_katakana c = true ↔ 0x30A1 ≤ c.toNat ∧ c.toNat ≤ 0x30FA := by
  simp only [is_katakana, Bool.and_eq_true, decide_eq_true_eq]

theorem is_kanji_iff {c : Char} :
    is_kanji c = true ↔ 0x4E00 ≤ c.toNat ∧ c.toNat ≤ 0x9FFF := by
  simp only [is_kanji, Bool.and_eq_true, decide_eq_true_eq]

theorem is_hiragana_false_of {c : Char} (h : c.toNat < 0x3041 ∨ 0x3096 < c.toNat) :
    is_hiragana c = false := by
  cases hb : is_hiragana c
  · rfl
  · have := is_hiragana_iff.mp hb
    omega

theorem is_katakana_false_of {c : Char} (h : c.toNat < 0x30A1 ∨ 0x30FA < c.toNat) :
    is_katakana c = false := by
  cases hb : is_katakana c
  · rfl
  · have := is_katakana_iff.mp hb
    omega

theorem is_kanji_false_of {c : Char} (h : c.toNat < 0x4E00 ∨ 0x9FFF < c.toNat) :
    is_kanji c = false := by
  cases hb : is_kanji c
  · rfl
  · have := is_kanji_iff.mp hb
    omega

theorem jp_V_nodup : ("aeiou".toList).Nodup := by decide

theorem jp_C_nodup : ("bcdfghjklmnpqrstvwxyz".toList).Nodup := by decide

theorem jp_V_facts : ∀ x ∈ ("aeiou".toList),
    is_ascii_lower x = true ∧ is_ascii_upper x = false ∧
    to_lower_ascii (to_upper_ascii x) = x ∧ is_ascii_upper (to_upper_ascii x) = true ∧
    is_separator (to_upper_ascii x) = false ∧ is_stable_jp_mark (to_upper_ascii x) = false ∧
    is_token_sep (to_upper_ascii x) = false ∧ fw_punct_value (to_upper_ascii x) = false ∧
    is_separator x = false ∧ is_stable_jp_mark x = false ∧
    is_token_sep x = false ∧ fw_punct_value x = false := by decide

theorem jp_C_facts : ∀ x ∈ ("bcdfghjklmnpqrstvwxyz".toList),
    x ∉ ("aeiou".toList) ∧
    is_ascii_lower x = true ∧ is_ascii_upper x = false ∧
    to_lower_ascii (to_upper_ascii x) = x ∧ is_ascii_upper (to_upper_ascii x) = true ∧
    is_separator (to_upper_ascii x) = false ∧ is_stable_jp_mark (to_upper_ascii x) = false ∧
    is_token_sep (to_upper_ascii x) = false ∧ fw_punct_value (to_upper_ascii x) = false ∧
    is_separator x = false ∧ is_stable_jp_mark x = false ∧
    is_token_sep x = false ∧ fw_punct_value x = false := by decide

theorem lower_mem_V_or_C {x : Char} (h : is_ascii_lower x = true) :
    x ∈ ("aeiou".toList) ∨ x ∈ ("bcdfghjklmnpqrstvwxyz".toList) := by
  obtain ⟨m, ⟨hm1, hm2⟩, rfl⟩ := char_bounded_lower x h
  interval_cases m <;> decide

/- One keyed ASCII letter of the JP-native family: the allow-zero rotation
in the phoneme class is inverted by the negated shift for EVERY shift, the
output is again an ASCII letter, and it is never a separator, stable mark,
token separator or fullwidth punctuation value. -/
theorem rotate_ascii_alpha_phono_spec (s : Int) {c : Char}
    (h : is_ascii_upper c = true ∨ is_ascii_lower c = true) :
    rotate_ascii_alpha_phono (rotate_ascii_alpha_phono c s) (-s) = c ∧
    (is_ascii_upper (rotate_ascii_alpha_phono c s) = true ∨
      is_ascii_lower (rotate_ascii_alpha_phono c s) = true) ∧
    is_separator (rotate_ascii_alpha_phono c s) = false ∧
    is_stable_jp_mark (rotate_ascii_alpha_phono c s) = false ∧
    is_token_sep (rotate_ascii_alpha_phono c s) = false ∧
    fw_punct_value (rotate_ascii_alpha_phono c s) = false := by
  by_cases hup : is_ascii_upper c = true
  · have hlow := to_lower_ascii_lower hup
    rcases lower_mem_V_or_C hlow with hv | hcn
    · have hym : rotate_in_set_allow_zero ("aeiou".toList) (to_lower_ascii c) s
          ∈ ("aeiou".toList) := rotate_in_set_allow_zero_mem hv s
      obtain ⟨q1, q2, q3, q4, q5, q6, q7, q8, _, _, _, _⟩ := jp_V_facts _ hym
      have henc : rotate_ascii_alpha_phono c s =
          to_upper_ascii (rotate_in_set_allow_zero ("aeiou".toList) (to_lower_ascii c) s) := by
        simp only [rotate_ascii_alpha_phono]
        rw [if_pos hup, if_pos (contains_iff.mpr hv)]
      refine ⟨?_, Or.inl (henc ▸ q4), henc ▸ q5, henc ▸ q6, henc ▸ q7, henc ▸ q8⟩
      rw [henc]
      have hdec : rotate_ascii_alpha_phono
          (to_upper_ascii (rotate_in_set_allow_zero ("aeiou".toList) (to_lower_ascii c) s))
          (-s) = to_upper_ascii (rotate_in_set_allow_zero ("aeiou".toList)
            (rotate_in_set_allow_zero ("aeiou".toList) (to_lower_ascii c) s) (-s)) := by
        simp only [rotate_ascii_alpha_phono]
        rw [if_pos q4, q3, if_pos (contains_iff.mpr hym)]
      rw [hdec, rotate_in_set_allow_zero_inv jp_V_nodup hv s]
      exact to_upper_to_lower_ascii hup
    · obtain ⟨hnv0, _, _, _, _, _, _, _, _, _, _, _, _⟩ := jp_C_facts _ hcn
      have hym : rotate_in_set_allow_zero ("bcdfghjklmnpqrstvwxyz".toList) (to_lower_ascii c) s
          ∈ ("bcdfghjklmnpqrstvwxyz".toList) := rotate_in_set_allow_zero_mem hcn s
      obtain ⟨hynv, q1, q2, q3, q4, q5, q6, q7, q8, _, _, _, _⟩ := jp_C_facts _ hym
      have henc : rotate_ascii_alpha_phono c s =
          to_upper_ascii (rotate_in_set_allow_zero ("bcdfghjklmnpqrstvwxyz".toList)
            (to_lower_ascii c) s) := by
        simp only [rotate_ascii_alpha_phono]
        rw [if_pos hup, if_neg (Phonoshift.bool_ne_true (Phonoshift.contains_eq_false hnv0)),
          if_pos (contains_iff.mpr hcn)]
      refine ⟨?_, Or.inl (henc ▸ q4), henc ▸ q5, henc ▸ q6, henc ▸ q7, henc ▸ q8⟩
      rw [henc]
      have hdec : rotate_ascii_alpha_phono
          (to_upper_ascii (rotate_in_set_allow_zero ("bcdfghjklmnpqrstvwxyz".toList)
            (to_lower_ascii c) s)) (-s) =
          to_upper_ascii (rotate_in_set_allow_zero ("bcdfghjklmnpqrstvwxyz".toList)
            (rotate_in_set_allow_zero ("bcdfghjklmnpqrstvwxyz".toList)
              (to_lower_ascii c) s) (-s)) := by
        simp only [rotate_ascii_alpha_phono]
        rw [if_pos q4, q3, if_neg (Phonoshift.bool_ne_true (Phonoshift.contains_eq_false hynv)),
          if_pos (contains_iff.mpr hym)]
      rw [hdec, rotate_in_set_allow_zero_inv jp_C_nodup hcn s]
      exact to_upper_to_lower_ascii hup
  · have hup' : is_ascii_upper c = false := Bool.eq_false_iff.mpr hup
    have hlow : is_ascii_lower c = true := by
      rcases h with h | h
      · exact absurd h hup
      · exact h
    rcases lower_mem_V_or_C hlow with hv | hcn
    · have hym : rotate_in_set_allow_zero ("aeiou".toList) c s ∈ ("aeiou".toList) :=
        rotate_in_set_allow_zero_mem hv s
      obtain ⟨q1, q2, _, _, _, _, _, _, q9, q10, q11, q12⟩ := jp_V_facts _ hym
      have henc : rotate_ascii_alpha_phono c s =
          rotate_in_set_allow_zero ("aeiou".toList) c s := by
        simp only [rotate_ascii_alpha_phono]
        rw [if_neg (Phonoshift.bool_ne_true hup'), if_pos hlow, if_pos (contains_iff.mpr hv)]
      refine ⟨?_, Or.inr (henc ▸ q1), henc ▸ q9, henc ▸ q10, henc ▸ q11, henc ▸ q12⟩
      rw [henc]
      have hdec : rotate_ascii_alpha_phono
          (rotate_in_set_allow_zero ("aeiou".toList) c s) (-s) =
          rotate_in_set_allow_zero ("aeiou".toList)
            (rotate_in_set_allow_zero ("aeiou".toList) c s) (-s) := by
        simp only [rotate_ascii_alpha_phono]
        rw [if_neg (Phonoshift.bool_ne_true q2), if_pos q1, if_pos (contains_iff.mpr hym)]
      rw [hdec, rotate_in_set_allow_zero_inv jp_V_nodup hv s]
    · obtain ⟨hnv0, _, _, _, _, _, _, _, _, _, _, _, _⟩ := jp_C_facts _ hcn
      have hym : rotate_in_set_allow_zero ("bcdfghjklmnpqrstvwxyz".toList) c s
          ∈ ("bcdfghjklmnpqrstvwxyz".toList) := rotate_in_set_allow_zero_mem hcn s
      obtain ⟨hynv, q1, q2, _, _, _, _, _, _, q9, q10, q11, q12⟩ := jp_C_facts _ hym
      have henc : rotate_ascii_alpha_phono c s =
          rotate_in_set_allow_zero ("bcdfghjklmnpqrstvwxyz".toList) c s := by
        simp only [rotate_ascii_alpha_phono]
        rw [if_neg (Phonoshift.bool_ne_true hup'), if_pos hlow,
          if_neg (Phonoshift.bool_ne_true (Phonoshift.contains_eq_false hnv0)),
          if_pos (contains_iff.mpr hcn)]
      refine ⟨?_, Or.inr (henc ▸ q1), henc ▸ q9, henc ▸ q10, henc ▸ q11, henc ▸ q12⟩
      rw [henc]
      have hdec : rotate_ascii_alpha_phono
          (rotate_in_set_allow_zero ("bcdfghjklmnpqrstvwxyz".toList) c s) (-s) =
          rotate_in_set_allow_zero ("bcdfghjklmnpqrstvwxyz".toList)
            (rotate_in_set_allow_zero ("bcdfghjklmnpqrstvwxyz".toList) c s) (-s) := by
        simp only [rotate_ascii_alpha_phono]
        rw [if_neg (Phonoshift.bool_ne_true q2), if_pos q1,
          if_neg (Phonoshift.bool_ne_true (Phonoshift.contains_eq_false hynv)),
          if_pos (contains_iff.mpr hym)]
      rw [hdec, rotate_in_set_allow_zero_inv jp_C_nodup hcn s]

/- One keyed scalar of the JP-native family, for a NONZERO shift: decoding
with the negated shift is a left inverse on jp-safe scalars, and the output
is never a separator, stable mark, or fullwidth punctuation value, while
token-separator status is preserved. -/
theorem jp_char_spec (s : Int) (hs : s ≠ 0) {c : Char} (hsafe : jp_safe c = true)
    (hsep : is_separator c = false) (hst : is_stable_jp_mark c = false) :
    jp_char (-1) (-s) (jp_char 1 s c) = c ∧
    is_separator (jp_char 1 s c) = false ∧
    is_stable_jp_mark (jp_char 1 s c) = false ∧
    is_token_sep (jp_char 1 s c) = is_token_sep c ∧
    fw_punct_value (jp_char 1 s c) = false := by
  have hsafe' : is_fullwidth_digit c = false ∧ fw_punct_value c = false := by
    rw [jp_safe] at hsafe
    simp only [Bool.and_eq_true, Bool.not_eq_true'] at hsafe
    exact hsafe
  obtain ⟨hfwc, hfwvc⟩ := hsafe'
  by_cases hAl : (is_ascii_upper c || is_ascii_lower c) = true
  · have h' : is_ascii_upper c = true ∨ is_ascii_lower c = true :=
      Bool.or_eq_true _ _ |>.mp hAl
    obtain ⟨r1, r2, r3, r4, r5, r6⟩ := rotate_ascii_alpha_phono_spec s h'
    have henc : jp_char 1 s c = rotate_ascii_alpha_phono c s := by
      rw [jp_char, if_pos hAl]
    have horc : (is_ascii_upper (rotate_ascii_alpha_phono c s)
        || is_ascii_lower (rotate_ascii_alpha_phono c s)) = true := by
      rcases r2 with ho | ho
      · rw [ho, Bool.true_or]
      · rw [ho, Bool.or_true]
    have hdec : jp_char (-1) (-s) (rotate_ascii_alpha_phono c s)
        = rotate_ascii_alpha_phono (rotate_ascii_alpha_phono c s) (-s) := by
      rw [jp_char, if_pos horc]
    have hintok : is_token_sep c = false := by
      rcases h' with ho | ho
      · have hb := is_ascii_upper_iff.mp ho
        exact kana_is_token_sep_alpha_false (by omega) (by omega)
      · have hb := is_ascii_lower_iff.mp ho
        exact kana_is_token_sep_alpha_false (by omega) (by omega)
    exact ⟨by rw [henc, hdec, r1], by rw [henc]; exact r3, by rw [henc]; exact r4,
      by rw [henc, r5, hintok], by rw [henc]; exact r6⟩
  · have hAl' : (is_ascii_upper c || is_ascii_lower c) = false := Bool.eq_false_iff.mpr hAl
    by_cases hdig : is_digit c = true
    · have hb := is_digit_iff.mp hdig
      have hnd0 : 0 ≤ ((c.toNat : Int) - 48 + effective_shift s 10 + 10) % 10 :=
        Int.emod_nonneg _ (by norm_num)
      have hnd1 : ((c.toNat : Int) - 48 + effective_shift s 10 + 10) % 10 < 10 :=
        Int.emod_lt_of_pos _ (by norm_num)
      have henc : jp_char 1 s c = Char.ofNat
          ((0xFF10 : Int) + ((c.toNat : Int) - 48 + effective_shift s 10 + 10) % 10).toNat := by
        rw [jp_char, if_neg (Phonoshift.bool_ne_true hAl'),
          if_pos (show (decide ((0 : Int) < 1) && is_digit c) = true by rw [hdig]; rfl)]
      have htn : (jp_char 1 s c).toNat =
          ((0xFF10 : Int) + ((c.toNat : Int) - 48 + effective_shift s 10 + 10) % 10).toNat := by
        rw [henc, char_toNat_ofNat_high (by omega)]
      have hbe : 0xFF10 ≤ (jp_char 1 s c).toNat ∧ (jp_char 1 s c).toNat ≤ 0xFF19 := by
        rw [htn]
        omega
      have hdupf : is_ascii_upper (jp_char 1 s c) = false :=
        is_ascii_upper_false_of (by omega)
      have hdlowf : is_ascii_lower (jp_char 1 s c) = false :=
        is_ascii_lower_false_of (by omega)
      have hddigf : is_digit (jp_char 1 s c) = false := is_digit_false_of (by omega)
      have hdfwt : is_fullwidth_digit (jp_char 1 s c) = true :=
        is_fullwidth_digit_iff.mpr ⟨hbe.1, hbe.2⟩
      have hsum := effective_shift_total hs 10 (by norm_num)
      have he1 := effective_shift_bounds s 10 (by norm_num)
      have he2 := effective_shift_bounds (-s) 10 (by norm_num)
      have hdec : jp_char (-1) (-s) (jp_char 1 s c) = Char.ofNat
          ((48 : Int) + (((jp_char 1 s c).toNat : Int) - 0xFF10 +
            effective_shift (-s) 10 + 10) % 10).toNat := by
        rw [jp_char, if_neg (Phonoshift.bool_ne_true
            (Bool.or_eq_false_iff.mpr ⟨hdupf, hdlowf⟩)),
          if_neg (show ¬ ((decide ((0 : Int) < -1) && is_digit (jp_char 1 s c)) = true) by
            simp),
          if_neg (show ¬ ((decide ((0 : Int) < -1) &&
            is_fullwidth_digit (jp_char 1 s c)) = true) by simp),
          if_pos (show (!decide ((0 : Int) < -1) &&
            (is_digit (jp_char 1 s c) || is_fullwidth_digit (jp_char 1 s c))) = true by
            rw [hddigf, hdfwt]; rfl), hddigf]
        rfl
      have hinv : jp_char (-1) (-s) (jp_char 1 s c) = c := by
        rw [hdec, htn]
        have hcast : ((((0xFF10 : Int) + ((c.toNat : Int) - 48 + effective_shift s 10 + 10)
            % 10).toNat : Nat) : Int)
            = (0xFF10 : Int) + ((c.toNat : Int) - 48 + effective_shift s 10 + 10) % 10 :=
          Int.toNat_of_nonneg (by omega)
        rw [hcast]
        have key : ((48 : Int) + ((0xFF10 + ((c.toNat : Int) - 48 + effective_shift s 10 + 10)
            % 10 - 0xFF10) + effective_shift (-s) 10 + 10) % 10) = (c.toNat : Int) := by
          omega
        rw [key, Int.toNat_natCast, Char.ofNat_toNat]
      exact ⟨hinv, is_separator_ge48_false (by omega),
        is_stable_jp_mark_false_of (by omega),
        by rw [kana_is_token_sep_fw_false hbe.1 hbe.2, kana_is_token_sep_digit_false hdig],
        fw_punct_value_fw_false hbe.1 hbe.2⟩
    · have hdig' : is_digit c = false := Bool.eq_false_iff.mpr hdig
      by_cases hh : is_hiragana c = true
      · have hbh := is_hiragana_iff.mp hh
        have hcm : c ∈ JP_HIRA := mem_build_kana_set_of (by norm_num) hbh.1 hbh.2
        have hym : rotate_in_set_no_zero JP_HIRA c s ∈ JP_HIRA :=
          rotate_in_set_no_zero_mem hcm s
        have hyb : 0x3041 ≤ (rotate_in_set_no_zero JP_HIRA c s).toNat ∧
            (rotate_in_set_no_zero JP_HIRA c s).toNat ≤ 0x3096 :=
          build_kana_set_toNat (by norm_num) hym
        have henc : jp_char 1 s c = rotate_in_set_no_zero JP_HIRA c s := by
          rw [jp_char, if_neg (Phonoshift.bool_ne_true hAl'),
            if_neg (show ¬ ((decide ((0 : Int) < 1) && is_digit c) = true) by simp [hdig']),
            if_neg (show ¬ ((decide ((0 : Int) < 1) && is_fullwidth_digit c) = true) by
              simp [hfwc]),
            if_neg (show ¬ ((!decide ((0 : Int) < 1) &&
              (is_digit c || is_fullwidth_digit c)) = true) by simp),
            if_pos hh]
        have hdec : jp_char (-1) (-s) (rotate_in_set_no_zero JP_HIRA c s)
            = rotate_in_set_no_zero JP_HIRA (rotate_in_set_no_zero JP_HIRA c s) (-s) := by
          rw [jp_char, if_neg (Phonoshift.bool_ne_true (Bool.or_eq_false_iff.mpr
              ⟨is_ascii_upper_false_of (by omega), is_ascii_lower_false_of (by omega)⟩)),
            if_neg (show ¬ ((decide ((0 : Int) < -1) &&
              is_digit (rotate_in_set_no_zero JP_HIRA c s)) = true) by simp),
            if_neg (show ¬ ((decide ((0 : Int) < -1) &&
              is_fullwidth_digit (rotate_in_set_no_zero JP_HIRA c s)) = true) by simp),
            if_neg (show ¬ ((!decide ((0 : Int) < -1) &&
              (is_digit (rotate_in_set_no_zero JP_HIRA c s) ||
                is_fullwidth_digit (rotate_in_set_no_zero JP_HIRA c s))) = true) by
              simp [is_digit_false_of (Or.inr (by omega : (57 : Nat) <
                (rotate_in_set_no_zero JP_HIRA c s).toNat)),
                is_fullwidth_digit_false_of (Or.inl (by omega : (rotate_in_set_no_zero
                  JP_HIRA c s).toNat < 65296))]),
            if_pos (is_hiragana_iff.mpr ⟨hyb.1, hyb.2⟩)]
        exact ⟨by rw [henc, hdec, rotate_in_set_no_zero_inv jp_hira_nodup hcm hs],
          by rw [henc]; exact is_separator_ge48_false (by omega),
          by rw [henc]; exact is_stable_jp_mark_false_of (by omega),
          by rw [henc, kana_is_token_sep_hira_false hyb.1 hyb.2,
            kana_is_token_sep_hira_false hbh.1 hbh.2],
          by rw [henc]; exact fw_punct_value_hira_false hyb.1 hyb.2⟩
      · have hh' : is_hiragana c = false := Bool.eq_false_iff.mpr hh
        by_cases hk : is_katakana c = true
        · have hbk := is_katakana_iff.mp hk
          have hcm : c ∈ JP_KATA := mem_build_kana_set_of (by norm_num) hbk.1 hbk.2
          have hym : rotate_in_set_no_zero JP_KATA c s ∈ JP_KATA :=
            rotate_in_set_no_zero_mem hcm s
          have hyb : 0x30A1 ≤ (rotate_in_set_no_zero JP_KATA c s).toNat ∧
              (rotate_in_set_no_zero JP_KATA c s).toNat ≤ 0x30FA :=
            build_kana_set_toNat (by norm_num) hym
          have henc : jp_char 1 s c = rotate_in_set_no_zero JP_KATA c s := by
            rw [jp_char, if_neg (Phonoshift.bool_ne_true hAl'),
              if_neg (show ¬ ((decide ((0 : Int) < 1) && is_digit c) = true) by
                simp [hdig']),
              if_neg (show ¬ ((decide ((0 : Int) < 1) && is_fullwidth_digit c) = true) by
                simp [hfwc]),
              if_neg (show ¬ ((!decide ((0 : Int) < 1) &&
                (is_digit c || is_fullwidth_digit c)) = true) by simp),
              if_neg (Phonoshift.bool_ne_true hh'), if_pos hk]
          have hdec : jp_char (-1) (-s) (rotate_in_set_no_zero JP_KATA c s)
              = rotate_in_set_no_zero JP_KATA (rotate_in_set_no_zero JP_KATA c s) (-s) := by
            rw [jp_char, if_neg (Phonoshift.bool_ne_true (Bool.or_eq_false_iff.mpr
                ⟨is_ascii_upper_false_of (by omega), is_ascii_lower_false_of (by omega)⟩)),
              if_neg (show ¬ ((decide ((0 : Int) < -1) &&
                is_digit (rotate_in_set_no_zero JP_KATA c s)) = true) by simp),
              if_neg (show ¬ ((decide ((0 : Int) < -1) &&
                is_fullwidth_digit (rotate_in_set_no_zero JP_KATA c s)) = true) by simp),
              if_neg (show ¬ ((!decide ((0 : Int) < -1) &&
                (is_digit (rotate_in_set_no_zero JP_KATA c s) ||
                  is_fullwidth_digit (rotate_in_set_no_zero JP_KATA c s))) = true) by
                simp [is_digit_false_of (Or.inr (by omega : (57 : Nat) <
                  (rotate_in_set_no_zero JP_KATA c s).toNat)),
                  is_fullwidth_digit_false_of (Or.inl (by omega : (rotate_in_set_no_zero
                    JP_KATA c s).toNat < 65296))]),
              if_neg (Phonoshift.bool_ne_true (is_hiragana_false_of (Or.inr (by omega)))),
              if_pos (is_katakana_iff.mpr ⟨hyb.1, hyb.2⟩)]
          exact ⟨by rw [henc, hdec, rotate_in_set_no_zero_inv jp_kata_nodup hcm hs],
            by rw [henc]; exact is_separator_ge48_false (by omega),
            by rw [henc]; exact is_stable_jp_mark_false_of (by omega),
            by rw [henc, kana_is_token_sep_kata_false hyb.1 hyb.2,
              kana_is_token_sep_kata_false hbk.1 hbk.2],
            by rw [henc]; exact fw_punct_value_kata_false hyb.1 hyb.2⟩
        · have hk' : is_katakana c = false := Bool.eq_false_iff.mpr hk
          by_cases hkj : is_kanji c = true
          · have hbj := is_kanji_iff.mp hkj
            obtain ⟨b1, b2, binv⟩ := rotate_kanji_spec hbj.1 hbj.2 hs
            have henc : jp_char 1 s c =
                rotate_codepoint_range_no_zero c s 0x4E00 0x9FFF := by
              rw [jp_char, if_neg (Phonoshift.bool_ne_true hAl'),
                if_neg (show ¬ ((decide ((0 : Int) < 1) && is_digit c) = true) by
                  simp [hdig']),
                if_neg (show ¬ ((decide ((0 : Int) < 1) && is_fullwidth_digit c) = true) by
                  simp [hfwc]),
                if_neg (show ¬ ((!decide ((0 : Int) < 1) &&
                  (is_digit c || is_fullwidth_digit c)) = true) by simp),
                if_neg (Phonoshift.bool_ne_true hh'), if_neg (Phonoshift.bool_ne_true hk'),
                if_pos hkj]
            have hdec : jp_char (-1) (-s) (rotate_codepoint_range_no_zero c s 0x4E00 0x9FFF)
                = rotate_codepoint_range_no_zero
                    (rotate_codepoint_range_no_zero c s 0x4E00 0x9FFF) (-s) 0x4E00 0x9FFF := by
              rw [jp_char, if_neg (Phonoshift.bool_ne_true (Bool.or_eq_false_iff.mpr
                  ⟨is_ascii_upper_false_of (by omega), is_ascii_lower_false_of (by omega)⟩)),
                if_neg (show ¬ ((decide ((0 : Int) < -1) &&
                  is_digit (rotate_codepoint_range_no_zero c s 0x4E00 0x9FFF)) = true) by
                  simp),
                if_neg (show ¬ ((decide ((0 : Int) < -1) && is_fullwidth_digit
                  (rotate_codepoint_range_no_zero c s 0x4E00 0x9FFF)) = true) by simp),
                if_neg (show ¬ ((!decide ((0 : Int) < -1) &&
                  (is_digit (rotate_codepoint_range_no_zero c s 0x4E00 0x9FFF) ||
                    is_fullwidth_digit (rotate_codepoint_range_no_zero c s
                      0x4E00 0x9FFF))) = true) by
                  simp [is_digit_false_of (Or.inr (by omega : (57 : Nat) <
                    (rotate_codepoint_range_no_zero c s 0x4E00 0x9FFF).toNat)),
                    is_fullwidth_digit_false_of (Or.inl (by omega :
                      (rotate_codepoint_range_no_zero c s 0x4E00 0x9FFF).toNat < 65296))]),
                if_neg (Phonoshift.bool_ne_true (is_hiragana_false_of (Or.inr (by omega)))),
                if_neg (Phonoshift.bool_ne_true (is_katakana_false_of (Or.inr (by omega)))),
                if_pos (is_kanji_iff.mpr ⟨b1, b2⟩)]
            exact ⟨by rw [henc, hdec, binv],
              by rw [henc]; exact is_separator_ge48_false (by omega),
              by rw [henc]; exact is_stable_jp_mark_false_of (by omega),
              by rw [henc, kana_is_token_sep_kanji_false b1 b2,
                kana_is_token_sep_kanji_false hbj.1 hbj.2],
              by rw [henc]; exact fw_punct_value_kanji_false b1 b2⟩
          · have hkj' : is_kanji c = false := Bool.eq_false_iff.mpr hkj
            have henc : jp_char 1 s c = c := by
              rw [jp_char, if_neg (Phonoshift.bool_ne_true hAl'),
                if_neg (show ¬ ((decide ((0 : Int) < 1) && is_digit c) = true) by
                  simp [hdig']),
                if_neg (show ¬ ((decide ((0 : Int) < 1) && is_fullwidth_digit c) = true) by
                  simp [hfwc]),
                if_neg (show ¬ ((!decide ((0 : Int) < 1) &&
                  (is_digit c || is_fullwidth_digit c)) = true) by simp),
                if_neg (Phonoshift.bool_ne_true hh'), if_neg (Phonoshift.bool_ne_true hk'),
                if_neg (Phonoshift.bool_ne_true hkj')]
            have hdec : jp_char (-1) (-s) c = c := by
              rw [jp_char, if_neg (Phonoshift.bool_ne_true hAl'),
                if_neg (show ¬ ((decide ((0 : Int) < -1) && is_digit c) = true) by simp),
                if_neg (show ¬ ((decide ((0 : Int) < -1) && is_fullwidth_digit c) = true) by
                  simp),
                if_neg (show ¬ ((!decide ((0 : Int) < -1) &&
                  (is_digit c || is_fullwidth_digit c)) = true) by simp [hdig', hfwc]),
                if_neg (Phonoshift.bool_ne_true hh'), if_neg (Phonoshift.bool_ne_true hk'),
                if_neg (Phonoshift.bool_ne_true hkj')]
            exact ⟨by rw [henc, hdec], by rw [henc]; exact hsep, by rw [henc]; exact hst,
              by rw [henc], by rw [henc]; exact hfwvc⟩

theorem stable_fw_false {c : Char} (h : is_stable_jp_mark c = true) :
    fw_punct_value c = false := by
  rw [is_stable_jp_mark] at h
  have hm := contains_iff.mp h
  fin_cases hm <;> decide

/- The JP-native scalar loop: with a nonempty keystream all of whose bytes
are nonzero mod 256, decoding inverts encoding on jp-safe text, the output
carries no fullwidth punctuation value, and token counts are preserved. -/
theorem jp_go_spec (ks : List Nat) (hne : ks ≠ []) (hnz : ∀ b ∈ ks, b % 256 ≠ 0) :
    ∀ (text : List Char), (∀ c ∈ text, jp_safe c = true) → ∀ kpos, kpos < ks.length →
      jp_go ks (-1) (jp_go ks 1 text kpos) kpos = text ∧
      (∀ c' ∈ jp_go ks 1 text kpos, fw_punct_value c' = false) ∧
      (∀ b, tok_count is_token_sep (jp_go ks 1 text kpos) b =
        tok_count is_token_sep text b) := by
  intro text
  induction text with
  | nil => exact fun _ _ _ => ⟨rfl, by simp [jp_go], fun _ => rfl⟩
  | cons c rest ih =>
    intro h kpos hk
    have hc := h c (List.mem_cons_self c rest)
    have hrest : ∀ x ∈ rest, jp_safe x = true := fun x hx => h x (List.mem_cons_of_mem c hx)
    have hlen : 0 < ks.length := List.length_pos.mpr hne
    have hklt : next_kpos ks.length kpos < ks.length := next_kpos_lt hlen
    by_cases hsep : is_separator c = true
    · rw [jp_go_cons_sep _ _ _ _ _ hsep]
      obtain ⟨ih1, ih2, ih3⟩ := ih hrest kpos hk
      refine ⟨?_, ?_, ?_⟩
      · rw [jp_go_cons_sep _ _ _ _ _ hsep, ih1]
      · intro c' hc'
        rcases List.mem_cons.mp hc' with h' | hm
        · rw [h']; exact kana_sep_char_fw hsep
        · exact ih2 c' hm
      · intro b
        rw [Phonoshift.tok_count_cons, Phonoshift.tok_count_cons]
        by_cases hts : is_token_sep c = true
        · rw [if_pos hts, if_pos hts, ih3 false]
        · rw [if_neg hts, if_neg hts, ih3 true]
    · have hsep' : is_separator c = false := Bool.eq_false_iff.mpr hsep
      by_cases hstm : is_stable_jp_mark c = true
      · rw [jp_go_cons_stable _ _ _ _ _ hsep' hstm]
        obtain ⟨ih1, ih2, ih3⟩ := ih hrest kpos hk
        refine ⟨?_, ?_, ?_⟩
        · rw [jp_go_cons_stable _ _ _ _ _ hsep' hstm, ih1]
        · intro c' hc'
          rcases List.mem_cons.mp hc' with h' | hm
          · rw [h']; exact stable_fw_false hstm
          · exact ih2 c' hm
        · intro b
          rw [Phonoshift.tok_count_cons, Phonoshift.tok_count_cons]
          by_cases hts : is_token_sep c = true
          · rw [if_pos hts, if_pos hts, ih3 false]
          · rw [if_neg hts, if_neg hts, ih3 true]
      · have hstm' : is_stable_jp_mark c = false := Bool.eq_false_iff.mpr hstm
        have hbnz : (ks.getD kpos 0) % 256 ≠ 0 := hnz _ (getD_mem hk 0)
        have hs : (((ks.getD kpos 0 % 256 : Nat) : Int) * 1) ≠ 0 := by omega
        obtain ⟨hinv, hosep, host, htok, hofw⟩ :=
          jp_char_spec (((ks.getD kpos 0 % 256 : Nat) : Int) * 1) hs hc hsep' hstm'
        rw [jp_go_cons _ _ _ _ _ hsep' hstm']
        obtain ⟨ih1, ih2, ih3⟩ := ih hrest (next_kpos ks.length kpos) hklt
        refine ⟨?_, ?_, ?_⟩
        · rw [jp_go_cons _ _ _ _ _ hosep host]
          have hmul : ((ks.getD kpos 0 % 256 : Nat) : Int) * (-1)
              = -(((ks.getD kpos 0 % 256 : Nat) : Int) * 1) := by ring
          rw [hmul, hinv, ih1]
        · intro c' hc'
          rcases List.mem_cons.mp hc' with h' | hm
          · rw [h']; exact hofw
          · exact ih2 c' hm
        · intro b
          rw [Phonoshift.tok_count_cons, Phonoshift.tok_count_cons]
          by_cases hts : is_token_sep c = true
          · rw [if_pos (htok.trans hts), if_pos hts, ih3 false]
          · have hts' : is_token_sep c = false := Bool.eq_false_iff.mpr hts
            rw [if_neg (Phonoshift.bool_ne_true (htok.trans hts')), if_neg hts, ih3 true]

theorem jp_go_unsupported_single (ks : List Nat) (d : Int) (kpos : Nat) {x : Char}
    (h : jp_unsupported x = true) (hsep : is_separator x = false)
    (hst : is_stable_jp_mark x = false) : jp_go ks d [x] kpos = [x] := by
  rw [jp_go_cons _ _ _ _ _ hsep hst, jp_char_unclassified _ _ h]
  rfl

theorem jp_transform_unsupported_single (password : List Char) (iterations : Nat)
    (salt : List Char) (d : Int) {x : Char} (h1 : jp_unsupported x = true)
    (h2 : is_separator x = false) (h3 : is_stable_jp_mark x = false) :
    jp_native_transform [x] password iterations salt d = [x] := by
  rw [jp_native_transform,
    if_neg (Phonoshift.bool_ne_true (rfl : ([x] : List Char).isEmpty = false))]
  exact jp_go_unsupported_single _ _ 0 h1 h2 h3

/- Encrypting the single fullwidth stop with the real JP-native pipeline
yields a single scalar of the middle punctuation set, whatever the keystream. -/
theorem jp_enc_maru :
    ∃ y, y ∈ P_MID ∧
      kanashift_jp_encrypt ("。".toList) ("pw".toList) 1000 ("NameFPE:v1".toList) true
        = [y] := by
  have hlist : ("。".toList) = ['。'] := rfl
  have hJ : jp_native_transform ("。".toList) ("pw".toList) 1000 ("NameFPE:v1".toList) 1
      = "。".toList := by
    rw [jp_native_transform, if_neg (by decide : ¬ ((("。".toList)).isEmpty = true))]
    exact jp_go_unsupported_single _ _ 0 (by decide) (by decide) (by decide)
  have hTr : punct_translate ("。".toList) 1 = "。".toList := by
    rw [punct_translate_pos]
    decide
  refine ⟨rotate_in_set_no_zero P_MID '。'
      ((((pbkdf2_keystream ("pw".toList) (("NameFPE:v1".toList) ++ "|PunctShiftJP:v2".toList)
        1000 ((("。".toList).countP (fun c => is_shift_punct c)) + 64)).getD 0 0 % 256
        : Nat) : Int) * 1),
    rotate_in_set_no_zero_mem (by decide : '。' ∈ P_MID) _, ?_⟩
  simp only [kanashift_jp_encrypt, if_true]
  rw [hJ, hTr, kana_punct_shift_apply_eq_go _ _ _ _ (by decide) (by decide), hlist,
    kana_punct_go_cons_punct _ _ _ _ _ (by decide : is_shift_punct '。' = true),
    if_neg (by decide : ¬ (P_END.contains '。' = true))]
  rfl

/- Decrypting any single middle-punctuation scalar with the real JP-native
pipeline never returns the fullwidth stop: the fullwidth-to-ASCII
punctuation translation fires on the way out. -/
theorem jp_dec_mid_ne {y : Char} (hym : y ∈ P_MID) :
    kanashift_jp_decrypt [y] ("pw".toList) 1000 ("NameFPE:v1".toList) true
      ≠ "。".toList := by
  have hyp := (kana_p_mid_mem_facts _ hym).1
  have hynE := (kana_p_mid_mem_facts _ hym).2
  have hcnt : ([y].countP (fun c => is_shift_punct c)) = 1 := by
    simp [List.countP_cons, hyp]
  have hPS : punct_shift_apply [y] ("pw".toList) 1000 ("NameFPE:v1".toList) (-1)
      = [rotate_in_set_no_zero P_MID y
          ((((pbkdf2_keystream ("pw".toList)
            (("NameFPE:v1".toList) ++ "|PunctShiftJP:v2".toList) 1000
            (([y].countP (fun c => is_shift_punct c)) + 64)).getD 0 0 % 256
            : Nat) : Int) * (-1))] := by
    rw [kana_punct_shift_apply_eq_go _ _ _ _ (by rfl) (by rw [hcnt]; norm_num),
      kana_punct_go_cons_punct _ _ _ _ _ hyp,
      if_neg (fun hb => hynE (contains_iff.mp hb))]
    rfl
  have hzm : rotate_in_set_no_zero P_MID y
      ((((pbkdf2_keystream ("pw".toList)
        (("NameFPE:v1".toList) ++ "|PunctShiftJP:v2".toList) 1000
        (([y].countP (fun c => is_shift_punct c)) + 64)).getD 0 0 % 256
        : Nat) : Int) * (-1)) ∈ P_MID := rotate_in_set_no_zero_mem hym _
  intro heq
  simp only [kanashift_jp_decrypt, if_true] at heq
  rw [hPS, punct_translate_neg, List.map_cons, List.map_nil] at heq
  have hz3 : rotate_in_set_no_zero P_MID y
      ((((pbkdf2_keystream ("pw".toList)
        (("NameFPE:v1".toList) ++ "|PunctShiftJP:v2".toList) 1000
        (([y].countP (fun c => is_shift_punct c)) + 64)).getD 0 0 % 256
        : Nat) : Int) * (-1)) = '、' ∨
      rotate_in_set_no_zero P_MID y
      ((((pbkdf2_keystream ("pw".toList)
        (("NameFPE:v1".toList) ++ "|PunctShiftJP:v2".toList) 1000
        (([y].countP (fun c => is_shift_punct c)) + 64)).getD 0 0 % 256
        : Nat) : Int) * (-1)) = '。' ∨
      rotate_in_set_no_zero P_MID y
      ((((pbkdf2_keystream ("pw".toList)
        (("NameFPE:v1".toList) ++ "|PunctShiftJP:v2".toList) 1000
        (([y].countP (fun c => is_shift_punct c)) + 64)).getD 0 0 % 256
        : Nat) : Int) * (-1)) = '・' := by
    have h' := hzm
    rw [P_MID] at h'
    simpa using h'
  rcases hz3 with hz | hz | hz <;> rw [hz] at heq
  · rw [show punct_dec_char '、' = ',' by decide,
      jp_transform_unsupported_single _ _ _ _ (by decide) (by decide) (by decide)] at heq
    exact absurd heq (by decide)
  · rw [show punct_dec_char '。' = '.' by decide,
      jp_transform_unsupported_single _ _ _ _ (by decide) (by decide) (by decide)] at heq
    exact absurd heq (by decide)
  · rw [show punct_dec_char '・' = '・' by decide,
      jp_transform_unsupported_single _ _ _ _ (by decide) (by decide) (by decide)] at heq
    exact absurd heq (by decide)

end Kanashift

/-- C2 (amended).  JP-native roundtrip with the keyed streams made explicit:
for every nonempty core keystream and nonempty punctuation keystream, all of
whose bytes are nonzero mod 256, and every text of jp-safe scalars (no
fullwidth digits, no fullwidth punctuation values), decryption inverts
encryption for both values of the punctuation flag. -/
theorem claim2_jp_native_roundtrip (ks kps : List Nat) (hk : ks ≠ [])
    (hknz : ∀ b ∈ ks, b % 256 ≠ 0) (hkp : kps ≠ []) (hnz : ∀ b ∈ kps, b % 256 ≠ 0)
    (text : List Char) (hsafe : ∀ c ∈ text, Kanashift.jp_safe c = true) (sp : Bool) :
    Kanashift.kanashift_jp_decrypt_with ks kps
      (Kanashift.kanashift_jp_encrypt_with ks kps text sp) sp = text := by
  obtain ⟨h1, h2, h3⟩ :=
    Kanashift.jp_go_spec ks hk hknz text hsafe 0 (List.length_pos.mpr hk)
  have hT := Kanashift.punct_translate_inv h2
  cases sp
  · simp only [Kanashift.kanashift_jp_encrypt_with, Kanashift.kanashift_jp_decrypt_with,
      Bool.false_eq_true, if_false]
    rw [hT, h1]
  · have hkpos : 0 < kps.length := List.length_pos.mpr hkp
    simp only [Kanashift.kanashift_jp_encrypt_with, Kanashift.kanashift_jp_decrypt_with,
      if_true]
    rw [Kanashift.kana_punct_go_roundtrip kps hkp hnz _ 0 hkpos, hT, h1]

/- Witness for the amended C2 at a concrete input. -/
theorem claim2_jp_native_roundtrip_witness :
    (([3] : List Nat) ≠ [] ∧ (∀ b ∈ ([3] : List Nat), b % 256 ≠ 0) ∧
      (([1] : List Nat) ≠ [] ∧ ∀ b ∈ ([1] : List Nat), b % 256 ≠ 0) ∧
      (∀ c ∈ ("あア".toList), Kanashift.jp_safe c = true)) ∧
    Kanashift.kanashift_jp_decrypt_with [3] [1]
      (Kanashift.kanashift_jp_encrypt_with [3] [1] ("あア".toList) true) true
      = "あア".toList :=
  ⟨⟨by decide, by decide, ⟨by decide, by decide⟩, by decide⟩,
    claim2_jp_native_roundtrip [3] [1] (by decide) (by decide) (by decide) (by decide)
      ("あア".toList) (by decide) true⟩

/-- Counterexample to C2 as stated.  The fullwidth stop `'。'` (present in
the claim's own example plaintext) is left alone by the JP-native core
transform but translated to ASCII by the outgoing fullwidth-punctuation
translation: for every derived keystream the decrypted text is one of
`","`/`"."`/`"・"`, never `"。"`. -/
theorem claim2_counterexample :
    Kanashift.kanashift_jp_decrypt
      (Kanashift.kanashift_jp_encrypt ("。".toList) ("pw".toList) 1000
        ("NameFPE:v1".toList) true) ("pw".toList) 1000 ("NameFPE:v1".toList) true
      ≠ "。".toList := by
  obtain ⟨y, hym, hE⟩ := Kanashift.jp_enc_maru
  rw [hE]
  exact Kanashift.jp_dec_mid_ne hym

namespace Phonoshift

open ROT500K

theorem attach_go_cons_nonsep (checks : List (List Char)) (c : Char) (cs tok : List Char)
    (idx : Nat) (h : is_token_sep c = false) :
    attach_go checks (c :: cs) tok idx = attach_go checks cs (tok ++ [c]) idx := by
  rw [attach_go, if_neg (bool_ne_true h)]

theorem attach_go_cons_sep_empty (checks : List (List Char)) (c : Char) (cs : List Char)
    (idx : Nat) (h : is_token_sep c = true) :
    attach_go checks (c :: cs) [] idx = (attach_go checks cs [] idx).map (fun r => c :: r) := by
  rw [attach_go, if_pos h, if_pos (show (List.isEmpty ([] : List Char)) = true from rfl)]

theorem attach_go_cons_sep_flush (checks : List (List Char)) (c : Char) (cs tok : List Char)
    (idx : Nat) (h : is_token_sep c = true) (hne : tok.isEmpty = false)
    (hlt : ¬ (checks.length ≤ idx)) :
    attach_go checks (c :: cs) tok idx =
      (attach_go checks cs [] (idx + 1)).map
        (fun r => tok ++ checks.getD idx [] ++ c :: r) := by
  rw [attach_go, if_pos h, if_neg (bool_ne_true hne), if_neg hlt]

theorem strip_go_nil_nil (n : Nat) : strip_go n [] [] = some ([], []) := by
  rw [strip_go, if_pos (show (List.isEmpty ([] : List Char)) = true from rfl)]

theorem strip_go_nil_flush (n : Nat) (tok : List Char) (hne : tok.isEmpty = false)
    (hgt : ¬ (tok.length ≤ n)) :
    strip_go n [] tok = some (tok.take (tok.length - n), [tok.drop (tok.length - n)]) := by
  rw [strip_go, if_neg (bool_ne_true hne), if_neg hgt]

theorem strip_go_cons_nonsep (n : Nat) (c : Char) (cs tok : List Char)
    (h : is_token_sep c = false) :
    strip_go n (c :: cs) tok = strip_go n cs (tok ++ [c]) := by
  rw [strip_go, if_neg (bool_ne_true h)]

theorem strip_go_cons_sep_empty (n : Nat) (c : Char) (cs : List Char)
    (h : is_token_sep c = true) :
    strip_go n (c :: cs) [] = (strip_go n cs []).map (fun bg => (c :: bg.1, bg.2)) := by
  rw [strip_go, if_pos h, if_pos (show (List.isEmpty ([] : List Char)) = true from rfl)]

theorem strip_go_cons_sep_flush (n : Nat) (c : Char) (cs tok : List Char)
    (h : is_token_sep c = true) (hne : tok.isEmpty = false) (hgt : ¬ (tok.length ≤ n)) :
    strip_go n (c :: cs) tok =
      (strip_go n cs []).map
        (fun bg => (tok.take (tok.length - n) ++ c :: bg.1,
          tok.drop (tok.length - n) :: bg.2)) := by
  rw [strip_go, if_pos h, if_neg (bool_ne_true hne), if_neg hgt]

theorem strip_go_walk (n : Nat) :
    ∀ (pre : List Char), (∀ c ∈ pre, is_token_sep c = false) →
      ∀ (rest tokS : List Char), strip_go n (pre ++ rest) tokS = strip_go n rest (tokS ++ pre) := by
  intro pre
  induction pre with
  | nil =>
    intro _ rest tokS
    simp
  | cons p ps ih =>
    intro hpre rest tokS
    rw [List.cons_append, strip_go_cons_nonsep _ _ _ _ (hpre p (List.mem_cons_self p ps)),
      ih (fun c hc => hpre c (List.mem_cons_of_mem p hc)) rest (tokS ++ [p]),
      List.append_assoc]
    rfl

theorem append_singleton_ne_nil (tok : List Char) (c : Char) :
    (tok ++ [c]).isEmpty = false := by
  cases tok <;> rfl

theorem checks_drop_cons (checks : List (List Char)) (idx : Nat) (h : idx < checks.length) :
    checks.drop idx = checks.getD idx [] :: checks.drop (idx + 1) := by
  rw [List.drop_eq_getElem_cons h, List.getD_eq_getElem checks [] h]

/- Attaching per-token check characters always succeeds when the token
count of the scanned string agrees with the number of checks, and stripping
with the same per-token length recovers the string and the checks. -/
theorem attach_strip_go (n : Nat) (checks : List (List Char))
    (hw : ∀ ch ∈ checks, ch.length = n ∧ ∀ c ∈ ch, is_token_sep c = false) :
    ∀ (cs tok : List Char) (tok_idx : Nat), (∀ c ∈ tok, is_token_sep c = false) →
      tok_idx + tok_count is_token_sep cs (!tok.isEmpty) = checks.length →
      ∃ out, attach_go checks cs tok tok_idx = some out ∧
        strip_go n out [] = some (tok ++ cs, checks.drop tok_idx) := by
  intro cs
  induction cs with
  | nil =>
    intro tok idx htok hcnt
    rcases tok with _ | ⟨t, ts⟩
    · have hidx : idx = checks.length := by simpa [tok_count] using hcnt
      refine ⟨[], ?_, ?_⟩
      · rw [attach_go, if_pos (show (List.isEmpty ([] : List Char)) = true from rfl), if_pos hidx]
      · rw [strip_go_nil_nil, hidx, List.drop_length]
        rfl
    · have hcnt1 : idx + 1 = checks.length := by simpa [tok_count] using hcnt
      have hlt : idx < checks.length := by omega
      have hchm : checks.getD idx [] ∈ checks := getD_mem hlt []
      obtain ⟨hchlen, hchsep⟩ := hw _ hchm
      refine ⟨(t :: ts) ++ checks.getD idx [], ?_, ?_⟩
      · rw [attach_go, if_neg (bool_ne_true (show (t :: ts : List Char).isEmpty = false from rfl)),
          if_neg (by omega), if_pos hcnt1]
      · have hpre : ∀ c ∈ (t :: ts) ++ checks.getD idx [], is_token_sep c = false := by
          intro c hc
          rcases List.mem_append.mp hc with h | h
          · exact htok c h
          · exact hchsep c h
        rw [show (t :: ts) ++ checks.getD idx [] =
            ((t :: ts) ++ checks.getD idx []) ++ [] from (List.append_nil _).symm,
          strip_go_walk n _ hpre [] [], List.nil_append]
        have hL : ((t :: ts) ++ checks.getD idx []).length - n = (t :: ts).length := by
          rw [List.length_append, hchlen]
          omega
        have hgt : ¬ (((t :: ts) ++ checks.getD idx []).length ≤ n) := by
          rw [List.length_append, hchlen]
          simp
        rw [strip_go_nil_flush _ _
            (show ((t :: ts) ++ checks.getD idx []).isEmpty = false from rfl) hgt, hL, List.take_left, List.drop_left,
          List.append_nil, checks_drop_cons checks idx hlt,
          List.drop_eq_nil_of_le (by omega)]
  | cons c cs' ih =>
    intro tok idx htok hcnt
    by_cases hcsep : is_token_sep c = true
    · rcases tok with _ | ⟨t, ts⟩
      · have hcnt' : idx + tok_count is_token_sep cs' (!(List.isEmpty ([] : List Char))) = checks.length := by
          have h2 := hcnt
          rw [tok_count_cons, if_pos hcsep] at h2
          simpa using h2
        obtain ⟨r, har, hsr⟩ := ih [] idx (fun c hc => absurd hc (List.not_mem_nil c)) hcnt'
        refine ⟨c :: r, ?_, ?_⟩
        · rw [attach_go_cons_sep_empty _ _ _ _ hcsep, har]
          rfl
        · rw [strip_go_cons_sep_empty _ _ _ hcsep, hsr]
          rfl
      · have hcnt' : (idx + 1) + tok_count is_token_sep cs' (!(List.isEmpty ([] : List Char))) =
            checks.length := by
          have h2 := hcnt
          rw [tok_count_cons, if_pos hcsep] at h2
          simp only [List.isEmpty, Bool.not_false, if_pos (show (List.isEmpty ([] : List Char)) = true from rfl)] at h2 ⊢
          simp at h2 ⊢
          omega
        have hlt : idx < checks.length := by
          have h2 := hcnt
          rw [tok_count_cons, if_pos hcsep] at h2
          simp at h2
          omega
        have hchm : checks.getD idx [] ∈ checks := getD_mem hlt []
        obtain ⟨hchlen, hchsep⟩ := hw _ hchm
        obtain ⟨r, har, hsr⟩ :=
          ih [] (idx + 1) (fun c hc => absurd hc (List.not_mem_nil c)) hcnt'
        refine ⟨(t :: ts) ++ checks.getD idx [] ++ c :: r, ?_, ?_⟩
        · rw [attach_go_cons_sep_flush _ _ _ _ _ hcsep
            (show (t :: ts : List Char).isEmpty = false from rfl) (by omega), har]
          rfl
        · have hpre : ∀ x ∈ (t :: ts) ++ checks.getD idx [], is_token_sep x = false := by
            intro x hx
            rcases List.mem_append.mp hx with h | h
            · exact htok x h
            · exact hchsep x h
          rw [show (t :: ts) ++ checks.getD idx [] ++ c :: r =
              ((t :: ts) ++ checks.getD idx []) ++ (c :: r) from by rw [List.append_assoc],
            strip_go_walk n _ hpre (c :: r) [], List.nil_append]
          have hL : ((t :: ts) ++ checks.getD idx []).length - n = (t :: ts).length := by
            rw [List.length_append, hchlen]
            omega
          have hgt : ¬ (((t :: ts) ++ checks.getD idx []).length ≤ n) := by
            rw [List.length_append, hchlen]
            simp
          rw [strip_go_cons_sep_flush _ _ _ _ hcsep
            (show ((t :: ts) ++ checks.getD idx []).isEmpty = false from rfl) hgt,
            hsr, hL, List.take_left,
            List.drop_left, checks_drop_cons checks idx hlt]
          rfl
    · have hcsep' : is_token_sep c = false := Bool.eq_false_iff.mpr hcsep
      have hcnt' : idx + tok_count is_token_sep cs' (!(tok ++ [c]).isEmpty) = checks.length := by
        have h2 := hcnt
        rw [tok_count_cons, if_neg hcsep] at h2
        rw [append_singleton_ne_nil]
        simpa using h2
      have htok' : ∀ x ∈ tok ++ [c], is_token_sep x = false := by
        intro x hx
        rcases List.mem_append.mp hx with h | h
        · exact htok x h
        · rw [List.mem_singleton.mp h]
          exact hcsep'
      obtain ⟨r, har, hsr⟩ := ih (tok ++ [c]) idx htok' hcnt'
      refine ⟨r, ?_, ?_⟩
      · rw [attach_go_cons_nonsep _ _ _ _ _ hcsep', har]
      · rw [hsr, List.append_assoc]
        rfl

end Phonoshift

namespace Phonoshift

open ROT500K

theorem conset_facts : ∀ x ∈ CONSET,
    is_token_sep x = false ∧ is_token_sep (to_upper_ascii x) = false := by decide

theorem make_token_check_wf (t : List Char) (kind : String) (mac : List Nat) (N : Nat) :
    (make_token_check t kind mac N).length = max 1 N ∧
    ∀ c ∈ make_token_check t kind mac N, is_token_sep c = false := by
  constructor
  · simp [make_token_check]
  · intro c hc
    simp only [make_token_check, List.mem_map, List.mem_range] at hc
    obtain ⟨i, hi, hc⟩ := hc
    rw [← hc]
    by_cases hk : (kind == "digits") = true
    · rw [if_pos hk]
      have hm : mac.getD ((i * 7) &&& 31) 0 % 10 < 10 := Nat.mod_lt _ (by norm_num)
      have htn : (Char.ofNat (48 + mac.getD ((i * 7) &&& 31) 0 % 10)).toNat
          = 48 + mac.getD ((i * 7) &&& 31) 0 % 10 := char_toNat_ofNat (by omega)
      exact is_token_sep_digit_false (is_digit_iff.mpr (by omega))
    · rw [if_neg hk]
      have hmem : CONSET.getD (mac.getD ((i * 7) &&& 31) 0 % CONSET.length) 'b' ∈ CONSET :=
        getD_mem (Nat.mod_lt _ (by decide)) 'b'
      obtain ⟨hf1, hf2⟩ := conset_facts _ hmem
      by_cases hum : ((kind == "alpha") && is_all_upper_ascii t) = true
      · rw [if_pos hum]
        exact hf2
      · rw [if_neg hum]
        exact hf1

theorem token_check_for_wf (password salt : List Char) (iterations N idx : Nat)
    (t : List Char) :
    (token_check_for password salt iterations N idx t).length = max 1 N ∧
    ∀ c ∈ token_check_for password salt iterations N idx t, is_token_sep c = false := by
  simp only [token_check_for]
  exact make_token_check_wf _ _ _ _

theorem build_checks_go_wf (password salt : List Char) (iterations N : Nat) :
    ∀ (cs tok : List Char) (idx : Nat),
      ∀ ch ∈ build_checks_go password salt iterations N cs tok idx,
        ch.length = max 1 N ∧ ∀ c ∈ ch, is_token_sep c = false := by
  intro cs
  induction cs with
  | nil =>
    intro tok idx ch hch
    simp only [build_checks_go] at hch
    by_cases he : tok.isEmpty = true
    · rw [if_pos he] at hch
      exact absurd hch (List.not_mem_nil ch)
    · rw [if_neg he] at hch
      rw [List.mem_singleton.mp hch]
      exact token_check_for_wf _ _ _ _ _ _
  | cons c cs' ih =>
    intro tok idx ch hch
    simp only [build_checks_go] at hch
    by_cases hs : is_token_sep c = true
    · rw [if_pos hs] at hch
      by_cases he : tok.isEmpty = true
      · rw [if_pos he] at hch
        exact ih [] idx ch hch
      · rw [if_neg he] at hch
        rcases List.mem_cons.mp hch with h | h
        · rw [h]
          exact token_check_for_wf _ _ _ _ _ _
        · exact ih [] (idx + 1) ch h
    · rw [if_neg (bool_ne_true (Bool.eq_false_iff.mpr hs))] at hch
      exact ih (tok ++ [c]) idx ch hch

theorem build_checks_go_count (password salt : List Char) (iterations N : Nat) :
    ∀ (cs tok : List Char) (idx : Nat),
      (build_checks_go password salt iterations N cs tok idx).length
        = tok_count is_token_sep cs (!tok.isEmpty) := by
  intro cs
  induction cs with
  | nil =>
    intro tok idx
    by_cases he : tok.isEmpty = true
    · simp [build_checks_go, tok_count, he]
    · have he' : tok.isEmpty = false := Bool.eq_false_iff.mpr he
      simp [build_checks_go, tok_count, he']
  | cons c cs' ih =>
    intro tok idx
    by_cases hs : is_token_sep c = true
    · by_cases he : tok.isEmpty = true
      · simp [build_checks_go, hs, he, ih [] idx, tok_count_cons]
      · have he' : tok.isEmpty = false := Bool.eq_false_iff.mpr he
        simp [build_checks_go, hs, he', ih [] (idx + 1), tok_count_cons, Nat.add_comm]
    · have hs' : is_token_sep c = false := Bool.eq_false_iff.mpr hs
      rw [tok_count_cons, if_neg hs]
      simp only [build_checks_go, if_neg (bool_ne_true hs')]
      rw [ih (tok ++ [c]) idx, append_singleton_ne_nil]
      rfl

theorem transform_fpe_tok_count (t password : List Char) (iterations : Nat)
    (salt : List Char) (b : Bool) :
    tok_count is_token_sep (transform_name_name_like_fpe t password iterations salt 1) b
      = tok_count is_token_sep t b := by
  by_cases he : t.isEmpty = true
  · rw [transform_fpe_of_empty _ _ _ _ he]
  · rw [transform_fpe_eq_go _ _ _ _ (Bool.eq_false_iff.mpr he), transform_go_tok_count]

theorem all_zip_self (l : List (List Char)) :
    ((l.zip l).all (fun p => p.1 == p.2)) = true := by
  induction l with
  | nil => rfl
  | cons a l ih => simp [List.zip_cons_cons, List.all_cons, ih]

end Phonoshift

/-- C4.  KT verified roundtrip for PhonoShift: token-tagged encryption always
succeeds and its verified decryption returns ok=true with the original
plaintext, for every plaintext, password, salt, iterations >= 1, check length
N >= 1 and punctuation flag. -/
theorem claim4_kt_verified_roundtrip (t password : List Char) (iterations : Nat)
    (salt : List Char) (N : Nat) (hiter : 1 ≤ iterations) (hN : 1 ≤ N) (sp : Bool) :
    Option.map
      (fun e => Phonoshift.rot500k_token_tagged_decrypt e password iterations salt N sp)
      (Phonoshift.rot500k_token_tagged t password iterations salt N sp)
      = some ⟨true, t⟩ := by
  have hw : ∀ ch ∈ Phonoshift.build_plain_token_checks t password salt iterations N,
      ch.length = max 1 N ∧ ∀ c ∈ ch, Phonoshift.is_token_sep c = false := by
    intro ch hch
    exact Phonoshift.build_checks_go_wf password salt iterations N t [] 0 ch hch
  have hcnt : 0 + ROT500K.tok_count Phonoshift.is_token_sep
      (Phonoshift.transform_name_name_like_fpe t password iterations salt 1)
      (!(List.isEmpty ([] : List Char)))
      = (Phonoshift.build_plain_token_checks t password salt iterations N).length := by
    rw [Nat.zero_add, Phonoshift.transform_fpe_tok_count,
      Phonoshift.build_plain_token_checks, Phonoshift.build_checks_go_count]
  obtain ⟨out, hat, hst⟩ := Phonoshift.attach_strip_go (max 1 N)
    (Phonoshift.build_plain_token_checks t password salt iterations N) hw
    (Phonoshift.transform_name_name_like_fpe t password iterations salt 1) [] 0
    (fun c hc => absurd hc (List.not_mem_nil c)) hcnt
  have hst' : Phonoshift.strip_checks_from_tagged out N =
      some (Phonoshift.transform_name_name_like_fpe t password iterations salt 1,
        Phonoshift.build_plain_token_checks t password salt iterations N) := by
    rw [Phonoshift.strip_checks_from_tagged, hst]
    rfl
  have henc : Phonoshift.rot500k_token_tagged t password iterations salt N sp
      = some (if sp = true then Phonoshift.punct_shift_apply out password iterations salt 1
          else out) := by
    simp only [Phonoshift.rot500k_token_tagged]
    rw [Phonoshift.attach_checks_to_cipher, hat]
    rfl
  have hs0 : (if sp = true then Phonoshift.punct_shift_apply
        (if sp = true then Phonoshift.punct_shift_apply out password iterations salt 1
          else out) password iterations salt (-1)
      else (if sp = true then Phonoshift.punct_shift_apply out password iterations salt 1
        else out)) = out := by
    cases sp
    · simp
    · simp [Phonoshift.punct_shift_apply_inv]
  have hdec : Phonoshift.rot500k_token_tagged_decrypt
      (if sp = true then Phonoshift.punct_shift_apply out password iterations salt 1 else out)
      password iterations salt N sp = ⟨true, t⟩ := by
    simp only [Phonoshift.rot500k_token_tagged_decrypt]
    rw [hs0, hst']
    dsimp only
    rw [Phonoshift.transform_fpe_roundtrip]
    rw [if_neg (fun hne => hne rfl), if_pos (Phonoshift.all_zip_self _)]
  rw [henc]
  simp only [Option.map_some']
  rw [hdec]

/- Witness for C4 at the spec's concrete input. -/
theorem claim4_kt_verified_roundtrip_witness :
    ((1 : Nat) ≤ 1000 ∧ (1 : Nat) ≤ 2) ∧
    Option.map
      (fun e => Phonoshift.rot500k_token_tagged_decrypt e ("pw".toList) 1000
        ("NameFPE:v1".toList) 2 true)
      (Phonoshift.rot500k_token_tagged ("hello world".toList) ("pw".toList) 1000
        ("NameFPE:v1".toList) 2 true)
      = some ⟨true, "hello world".toList⟩ :=
  ⟨⟨by norm_num, by norm_num⟩,
    claim4_kt_verified_roundtrip ("hello world".toList) ("pw".toList) 1000
      ("NameFPE:v1".toList) 2 (by norm_num) (by norm_num) true⟩

namespace Kanashift

open ROT500K

/- Token-separator status is preserved by one encryption-direction skin
scalar, for EVERY scalar and every shift. -/
theorem skin_char_enc_tok (s : Int) (c : Char) :
    is_token_sep (skin_char 1 s c) = is_token_sep c := by
  by_cases hdig : is_digit c = true
  · obtain ⟨hb1, hb2⟩ := skin_char_enc_digit_toNat hdig s
    rw [kana_is_token_sep_fw_false hb1 hb2, kana_is_token_sep_digit_false hdig]
  have hdig' : is_digit c = false := Bool.eq_false_iff.mpr hdig
  by_cases hc1 : c ∈ P_VOW_LO
  · obtain ⟨f1, f2, f3⟩ := skin_p1_facts c hc1
    obtain ⟨c', he, hcm, _⟩ := map_rotate_pair (by decide) (by decide) c_vow_lo_nodup hc1 s
    obtain ⟨g1, g2, g3, g4, g5, g6⟩ := skin_c1_facts c' hcm
    have henc : skin_char 1 s c = c' := by
      rw [skin_char, if_pos (by norm_num : (0 : Int) < 1), if_neg (Phonoshift.bool_ne_true f2),
        if_pos (contains_iff.mpr hc1), he, Option.getD_some]
    rw [henc, g4, f3]
  by_cases hc2 : c ∈ P_CON_LO
  · obtain ⟨f1, f2, f3, f4⟩ := skin_p2_facts c hc2
    obtain ⟨c', he, hcm, _⟩ := map_rotate_pair (by decide) (by decide) c_con_lo_nodup hc2 s
    obtain ⟨g1, g2, g3, g4, g5, g6, g7⟩ := skin_c2_facts c' hcm
    have henc : skin_char 1 s c = c' := by
      rw [skin_char, if_pos (by norm_num : (0 : Int) < 1), if_neg (Phonoshift.bool_ne_true f2),
        if_neg (fun hb => hc1 (contains_iff.mp hb)),
        if_pos (contains_iff.mpr hc2), he, Option.getD_some]
    rw [henc, g4, f3]
  by_cases hc3 : c ∈ P_VOW_UP
  · obtain ⟨f1, f2, f3, f4, f5⟩ := skin_p3_facts c hc3
    obtain ⟨c', he, hcm, _⟩ := map_rotate_pair (by decide) (by decide) c_vow_up_nodup hc3 s
    obtain ⟨g1, g2, g3, g4, g5, g6, g7, g8⟩ := skin_c3_facts c' hcm
    have henc : skin_char 1 s c = c' := by
      rw [skin_char, if_pos (by norm_num : (0 : Int) < 1), if_neg (Phonoshift.bool_ne_true f2),
        if_neg (fun hb => hc1 (contains_iff.mp hb)),
        if_neg (fun hb => hc2 (contains_iff.mp hb)),
        if_pos (contains_iff.mpr hc3), he, Option.getD_some]
    rw [henc, g4, f3]
  by_cases hc4 : c ∈ P_CON_UP
  · obtain ⟨f1, f2, f3, f4, f5, f6⟩ := skin_p4_facts c hc4
    obtain ⟨c', he, hcm, _⟩ := map_rotate_pair (by decide) (by decide) c_con_up_nodup hc4 s
    obtain ⟨g1, g2, g3, g4, g5, g6, g7, g8, g9⟩ := skin_c4_facts c' hcm
    have henc : skin_char 1 s c = c' := by
      rw [skin_char, if_pos (by norm_num : (0 : Int) < 1), if_neg (Phonoshift.bool_ne_true f2),
        if_neg (fun hb => hc1 (contains_iff.mp hb)),
        if_neg (fun hb => hc2 (contains_iff.mp hb)),
        if_neg (fun hb => hc3 (contains_iff.mp hb)),
        if_pos (contains_iff.mpr hc4), he, Option.getD_some]
    rw [henc, g4, f3]
  by_cases hc5 : c ∈ P_VOW_LO_PT
  · obtain ⟨f1, f2, f3, f4, f5, f6, f7⟩ := skin_p5_facts c hc5
    obtain ⟨c', he, hcm, _⟩ := map_rotate_pair (by decide) (by decide) c_acc_lo_nodup hc5 s
    obtain ⟨g1, g2, g3, g4, g5, g6, g7, g8, g9, g10⟩ := skin_c5_facts c' hcm
    have henc : skin_char 1 s c = c' := by
      rw [skin_char, if_pos (by norm_num : (0 : Int) < 1), if_neg (Phonoshift.bool_ne_true f2),
        if_neg (fun hb => hc1 (contains_iff.mp hb)),
        if_neg (fun hb => hc2 (contains_iff.mp hb)),
        if_neg (fun hb => hc3 (contains_iff.mp hb)),
        if_neg (fun hb => hc4 (contains_iff.mp hb)),
        if_pos (contains_iff.mpr hc5), he, Option.getD_some]
    rw [henc, g4, f3]
  by_cases hc6 : c ∈ P_VOW_UP_PT
  · obtain ⟨f1, f2, f3, f4, f5, f6, f7, f8⟩ := skin_p6_facts c hc6
    obtain ⟨c', he, hcm, _⟩ := map_rotate_pair (by decide) (by decide) c_acc_up_nodup hc6 s
    obtain ⟨g1, g2, g3, g4, g5, g6, g7, g8, g9, g10, g11⟩ := skin_c6_facts c' hcm
    have henc : skin_char 1 s c = c' := by
      rw [skin_char, if_pos (by norm_num : (0 : Int) < 1), if_neg (Phonoshift.bool_ne_true f2),
        if_neg (fun hb => hc1 (contains_iff.mp hb)),
        if_neg (fun hb => hc2 (contains_iff.mp hb)),
        if_neg (fun hb => hc3 (contains_iff.mp hb)),
        if_neg (fun hb => hc4 (contains_iff.mp hb)),
        if_neg (fun hb => hc5 (contains_iff.mp hb)),
        if_pos (contains_iff.mpr hc6), he, Option.getD_some]
    rw [henc, g4, f3]
  by_cases hced1 : c = 'ç'
  · subst hced1
    have henc : skin_char 1 s 'ç' = C_CED_LO := by
      rw [skin_char, if_pos (by norm_num : (0 : Int) < 1),
        if_neg (by decide : ¬ (is_digit 'ç' = true)),
        if_neg (by decide : ¬ (P_VOW_LO.contains 'ç' = true)),
        if_neg (by decide : ¬ (P_CON_LO.contains 'ç' = true)),
        if_neg (by decide : ¬ (P_VOW_UP.contains 'ç' = true)),
        if_neg (by decide : ¬ (P_CON_UP.contains 'ç' = true)),
        if_neg (by decide : ¬ (P_VOW_LO_PT.contains 'ç' = true)),
        if_neg (by decide : ¬ (P_VOW_UP_PT.contains 'ç' = true)),
        if_pos (by decide : (('ç' == 'ç') = true))]
    rw [henc]
    decide
  by_cases hced2 : c = 'Ç'
  · subst hced2
    have henc : skin_char 1 s 'Ç' = C_CED_UP := by
      rw [skin_char, if_pos (by norm_num : (0 : Int) < 1),
        if_neg (by decide : ¬ (is_digit 'Ç' = true)),
        if_neg (by decide : ¬ (P_VOW_LO.contains 'Ç' = true)),
        if_neg (by decide : ¬ (P_CON_LO.contains 'Ç' = true)),
        if_neg (by decide : ¬ (P_VOW_UP.contains 'Ç' = true)),
        if_neg (by decide : ¬ (P_CON_UP.contains 'Ç' = true)),
        if_neg (by decide : ¬ (P_VOW_LO_PT.contains 'Ç' = true)),
        if_neg (by decide : ¬ (P_VOW_UP_PT.contains 'Ç' = true)),
        if_neg (by decide : ¬ (('Ç' == 'ç') = true)),
        if_pos (by decide : (('Ç' == 'Ç') = true))]
    rw [henc]
    decide
  · have henc : skin_char 1 s c = c := by
      rw [skin_char, if_pos (by norm_num : (0 : Int) < 1), if_neg hdig,
        if_neg (fun hb => hc1 (contains_iff.mp hb)),
        if_neg (fun hb => hc2 (contains_iff.mp hb)),
        if_neg (fun hb => hc3 (contains_iff.mp hb)),
        if_neg (fun hb => hc4 (contains_iff.mp hb)),
        if_neg (fun hb => hc5 (contains_iff.mp hb)),
        if_neg (fun hb => hc6 (contains_iff.mp hb)),
        if_neg (fun hb => hced1 (eq_of_beq hb)),
        if_neg (fun hb => hced2 (eq_of_beq hb))]
    rw [henc]

theorem skin_go_tok_count (ks : List Nat) :
    ∀ (cs : List Char) (kpos : Nat) (b : Bool),
      tok_count is_token_sep (skin_go ks 1 cs kpos) b = tok_count is_token_sep cs b := by
  intro cs
  induction cs with
  | nil => intro _ _; rfl
  | cons c rest ih =>
    intro kpos b
    by_cases hsep : is_separator c = true
    · rw [skin_go_cons_sep _ _ _ _ _ hsep, Phonoshift.tok_count_cons,
        Phonoshift.tok_count_cons]
      by_cases hts : is_token_sep c = true
      · rw [if_pos hts, if_pos hts, ih kpos false]
      · rw [if_neg hts, if_neg hts, ih kpos true]
    · have hsep' : is_separator c = false := Bool.eq_false_iff.mpr hsep
      rw [skin_go_cons _ _ _ _ _ hsep', Phonoshift.tok_count_cons, Phonoshift.tok_count_cons]
      have htok := skin_char_enc_tok ((((ks.getD kpos 0 % 256 : Nat) : Int) + 1) * 1) c
      by_cases hts : is_token_sep c = true
      · rw [if_pos (htok.trans hts), if_pos hts, ih _ false]
      · have hts' : is_token_sep c = false := Bool.eq_false_iff.mpr hts
        rw [if_neg (Phonoshift.bool_ne_true (htok.trans hts')), if_neg hts, ih _ true]

theorem skin_transform_tok_count (t password : List Char) (iterations : Nat)
    (salt : List Char) (b : Bool) :
    tok_count is_token_sep (skin_transform t password iterations salt 1) b
      = tok_count is_token_sep t b := by
  by_cases he : t.isEmpty = true
  · rw [skin_transform_of_empty _ _ _ _ he]
  · rw [skin_transform, if_neg (Phonoshift.bool_ne_true (Bool.eq_false_iff.mpr he))]
    exact skin_go_tok_count _ t 0 b

end Kanashift

namespace Kanashift

open ROT500K

theorem rotate_kanji_toNat {c : Char} (h1 : 0x4E00 ≤ c.toNat) (h2 : c.toNat ≤ 0x9FFF)
    (s : Int) :
    0x4E00 ≤ (rotate_codepoint_range_no_zero c s 0x4E00 0x9FFF).toNat ∧
    (rotate_codepoint_range_no_zero c s 0x4E00 0x9FFF).toNat ≤ 0x9FFF := by
  have hM : ((0x9FFF - 0x4E00 + 1 : Nat) : Int) = 20992 := by norm_num
  have hr0 : 0 ≤ ((c.toNat : Int) - 19968 + effective_shift s (0x9FFF - 0x4E00 + 1)) % 20992 :=
    Int.emod_nonneg _ (by norm_num)
  have hr1 : ((c.toNat : Int) - 19968 + effective_shift s (0x9FFF - 0x4E00 + 1)) % 20992
      < 20992 := Int.emod_lt_of_pos _ (by norm_num)
  have henc : rotate_codepoint_range_no_zero c s 0x4E00 0x9FFF =
      Char.ofNat (0x4E00 +
        (((c.toNat : Int) - 19968 +
          effective_shift s (0x9FFF - 0x4E00 + 1)) % 20992).toNat) := by
    rw [rotate_codepoint_range_no_zero,
      if_neg (by simp only [Bool.or_eq_true, decide_eq_true_eq]; omega), hM]
    norm_num
  rw [henc, char_toNat_ofNat (by omega)]
  omega

/- Token-separator status is preserved by one encryption-direction JP-native
scalar, for EVERY scalar and every shift. -/
theorem jp_char_enc_tok (s : Int) (c : Char) :
    is_token_sep (jp_char 1 s c) = is_token_sep c := by
  by_cases hAl : (is_ascii_upper c || is_ascii_lower c) = true
  · have h' : is_ascii_upper c = true ∨ is_ascii_lower c = true :=
      Bool.or_eq_true _ _ |>.mp hAl
    obtain ⟨_, _, _, _, r5, _⟩ := rotate_ascii_alpha_phono_spec s h'
    have henc : jp_char 1 s c = rotate_ascii_alpha_phono c s := by
      rw [jp_char, if_pos hAl]
    have hintok : is_token_sep c = false := by
      rcases h' with ho | ho
      · have hb := is_ascii_upper_iff.mp ho
        exact kana_is_token_sep_alpha_false (by omega) (by omega)
      · have hb := is_ascii_lower_iff.mp ho
        exact kana_is_token_sep_alpha_false (by omega) (by omega)
    rw [henc, r5, hintok]
  · have hAl' : (is_ascii_upper c || is_ascii_lower c) = false := Bool.eq_false_iff.mpr hAl
    by_cases hdig : is_digit c = true
    · have hb := is_digit_iff.mp hdig
      have hnd0 : 0 ≤ ((c.toNat : Int) - 48 + effective_shift s 10 + 10) % 10 :=
        Int.emod_nonneg _ (by norm_num)
      have hnd1 : ((c.toNat : Int) - 48 + effective_shift s 10 + 10) % 10 < 10 :=
        Int.emod_lt_of_pos _ (by norm_num)
      have henc : jp_char 1 s c = Char.ofNat
          ((0xFF10 : Int) + ((c.toNat : Int) - 48 + effective_shift s 10 + 10) % 10).toNat := by
        rw [jp_char, if_neg (Phonoshift.bool_ne_true hAl'),
          if_pos (show (decide ((0 : Int) < 1) && is_digit c) = true by rw [hdig]; rfl)]
      have htn : (jp_char 1 s c).toNat =
          ((0xFF10 : Int) + ((c.toNat : Int) - 48 + effective_shift s 10 + 10) % 10).toNat := by
        rw [henc, char_toNat_ofNat_high (by omega)]
      rw [kana_is_token_sep_fw_false (by omega) (by omega),
        kana_is_token_sep_digit_false hdig]
    · have hdig' : is_digit c = false := Bool.eq_false_iff.mpr hdig
      by_cases hfw : is_fullwidth_digit c = true
      · have hb := is_fullwidth_digit_iff.mp hfw
        have hnd0 : 0 ≤ ((c.toNat : Int) - 0xFF10 + effective_shift s 10 + 10) % 10 :=
          Int.emod_nonneg _ (by norm_num)
        have hnd1 : ((c.toNat : Int) - 0xFF10 + effective_shift s 10 + 10) % 10 < 10 :=
          Int.emod_lt_of_pos _ (by norm_num)
        have henc : jp_char 1 s c = Char.ofNat
            ((0xFF10 : Int) +
              ((c.toNat : Int) - 0xFF10 + effective_shift s 10 + 10) % 10).toNat := by
          rw [jp_char, if_neg (Phonoshift.bool_ne_true hAl'),
            if_neg (show ¬ ((decide ((0 : Int) < 1) && is_digit c) = true) by simp [hdig']),
            if_pos (show (decide ((0 : Int) < 1) && is_fullwidth_digit c) = true by
              rw [hfw]; rfl)]
        have htn : (jp_char 1 s c).toNat =
            ((0xFF10 : Int) +
              ((c.toNat : Int) - 0xFF10 + effective_shift s 10 + 10) % 10).toNat := by
          rw [henc, char_toNat_ofNat_high (by omega)]
        rw [kana_is_token_sep_fw_false (by omega) (by omega),
          kana_is_token_sep_fw_false (by omega) (by omega)]
      · have hfw' : is_fullwidth_digit c = false := Bool.eq_false_iff.mpr hfw
        by_cases hh : is_hiragana c = true
        · have hbh := is_hiragana_iff.mp hh
          have hcm : c ∈ JP_HIRA := mem_build_kana_set_of (by norm_num) hbh.1 hbh.2
          have hyb := build_kana_set_toNat (by norm_num)
            (rotate_in_set_no_zero_mem hcm s)
          have henc : jp_char 1 s c = rotate_in_set_no_zero JP_HIRA c s := by
            rw [jp_char, if_neg (Phonoshift.bool_ne_true hAl'),
              if_neg (show ¬ ((decide ((0 : Int) < 1) && is_digit c) = true) by
                simp [hdig']),
              if_neg (show ¬ ((decide ((0 : Int) < 1) && is_fullwidth_digit c) = true) by
                simp [hfw']),
              if_neg (show ¬ ((!decide ((0 : Int) < 1) &&
                (is_digit c || is_fullwidth_digit c)) = true) by simp),
              if_pos hh]
          rw [henc, kana_is_token_sep_hira_false hyb.1 hyb.2,
            kana_is_token_sep_hira_false hbh.1 hbh.2]
        · have hh' : is_hiragana c = false := Bool.eq_false_iff.mpr hh
          by_cases hk : is_katakana c = true
          · have hbk := is_katakana_iff.mp hk
            have hcm : c ∈ JP_KATA := mem_build_kana_set_of (by norm_num) hbk.1 hbk.2
            have hyb := build_kana_set_toNat (by norm_num)
              (rotate_in_set_no_zero_mem hcm s)
            have henc : jp_char 1 s c = rotate_in_set_no_zero JP_KATA c s := by
              rw [jp_char, if_neg (Phonoshift.bool_ne_true hAl'),
                if_neg (show ¬ ((decide ((0 : Int) < 1) && is_digit c) = true) by
                  simp [hdig']),
                if_neg (show ¬ ((decide ((0 : Int) < 1) && is_fullwidth_digit c) = true) by
                  simp [hfw']),
                if_neg (show ¬ ((!decide ((0 : Int) < 1) &&
                  (is_digit c || is_fullwidth_digit c)) = true) by simp),
                if_neg (Phonoshift.bool_ne_true hh'), if_pos hk]
            rw [henc, kana_is_token_sep_kata_false hyb.1 hyb.2,
              kana_is_token_sep_kata_false hbk.1 hbk.2]
          · have hk' : is_katakana c = false := Bool.eq_false_iff.mpr hk
            by_cases hkj : is_kanji c = true
            · have hbj := is_kanji_iff.mp hkj
              obtain ⟨b1, b2⟩ := rotate_kanji_toNat hbj.1 hbj.2 s
              have henc : jp_char 1 s c =
                  rotate_codepoint_range_no_zero c s 0x4E00 0x9FFF := by
                rw [jp_char, if_neg (Phonoshift.bool_ne_true hAl'),
                  if_neg (show ¬ ((decide ((0 : Int) < 1) && is_digit c) = true) by
                    simp [hdig']),
                  if_neg (show ¬ ((decide ((0 : Int) < 1) &&
                    is_fullwidth_digit c) = true) by simp [hfw']),
                  if_neg (show ¬ ((!decide ((0 : Int) < 1) &&
                    (is_digit c || is_fullwidth_digit c)) = true) by simp),
                  if_neg (Phonoshift.bool_ne_true hh'),
                  if_neg (Phonoshift.bool_ne_true hk'), if_pos hkj]
              rw [henc, kana_is_token_sep_kanji_false b1 b2,
                kana_is_token_sep_kanji_false hbj.1 hbj.2]
            · have hkj' : is_kanji c = false := Bool.eq_false_iff.mpr hkj
              have henc : jp_char 1 s c = c := by
                rw [jp_char, if_neg (Phonoshift.bool_ne_true hAl'),
                  if_neg (show ¬ ((decide ((0 : Int) < 1) && is_digit c) = true) by
                    simp [hdig']),
                  if_neg (show ¬ ((decide ((0 : Int) < 1) &&
                    is_fullwidth_digit c) = true) by simp [hfw']),
                  if_neg (show ¬ ((!decide ((0 : Int) < 1) &&
                    (is_digit c || is_fullwidth_digit c)) = true) by simp),
                  if_neg (Phonoshift.bool_ne_true hh'),
                  if_neg (Phonoshift.bool_ne_true hk'),
                  if_neg (Phonoshift.bool_ne_true hkj')]
              rw [henc]

theorem jp_go_tok_count (ks : List Nat) :
    ∀ (cs : List Char) (kpos : Nat) (b : Bool),
      tok_count is_token_sep (jp_go ks 1 cs kpos) b = tok_count is_token_sep cs b := by
  intro cs
  induction cs with
  | nil => intro _ _; rfl
  | cons c rest ih =>
    intro kpos b
    by_cases hsep : is_separator c = true
    · rw [jp_go_cons_sep _ _ _ _ _ hsep, Phonoshift.tok_count_cons, Phonoshift.tok_count_cons]
      by_cases hts : is_token_sep c = true
      · rw [if_pos hts, if_pos hts, ih kpos false]
      · rw [if_neg hts, if_neg hts, ih kpos true]
    · have hsep' : is_separator c = false := Bool.eq_false_iff.mpr hsep
      by_cases hstm : is_stable_jp_mark c = true
      · rw [jp_go_cons_stable _ _ _ _ _ hsep' hstm, Phonoshift.tok_count_cons,
          Phonoshift.tok_count_cons]
        by_cases hts : is_token_sep c = true
        · rw [if_pos hts, if_pos hts, ih kpos false]
        · rw [if_neg hts, if_neg hts, ih kpos true]
      · have hstm' : is_stable_jp_mark c = false := Bool.eq_false_iff.mpr hstm
        rw [jp_go_cons _ _ _ _ _ hsep' hstm', Phonoshift.tok_count_cons,
          Phonoshift.tok_count_cons]
        have htok := jp_char_enc_tok (((ks.getD kpos 0 % 256 : Nat) : Int) * 1) c
        by_cases hts : is_token_sep c = true
        · rw [if_pos (htok.trans hts), if_pos hts, ih _ false]
        · have hts' : is_token_sep c = false := Bool.eq_false_iff.mpr hts
          rw [if_neg (Phonoshift.bool_ne_true (htok.trans hts')), if_neg hts, ih _ true]

theorem jp_transform_tok_count (t password : List Char) (iterations : Nat)
    (salt : List Char) (b : Bool) :
    tok_count is_token_sep (jp_native_transform t password iterations salt 1) b
      = tok_count is_token_sep t b := by
  by_cases he : t.isEmpty = true
  · rw [jp_native_transform, if_pos he]
  · rw [jp_native_transform, if_neg (Phonoshift.bool_ne_true (Bool.eq_false_iff.mpr he))]
    exact jp_go_tok_count _ t 0 b

end Kanashift

namespace Kanashift

open ROT500K

theorem kana_attach_go_cons_nonsep (checks : List (List Char)) (c : Char) (cs tok : List Char)
    (idx : Nat) (h : is_token_sep c = false) :
    attach_go checks (c :: cs) tok idx = attach_go checks cs (tok ++ [c]) idx := by
  rw [attach_go, if_neg (Phonoshift.bool_ne_true h)]

theorem kana_attach_go_cons_sep_empty (checks : List (List Char)) (c : Char) (cs : List Char)
    (idx : Nat) (h : is_token_sep c = true) :
    attach_go checks (c :: cs) [] idx = (attach_go checks cs [] idx).map (fun r => c :: r) := by
  rw [attach_go, if_pos h, if_pos (show (List.isEmpty ([] : List Char)) = true from rfl)]

theorem kana_attach_go_cons_sep_flush (checks : List (List Char)) (c : Char) (cs tok : List Char)
    (idx : Nat) (h : is_token_sep c = true) (hne : tok.isEmpty = false)
    (hlt : ¬ (checks.length ≤ idx)) :
    attach_go checks (c :: cs) tok idx =
      (attach_go checks cs [] (idx + 1)).map
        (fun r => tok ++ checks.getD idx [] ++ c :: r) := by
  rw [attach_go, if_pos h, if_neg (Phonoshift.bool_ne_true hne), if_neg hlt]

/- Attaching per-token check characters in the kana families always succeeds
when the token count of the scanned string agrees with the number of checks. -/
theorem kana_attach_go_some (checks : List (List Char)) :
    ∀ (cs tok : List Char) (tok_idx : Nat),
      tok_idx + tok_count is_token_sep cs (!tok.isEmpty) = checks.length →
      ∃ out, attach_go checks cs tok tok_idx = some out := by
  intro cs
  induction cs with
  | nil =>
    intro tok idx hcnt
    rcases tok with _ | ⟨t, ts⟩
    · have hidx : idx = checks.length := by simpa [tok_count] using hcnt
      exact ⟨[], by
        rw [attach_go, if_pos (show (List.isEmpty ([] : List Char)) = true from rfl),
          if_pos hidx]⟩
    · have hcnt1 : idx + 1 = checks.length := by simpa [tok_count] using hcnt
      exact ⟨(t :: ts) ++ checks.getD idx [], by
        rw [attach_go,
          if_neg (Phonoshift.bool_ne_true
            (show (t :: ts : List Char).isEmpty = false from rfl)),
          if_neg (by omega), if_pos hcnt1]⟩
  | cons c cs' ih =>
    intro tok idx hcnt
    by_cases hcsep : is_token_sep c = true
    · rcases tok with _ | ⟨t, ts⟩
      · have hcnt' : idx + tok_count is_token_sep cs' (!(List.isEmpty ([] : List Char)))
            = checks.length := by
          have h2 := hcnt
          rw [Phonoshift.tok_count_cons, if_pos hcsep] at h2
          simpa using h2
        obtain ⟨r, har⟩ := ih [] idx hcnt'
        exact ⟨c :: r, by rw [kana_attach_go_cons_sep_empty _ _ _ _ hcsep, har]; rfl⟩
      · have hcnt' : (idx + 1) + tok_count is_token_sep cs'
            (!(List.isEmpty ([] : List Char))) = checks.length := by
          have h2 := hcnt
          rw [Phonoshift.tok_count_cons, if_pos hcsep] at h2
          simp at h2 ⊢
          omega
        have hlt : idx < checks.length := by
          have h2 := hcnt
          rw [Phonoshift.tok_count_cons, if_pos hcsep] at h2
          simp at h2
          omega
        obtain ⟨r, har⟩ := ih [] (idx + 1) hcnt'
        exact ⟨(t :: ts) ++ checks.getD idx [] ++ c :: r, by
          rw [kana_attach_go_cons_sep_flush _ _ _ _ _ hcsep
            (show (t :: ts : List Char).isEmpty = false from rfl) (by omega), har]
          rfl⟩
    · have hcsep' : is_token_sep c = false := Bool.eq_false_iff.mpr hcsep
      have hcnt' : idx + tok_count is_token_sep cs' (!(tok ++ [c]).isEmpty)
          = checks.length := by
        have h2 := hcnt
        rw [Phonoshift.tok_count_cons, if_neg hcsep] at h2
        rw [Phonoshift.append_singleton_ne_nil]
        simpa using h2
      obtain ⟨r, har⟩ := ih (tok ++ [c]) idx hcnt'
      exact ⟨r, by rw [kana_attach_go_cons_nonsep _ _ _ _ _ hcsep', har]⟩

theorem kana_build_checks_go_count (password salt : List Char) (iterations N : Nat)
    (domain : List Char) (norm_fn : List Char → List Char) :
    ∀ (cs tok : List Char) (idx : Nat),
      (build_checks_go password salt iterations N domain norm_fn cs tok idx).length
        = tok_count is_token_sep cs (!tok.isEmpty) := by
  intro cs
  induction cs with
  | nil =>
    intro tok idx
    by_cases he : tok.isEmpty = true
    · simp [build_checks_go, tok_count, he]
    · have he' : tok.isEmpty = false := Bool.eq_false_iff.mpr he
      simp [build_checks_go, tok_count, he']
  | cons c cs' ih =>
    intro tok idx
    by_cases hs : is_token_sep c = true
    · by_cases he : tok.isEmpty = true
      · simp [build_checks_go, hs, he, ih [] idx, Phonoshift.tok_count_cons]
      · have he' : tok.isEmpty = false := Bool.eq_false_iff.mpr he
        simp [build_checks_go, hs, he', ih [] (idx + 1), Phonoshift.tok_count_cons,
          Nat.add_comm]
    · have hs' : is_token_sep c = false := Bool.eq_false_iff.mpr hs
      rw [Phonoshift.tok_count_cons, if_neg hs]
      simp only [build_checks_go, if_neg (Phonoshift.bool_ne_true hs')]
      rw [ih (tok ++ [c]) idx, Phonoshift.append_singleton_ne_nil]
      rfl

end Kanashift

/-- C10 (implicit).  KT encoding never raises the structural error: for every
plaintext and parameters, the token-tagged encrypts of all three families
return `some`, because each core transform preserves token-separator status
scalar by scalar, so the ciphertext tokenizes into exactly as many tokens as
the plaintext and both raise-branches of `attach_checks_to_cipher` are
unreachable. -/
theorem claim10_kt_encode_total (t password : List Char) (iterations : Nat)
    (salt : List Char) (N : Nat) (sp : Bool) :
    (Phonoshift.rot500k_token_tagged t password iterations salt N sp).isSome = true ∧
    (Kanashift.kanashift_skin_token_encrypt t password iterations salt N sp).isSome = true ∧
    (Kanashift.kanashift_jp_token_encrypt t password iterations salt N sp).isSome = true := by
  refine ⟨?_, ?_, ?_⟩
  · have hw : ∀ ch ∈ Phonoshift.build_plain_token_checks t password salt iterations N,
        ch.length = max 1 N ∧ ∀ c ∈ ch, Phonoshift.is_token_sep c = false := by
      intro ch hch
      exact Phonoshift.build_checks_go_wf password salt iterations N t [] 0 ch hch
    have hcnt : 0 + ROT500K.tok_count Phonoshift.is_token_sep
        (Phonoshift.transform_name_name_like_fpe t password iterations salt 1)
        (!(List.isEmpty ([] : List Char)))
        = (Phonoshift.build_plain_token_checks t password salt iterations N).length := by
      rw [Nat.zero_add, Phonoshift.transform_fpe_tok_count,
        Phonoshift.build_plain_token_checks, Phonoshift.build_checks_go_count]
    obtain ⟨out, hat, _⟩ := Phonoshift.attach_strip_go (max 1 N)
      (Phonoshift.build_plain_token_checks t password salt iterations N) hw
      (Phonoshift.transform_name_name_like_fpe t password iterations salt 1) [] 0
      (fun c hc => absurd hc (List.not_mem_nil c)) hcnt
    simp only [Phonoshift.rot500k_token_tagged]
    rw [Phonoshift.attach_checks_to_cipher, hat]
    rfl
  · have hcnt : 0 + ROT500K.tok_count Kanashift.is_token_sep
        (Kanashift.skin_transform t password iterations salt 1)
        (!(List.isEmpty ([] : List Char)))
        = (Kanashift.build_plain_token_checks t password salt iterations N
            Kanashift.TOK_DOMAIN_SKIN Kanashift.norm_token_skin).length := by
      rw [Nat.zero_add, Kanashift.skin_transform_tok_count,
        Kanashift.build_plain_token_checks, Kanashift.kana_build_checks_go_count]
    obtain ⟨out, hat⟩ := Kanashift.kana_attach_go_some
      (Kanashift.build_plain_token_checks t password salt iterations N
        Kanashift.TOK_DOMAIN_SKIN Kanashift.norm_token_skin)
      (Kanashift.skin_transform t password iterations salt 1) [] 0 hcnt
    simp only [Kanashift.kanashift_skin_token_encrypt,
      Kanashift.family_token_tagged_encrypt]
    rw [Kanashift.attach_checks_to_cipher, hat]
    rfl
  · have hcnt : 0 + ROT500K.tok_count Kanashift.is_token_sep
        (Kanashift.jp_native_transform t password iterations salt 1)
        (!(List.isEmpty ([] : List Char)))
        = (Kanashift.build_plain_token_checks t password salt iterations N
            Kanashift.TOK_DOMAIN_JP Kanashift.norm_token_identity).length := by
      rw [Nat.zero_add, Kanashift.jp_transform_tok_count,
        Kanashift.build_plain_token_checks, Kanashift.kana_build_checks_go_count]
    obtain ⟨out, hat⟩ := Kanashift.kana_attach_go_some
      (Kanashift.build_plain_token_checks t password salt iterations N
        Kanashift.TOK_DOMAIN_JP Kanashift.norm_token_identity)
      (Kanashift.jp_native_transform t password iterations salt 1) [] 0 hcnt
    simp only [Kanashift.kanashift_jp_token_encrypt,
      Kanashift.family_token_tagged_encrypt]
    rw [Kanashift.attach_checks_to_cipher, hat]
    rfl
